import Mathlib

/-!
# EAP-TTLS server (hostapd `eap_server/eap_ttls.c`): AVP codec and Phase 2

A shallow embedding of the AVP encoder (`eap_ttls_avp_hdr`,
`eap_ttls_avp_encapsulate`), of the AVP decoder (`eap_ttls_avp_parse`), of the
Phase 2 dispatcher (`eap_ttls_process_phase2`), of the PAP, CHAP, MS-CHAP and
MS-CHAPv2 handlers, of the key export (`eap_ttls_getKey`) and of
`eap_ttls_process_msg`.

Conventions of the embedding:

* a byte buffer handed to the decoder is a memory `buf : Nat → Nat` (the byte stored
  at each offset from the pointer `buf`) together with the length `len`; cells at
  offsets `≥ len` exist in the model (they hold whatever the memory holds there), so
  that a read past the end of the buffer is visible;
* every offset the decoder dereferences is recorded, in order, in a list of reads;
* the views of the parsed set (`user_name`, ...) are the byte strings they point to;
* constants and allocation functions that the source takes from headers or libraries
  are parameters (`ttls_consts`, `allocator`), and so are the TLS layer and the
  cryptographic primitives (`ext_env`); the calls whose occurrence matters are
  recorded as `ttls_event`s.
-/

namespace EapTtls

/-! ## Parameters: constants and allocation -/

/-- The constants used by `eap_ttls.c` that are defined in headers outside the source
file (`eap_common/eap_ttls.h`, `radius/radius.h`, `eap_tls_common.h`). -/
structure ttls_consts where
  AVP_FLAGS_VENDOR : Nat
  AVP_FLAGS_MANDATORY : Nat
  RADIUS_ATTR_USER_NAME : Nat
  RADIUS_ATTR_USER_PASSWORD : Nat
  RADIUS_ATTR_CHAP_PASSWORD : Nat
  RADIUS_ATTR_CHAP_CHALLENGE : Nat
  RADIUS_ATTR_EAP_MESSAGE : Nat
  RADIUS_VENDOR_ID_MICROSOFT : Nat
  RADIUS_ATTR_MS_CHAP_RESPONSE : Nat
  RADIUS_ATTR_MS_CHAP_CHALLENGE : Nat
  RADIUS_ATTR_MS_CHAP2_RESPONSE : Nat
  /-- Whether the build defines the macro `EAP_SERVER_TNC`. -/
  EAP_SERVER_TNC : Bool
  EAP_TTLS_AUTH_PAP : Nat
  EAP_TTLS_AUTH_CHAP : Nat
  EAP_TTLS_AUTH_MSCHAP : Nat
  EAP_TTLS_AUTH_MSCHAPV2 : Nat
  EAP_TTLS_CHAP_CHALLENGE_LEN : Nat
  EAP_TTLS_CHAP_PASSWORD_LEN : Nat
  EAP_TTLS_MSCHAP_CHALLENGE_LEN : Nat
  EAP_TTLS_MSCHAP_RESPONSE_LEN : Nat
  EAP_TTLS_MSCHAPV2_CHALLENGE_LEN : Nat
  EAP_TTLS_MSCHAPV2_RESPONSE_LEN : Nat
  EAP_TLS_KEY_LEN : Nat
  EAP_TYPE_TNC : Nat
  RADIUS_ATTR_MS_CHAP_ERROR : Nat
  RADIUS_ATTR_MS_CHAP2_SUCCESS : Nat
  EAP_TYPE_NONE : Nat
  EAP_TYPE_IDENTITY : Nat
  EAP_TYPE_NAK : Nat
  EAP_MAX_METHODS : Nat
  EAP_CODE_RESPONSE : Nat
  METHOD_PENDING_WAIT : Nat
  EAP_TLS_FLAGS_START : Nat
  /-- The macro `EAP_TTLS_VERSION`, which the build may define (source lines 31-33). -/
  EAP_TTLS_VERSION : Int

/-- The values the hostapd headers give to the constants (RFC 5281, RFC 2865,
RFC 2548); used to instantiate the general theorems. -/
def hostap_consts : ttls_consts where
  AVP_FLAGS_VENDOR := 0x80
  AVP_FLAGS_MANDATORY := 0x40
  RADIUS_ATTR_USER_NAME := 1
  RADIUS_ATTR_USER_PASSWORD := 2
  RADIUS_ATTR_CHAP_PASSWORD := 3
  RADIUS_ATTR_CHAP_CHALLENGE := 60
  RADIUS_ATTR_EAP_MESSAGE := 79
  RADIUS_VENDOR_ID_MICROSOFT := 311
  RADIUS_ATTR_MS_CHAP_RESPONSE := 1
  RADIUS_ATTR_MS_CHAP_CHALLENGE := 11
  RADIUS_ATTR_MS_CHAP2_RESPONSE := 25
  EAP_SERVER_TNC := false
  EAP_TTLS_AUTH_PAP := 0x01
  EAP_TTLS_AUTH_CHAP := 0x02
  EAP_TTLS_AUTH_MSCHAP := 0x04
  EAP_TTLS_AUTH_MSCHAPV2 := 0x08
  EAP_TTLS_CHAP_CHALLENGE_LEN := 16
  EAP_TTLS_CHAP_PASSWORD_LEN := 16
  EAP_TTLS_MSCHAP_CHALLENGE_LEN := 8
  EAP_TTLS_MSCHAP_RESPONSE_LEN := 50
  EAP_TTLS_MSCHAPV2_CHALLENGE_LEN := 16
  EAP_TTLS_MSCHAPV2_RESPONSE_LEN := 50
  EAP_TLS_KEY_LEN := 64
  EAP_TYPE_TNC := 38
  RADIUS_ATTR_MS_CHAP_ERROR := 2
  RADIUS_ATTR_MS_CHAP2_SUCCESS := 26
  EAP_TYPE_NONE := 0
  EAP_TYPE_IDENTITY := 1
  EAP_TYPE_NAK := 3
  EAP_MAX_METHODS := 8
  EAP_CODE_RESPONSE := 2
  METHOD_PENDING_WAIT := 1
  EAP_TLS_FLAGS_START := 0x20
  EAP_TTLS_VERSION := 0

/-- Outcome of the allocation calls of the source: each field tells whether the call
with that size returns a non-NULL pointer. `os_realloc` takes the old and the new
size. -/
structure allocator where
  os_malloc : Nat → Bool
  os_realloc : Nat → Nat → Bool
  wpabuf_alloc : Nat → Bool

/-- An allocator that never fails. -/
def allocator.total : allocator where
  os_malloc := fun _ => true
  os_realloc := fun _ _ => true
  wpabuf_alloc := fun _ => true

/-- Modelled from the spec: `struct ttls_avp` is declared in `eap_common/eap_ttls.h`,
which is not among the sources; the spec gives the standard header as 8 bytes
(4-byte code, 4-byte flags/length word). -/
def sizeof_ttls_avp : Nat := 8

/-- Modelled from the spec: `struct ttls_avp_vendor` is declared in
`eap_common/eap_ttls.h`, which is not among the sources; the spec gives the
vendor-specific header as 12 bytes (the standard header followed by a 4-byte vendor
identifier). -/
def sizeof_ttls_avp_vendor : Nat := 12

/-! ## Encoder -/

/-- The four bytes stored by an assignment of `host_to_be32 (x)` to a `be32` field:
the low 32 bits of `x`, most significant byte first. -/
def host_to_be32 (x : Nat) : List Nat :=
  [x / 2 ^ 24 % 256, x / 2 ^ 16 % 256, x / 2 ^ 8 % 256, x % 256]

/-- The header bytes written by `eap_ttls_avp_hdr` (source lines 96-117); the returned
pointer `avphdr + hdrlen` is the end of this list. `flags` is a `u8`. -/
def eap_ttls_avp_hdr (K : ttls_consts) (avp_code vendor_id : Nat) (mandatory : Bool)
    (len : Nat) : List Nat :=
  let flags := (if mandatory then K.AVP_FLAGS_MANDATORY else 0) % 256
  if vendor_id ≠ 0 then
    let flags := (flags ||| K.AVP_FLAGS_VENDOR) % 256
    let hdrlen := sizeof_ttls_avp_vendor
    host_to_be32 avp_code ++ host_to_be32 ((flags <<< 24) ||| (hdrlen + len))
      ++ host_to_be32 vendor_id
  else
    let hdrlen := sizeof_ttls_avp
    host_to_be32 avp_code ++ host_to_be32 ((flags <<< 24) ||| (hdrlen + len))

/-- Modelled from the spec: the macro `AVP_PAD (start, pos)` is defined in
`eap_common/eap_ttls.h`, which is not among the sources; the spec says the encoder
zero-pads to the next 4-byte boundary. `written` is the content between `start` and
`pos`. -/
def AVP_PAD (written : List Nat) : List Nat :=
  written ++ List.replicate ((4 - written.length % 4) % 4) 0

/-- The buffer returned by `eap_ttls_avp_encapsulate` (source lines 120-140);
`none` is the NULL return when `wpabuf_alloc` fails. -/
def eap_ttls_avp_encapsulate (K : ttls_consts) (A : allocator) (resp : List Nat)
    (avp_code : Nat) (mandatory : Bool) : Option (List Nat) :=
  if A.wpabuf_alloc (sizeof_ttls_avp + resp.length + 4) then
    some (AVP_PAD (eap_ttls_avp_hdr K avp_code 0 mandatory resp.length ++ resp))
  else
    none

/-! ## Decoder -/

/-- The parsed AVP set `struct eap_ttls_avp`: each pointer/length pair is `none` when
the pointer is NULL and otherwise the bytes it designates. -/
structure eap_ttls_avp where
  eap : Option (List Nat)
  user_name : Option (List Nat)
  user_password : Option (List Nat)
  chap_challenge : Option (List Nat)
  chap_password : Option (List Nat)
  mschap_challenge : Option (List Nat)
  mschap_response : Option (List Nat)
  mschap2_response : Option (List Nat)
deriving DecidableEq

/-- The parsed set after `os_memset (parse, 0, sizeof (*parse))`. -/
def eap_ttls_avp.zero : eap_ttls_avp :=
  ⟨none, none, none, none, none, none, none, none⟩

/-- The value read by `be_to_host32` from the four bytes at offset `pos`. -/
def be_to_host32 (buf : Nat → Nat) (pos : Nat) : Nat :=
  (buf pos * 2 ^ 24 + buf (pos + 1) * 2 ^ 16 + buf (pos + 2) * 2 ^ 8 + buf (pos + 3))
    % 2 ^ 32

/-- The `n` bytes stored at offsets `pos, ..., pos + n - 1`. -/
def mem_bytes (buf : Nat → Nat) (pos n : Nat) : List Nat :=
  (List.range n).map (fun i => buf (pos + i))

/-- The conversion `left = len` of a `size_t` to a 32-bit `int`. -/
def size_t_to_int (len : Nat) : Int :=
  if len % 2 ^ 32 < 2 ^ 31 then ((len % 2 ^ 32 : Nat) : Int)
  else ((len % 2 ^ 32 : Nat) : Int) - 2 ^ 32

/-- The loop of source lines 251-254 over the view `password` (the attribute data),
started with `password_len = n`: the final `password_len`. -/
def password_strip (password : List Nat) : Nat → Nat
  | 0 => 0
  | n + 1 => if password.getD n 0 = 0 then password_strip password n else n + 1

/-- The indices `password_len - 1` dereferenced by the loop of source lines 251-254. -/
def password_strip_reads (password : List Nat) : Nat → List Nat
  | 0 => []
  | n + 1 => n :: (if password.getD n 0 = 0 then password_strip_reads password n else [])

/-- What one iteration of the decoding loop does: `goto fail` (with the parsed set as
the label `fail:` leaves it), or reach the end of the loop body, where `pos` moves
forward and `left` goes down by the same `advance = avp_length + pad`. -/
inductive avp_step where
  | fail (parse : eap_ttls_avp)
  | next (advance : Nat) (parse : eap_ttls_avp)
deriving DecidableEq

/-- The label `fail:` (source lines 313-316): the accumulated inner-EAP buffer is
released and its pointer cleared. -/
def avp_parse_fail (parse : eap_ttls_avp) : avp_step :=
  .fail { parse with eap := none }

/-- The end of the loop body (source lines 306-308): the amount `avp_length + pad`
added to `pos` and subtracted from `left`. -/
def avp_parse_advance (avp_length : Nat) (parse : eap_ttls_avp) : avp_step :=
  let pad := (4 - (avp_length &&& 3)) &&& 3
  .next (avp_length + pad) parse

/-- The attribute dispatch of one iteration (source lines 216-304), after the header
has been decoded: `data` is the attribute data, the `dlen` bytes at `dpos`. Returns
the indices `i` of the bytes `dpos[i]` read and the updated parsed set, or `none` for
`goto fail`. -/
def avp_parse_attr (K : ttls_consts) (A : allocator) (parse : eap_ttls_avp)
    (avp_code avp_flags vendor_id : Nat) (data : List Nat) :
    List Nat × Option eap_ttls_avp :=
  let dlen := data.length
  if vendor_id = 0 ∧ avp_code = K.RADIUS_ATTR_EAP_MESSAGE then
    match parse.eap with
    | none =>
      if A.os_malloc dlen then
        (List.range dlen, some { parse with eap := some data })
      else ([], none)
    | some eap =>
      if A.os_realloc eap.length (eap.length + dlen) then
        (List.range dlen, some { parse with eap := some (eap ++ data) })
      else ([], none)
  else if vendor_id = 0 ∧ avp_code = K.RADIUS_ATTR_USER_NAME then
    ([], some { parse with user_name := some data })
  else if vendor_id = 0 ∧ avp_code = K.RADIUS_ATTR_USER_PASSWORD then
    let password := data
    let password_len := password_strip password dlen
    (password_strip_reads password dlen,
      some { parse with user_password := some (password.take password_len) })
  else if vendor_id = 0 ∧ avp_code = K.RADIUS_ATTR_CHAP_CHALLENGE then
    ([], some { parse with chap_challenge := some data })
  else if vendor_id = 0 ∧ avp_code = K.RADIUS_ATTR_CHAP_PASSWORD then
    ([], some { parse with chap_password := some data })
  else if vendor_id = K.RADIUS_VENDOR_ID_MICROSOFT ∧
      avp_code = K.RADIUS_ATTR_MS_CHAP_CHALLENGE then
    ([], some { parse with mschap_challenge := some data })
  else if vendor_id = K.RADIUS_VENDOR_ID_MICROSOFT ∧
      avp_code = K.RADIUS_ATTR_MS_CHAP_RESPONSE then
    ([], some { parse with mschap_response := some data })
  else if vendor_id = K.RADIUS_VENDOR_ID_MICROSOFT ∧
      avp_code = K.RADIUS_ATTR_MS_CHAP2_RESPONSE then
    ([], some { parse with mschap2_response := some data })
  else if avp_flags &&& K.AVP_FLAGS_MANDATORY ≠ 0 then
    ([], none)
  else
    ([], some parse)

/-- The end of an iteration whose header checks have passed: `goto fail` or the
advance of source lines 306-308, with the offsets read by the iteration (`reads` for
the header, then those of the attribute data at `dpos`). -/
def avp_parse_finish (parse : eap_ttls_avp) (avp_length : Nat) (reads : List Nat)
    (dpos : Nat) (r : List Nat × Option eap_ttls_avp) : List Nat × avp_step :=
  match r.2 with
  | none => (reads ++ r.1.map (fun i => dpos + i), avp_parse_fail parse)
  | some parse1 =>
    (reads ++ r.1.map (fun i => dpos + i), avp_parse_advance avp_length parse1)

/-- One iteration of the `while (left > 0)` loop of `eap_ttls_avp_parse` (source lines
177-308), entered with `left > 0`: the offsets it reads and the step it takes. -/
def avp_parse_iter (K : ttls_consts) (A : allocator) (buf : Nat → Nat) (pos : Nat)
    (left : Int) (parse : eap_ttls_avp) : List Nat × avp_step :=
  let avp_code := be_to_host32 buf pos
  let avp_length := be_to_host32 buf (pos + 4)
  let avp_flags := (avp_length >>> 24) &&& 0xff
  let avp_length := avp_length &&& 0xffffff
  let hdr_reads := List.range' pos 8
  if (avp_length : Int) > left then
    (hdr_reads, avp_parse_fail parse)
  else if avp_length < sizeof_ttls_avp then
    (hdr_reads, avp_parse_fail parse)
  else
    let dpos := pos + sizeof_ttls_avp
    let dlen := avp_length - sizeof_ttls_avp
    if avp_flags &&& K.AVP_FLAGS_VENDOR ≠ 0 then
      if dlen < 4 then
        (hdr_reads, avp_parse_fail parse)
      else
        let vendor_id := be_to_host32 buf dpos
        avp_parse_finish parse avp_length (hdr_reads ++ List.range' dpos 4) (dpos + 4)
          (avp_parse_attr K A parse avp_code avp_flags vendor_id
            (mem_bytes buf (dpos + 4) (dlen - 4)))
    else
      avp_parse_finish parse avp_length hdr_reads dpos
        (avp_parse_attr K A parse avp_code avp_flags 0 (mem_bytes buf dpos dlen))

/-- What `eap_ttls_avp_parse` leaves behind: the returned `int`, the parsed set and
the offsets of `buf` it has read, in order. -/
structure avp_parse_result where
  ret : Int
  parse : eap_ttls_avp
  reads : List Nat
deriving DecidableEq

/-- The `while (left > 0)` loop of `eap_ttls_avp_parse` with its two exits
(`return 0`, `fail: ... return -1`). `fuel` bounds the number of iterations; `none`
means the bound was reached before the loop ended. -/
def avp_parse_loop (K : ttls_consts) (A : allocator) (buf : Nat → Nat) :
    Nat → Nat → Int → eap_ttls_avp → List Nat → Option avp_parse_result
  | fuel, pos, left, parse, reads =>
    if left > 0 then
      match fuel with
      | 0 => none
      | fuel + 1 =>
        match avp_parse_iter K A buf pos left parse with
        | (r, .fail parse1) => some ⟨-1, parse1, reads ++ r⟩
        | (r, .next advance parse1) =>
          avp_parse_loop K A buf fuel (pos + advance) (left - (advance : Int)) parse1
            (reads ++ r)
    else
      some ⟨0, parse, reads⟩

/-- The function `eap_ttls_avp_parse (buf, len, parse)` (source lines 166-317). Every
iteration that does not fail takes at least 8 from `left`, so `len` iterations are
enough: the result is never `none` (`eap_ttls_avp_parse_total`). -/
def eap_ttls_avp_parse (K : ttls_consts) (A : allocator) (buf : Nat → Nat) (len : Nat) :
    Option avp_parse_result :=
  avp_parse_loop K A buf len 0 (size_t_to_int len) eap_ttls_avp.zero []

/-- A memory that holds the bytes `b` at offsets `0, ..., b.length - 1` and `junk`
beyond. -/
def buf_mem (b : List Nat) (junk : Nat → Nat) : Nat → Nat :=
  fun i => b.getD i (junk i)

/-! ## Well-formed AVPs on the wire

The vocabulary of the statements about buffers "made of well-formed AVPs"
(spec section 4.1): code, flags/length word, optional vendor identifier, data,
padding to the next 4-byte boundary. -/

/-- An AVP as laid out on the wire: `vendor` is the vendor identifier field, present
exactly when the vendor flag is set; `pad` are the padding bytes that follow the
declared length. -/
structure wire_avp where
  code : Nat
  flags : Nat
  vendor : Option Nat
  data : List Nat
  pad : List Nat
deriving DecidableEq

/-- The declared 24-bit length: header (8 or 12 bytes) plus data, padding excluded. -/
def wire_avp.avp_length (a : wire_avp) : Nat :=
  sizeof_ttls_avp + (if a.vendor.isSome then 4 else 0) + a.data.length

/-- The vendor identifier the decoder works with: 0 when the field is absent. -/
def wire_avp.vendor_id (a : wire_avp) : Nat := a.vendor.getD 0

/-- Offset of the attribute data from the start of the AVP. -/
def wire_avp.hdrlen (a : wire_avp) : Nat :=
  sizeof_ttls_avp + (if a.vendor.isSome then 4 else 0)

/-- The bytes covered by the declared length: header, vendor identifier, data. -/
def wire_avp.body (a : wire_avp) : List Nat :=
  host_to_be32 a.code ++ host_to_be32 (a.flags * 2 ^ 24 + a.avp_length) ++
    (match a.vendor with
      | some v => host_to_be32 v
      | none => []) ++ a.data

/-- The AVP with its padding. -/
def wire_avp.bytes (a : wire_avp) : List Nat := a.body ++ a.pad

/-- Well-formedness: the fields fit their wire widths, the vendor identifier is present
exactly when the vendor flag is set, and the padding realigns to a multiple of 4. -/
def wire_avp.wf (K : ttls_consts) (a : wire_avp) : Prop :=
  a.code < 2 ^ 32 ∧ a.flags < 256 ∧ a.avp_length < 2 ^ 24 ∧ a.vendor_id < 2 ^ 32 ∧
    (a.vendor.isSome = true ↔ a.flags &&& K.AVP_FLAGS_VENDOR ≠ 0) ∧
    a.pad.length = (4 - a.avp_length % 4) % 4

instance (K : ttls_consts) (a : wire_avp) : Decidable (a.wf K) := by
  unfold wire_avp.wf; infer_instance

/-- The eight (vendor id, code) pairs that `eap_ttls_avp_parse` recognises. -/
def avp_recognised (K : ttls_consts) (vendor_id avp_code : Nat) : Prop :=
  (vendor_id = 0 ∧ avp_code = K.RADIUS_ATTR_EAP_MESSAGE) ∨
  (vendor_id = 0 ∧ avp_code = K.RADIUS_ATTR_USER_NAME) ∨
  (vendor_id = 0 ∧ avp_code = K.RADIUS_ATTR_USER_PASSWORD) ∨
  (vendor_id = 0 ∧ avp_code = K.RADIUS_ATTR_CHAP_CHALLENGE) ∨
  (vendor_id = 0 ∧ avp_code = K.RADIUS_ATTR_CHAP_PASSWORD) ∨
  (vendor_id = K.RADIUS_VENDOR_ID_MICROSOFT ∧ avp_code = K.RADIUS_ATTR_MS_CHAP_CHALLENGE) ∨
  (vendor_id = K.RADIUS_VENDOR_ID_MICROSOFT ∧ avp_code = K.RADIUS_ATTR_MS_CHAP_RESPONSE) ∨
  (vendor_id = K.RADIUS_VENDOR_ID_MICROSOFT ∧ avp_code = K.RADIUS_ATTR_MS_CHAP2_RESPONSE)

instance (K : ttls_consts) (v c : Nat) : Decidable (avp_recognised K v c) := by
  unfold avp_recognised; infer_instance

/-- The mandatory flag of a wire AVP, as the decoder tests it. -/
def wire_avp.mandatory (K : ttls_consts) (a : wire_avp) : Prop :=
  a.flags &&& K.AVP_FLAGS_MANDATORY ≠ 0

instance (K : ttls_consts) (a : wire_avp) : Decidable (a.mandatory K) := by
  unfold wire_avp.mandatory; infer_instance

/-- The concatenation of the wire forms of a list of AVPs. -/
def wire_bytes (l : List wire_avp) : List Nat :=
  match l with
  | [] => []
  | a :: rest => a.bytes ++ wire_bytes rest

/-- An AVP the decoder takes for an inner-EAP message: vendor identifier 0 (field
absent or zero) and the EAP-Message code. -/
def wire_avp.is_eap_message (K : ttls_consts) (a : wire_avp) : Prop :=
  a.vendor_id = 0 ∧ a.code = K.RADIUS_ATTR_EAP_MESSAGE

instance (K : ttls_consts) (a : wire_avp) : Decidable (a.is_eap_message K) := by
  unfold wire_avp.is_eap_message; infer_instance

/-- The payloads of the inner-EAP message AVPs of a list, concatenated in order. -/
def eap_payloads (K : ttls_consts) (l : List wire_avp) : List Nat :=
  match l with
  | [] => []
  | a :: rest =>
    if a.is_eap_message K then a.data ++ eap_payloads K rest else eap_payloads K rest

/-- What is observed of a decoding: the returned `int` and the parsed set. -/
def avp_parse_result.outcome (r : avp_parse_result) : Int × eap_ttls_avp :=
  (r.ret, r.parse)

/-- The memory `buf` holds the bytes `b` at offsets `pos, ..., pos + b.length - 1`. -/
def mem_holds (buf : Nat → Nat) (pos : Nat) (b : List Nat) : Prop :=
  ∀ i, i < b.length → buf (pos + i) = b.getD i 0

/-- The decoding of a list of wire AVPs, one attribute dispatch per AVP: the returned
`int` and the parsed set (with the inner-EAP buffer released on failure). -/
def wire_parse (K : ttls_consts) (A : allocator) (parse : eap_ttls_avp) :
    List wire_avp → Int × eap_ttls_avp
  | [] => (0, parse)
  | a :: rest =>
    match (avp_parse_attr K A parse a.code a.flags a.vendor_id a.data).2 with
    | none => (-1, { parse with eap := none })
    | some q => wire_parse K A q rest

/-- The loop states `(pos, left, parse)` that `eap_ttls_avp_parse (buf, len)` goes
through: the initial one, and the one at the end of every iteration that does not
fail. -/
inductive avp_parse_reaches (K : ttls_consts) (A : allocator) (buf : Nat → Nat) (len : Nat) :
    Nat → Int → eap_ttls_avp → Prop where
  | start : avp_parse_reaches K A buf len 0 (size_t_to_int len) eap_ttls_avp.zero
  | step (pos : Nat) (left : Int) (parse : eap_ttls_avp) (n : Nat) (q : eap_ttls_avp) :
    avp_parse_reaches K A buf len pos left parse → left > 0 →
    (avp_parse_iter K A buf pos left parse).2 = .next n q →
    avp_parse_reaches K A buf len (pos + n) (left - (n : Int)) q

/-- The declared 24-bit length of the AVP at offset `pos`, as the decoder reads it. -/
def declared_length (buf : Nat → Nat) (pos : Nat) : Nat :=
  be_to_host32 buf (pos + 4) &&& 0xffffff

/-- The flags byte of the AVP at offset `pos`, as the decoder reads it. -/
def declared_flags (buf : Nat → Nat) (pos : Nat) : Nat :=
  (be_to_host32 buf (pos + 4) >>> 24) &&& 0xff

/-- The flags byte that `eap_ttls_avp_hdr` writes when no vendor id is given. -/
def encapsulate_flags (K : ttls_consts) (mandatory : Bool) : Nat :=
  (if mandatory then K.AVP_FLAGS_MANDATORY else 0) % 256

/-- The wire AVP that `eap_ttls_avp_encapsulate` is meant to produce: no vendor
field, zero padding. -/
def encapsulated_avp (K : ttls_consts) (resp : List Nat) (avp_code : Nat)
    (mandatory : Bool) : wire_avp where
  code := avp_code
  flags := encapsulate_flags K mandatory
  vendor := none
  data := resp
  pad := List.replicate ((4 - (8 + resp.length) % 4) % 4) 0

/-! ## Phase 2 dispatch -/

/-- The values of `data->state`. -/
inductive ttls_state where
  | START
  | PHASE1
  | PHASE2_START
  | PHASE2_METHOD
  | PHASE2_MSCHAPV2_RESP
  | PHASE_FINISHED
  | SUCCESS
  | FAILURE
deriving DecidableEq

/-- The session `struct eap_ttls_data` (source lines 42-59), without the field `ssl`,
which is the separate record `eap_ssl_data`. `pending_phase2_eap_resp` is `none` when
the pointer is NULL. `phase2_method` is `none` when the pointer is NULL and otherwise
the EAP type of the method table it points to; `phase2_priv` is `none` when the
pointer is NULL and otherwise the content of the private data of the inner method. -/
structure eap_ttls_data where
  state : ttls_state
  ttls_version : Int
  force_version : Int
  phase2_method : Option Nat
  phase2_priv : Option Nat
  mschapv2_resp_ok : Int
  mschapv2_auth_response : List Nat
  mschapv2_ident : Nat
  tls_ia_configured : Int
  pending_phase2_eap_resp : Option (List Nat)
  tnc_started : Int

/-- The part of `struct eap_sm` that `eap_ttls.c` reads or writes: `identity` and
`identity_len`, the user record `user`, of a type `U` declared in a header outside the
source, which the external lookup `eap_user_get` fills, the configuration flag `tnc`,
the value `method_pending` left by the inner method, and the index
`user_eap_method_index` of the next candidate method. -/
structure eap_sm (U : Type) where
  identity : Option (List Nat)
  identity_len : Nat
  user : Option U
  tnc : Int
  method_pending : Nat
  user_eap_method_index : Nat

/-- A call of one of the five Phase 2 handlers, with the arguments it receives (a
NULL challenge pointer is `none`). -/
inductive phase2_call where
  | eap (eap : List Nat)
  | pap (user_password : List Nat)
  | chap (challenge : Option (List Nat)) (password : List Nat)
  | mschap (challenge : Option (List Nat)) (response : List Nat)
  | mschapv2 (challenge : Option (List Nat)) (response : List Nat)
deriving DecidableEq

/-- What `eap_ttls_process_phase2` calls: the TLS layer, the user database, and the
five handlers `eap_ttls_process_phase2_eap`, `..._pap`, `..._chap`, `..._mschap`,
`..._mschapv2`, each as its effect on the state machine and the session.
`tls_connection_decrypt in_data buf_len` gives the returned length and the content of
the output buffer `in_decrypted`. -/
structure phase2_env (U : Type) where
  tls_connection_decrypt : List Nat → Nat → Int × (Nat → Nat)
  tls_connection_ia_final_phase_finished : Bool
  eap_user_get : eap_sm U → List Nat → Int → eap_sm U × Int
  eap_ttls_process_phase2_eap : eap_sm U → eap_ttls_data → List Nat → eap_sm U × eap_ttls_data
  eap_ttls_process_phase2_pap : eap_sm U → eap_ttls_data → List Nat → eap_sm U × eap_ttls_data
  eap_ttls_process_phase2_chap :
    eap_sm U → eap_ttls_data → Option (List Nat) → List Nat → eap_sm U × eap_ttls_data
  eap_ttls_process_phase2_mschap :
    eap_sm U → eap_ttls_data → Option (List Nat) → List Nat → eap_sm U × eap_ttls_data
  eap_ttls_process_phase2_mschapv2 :
    eap_sm U → eap_ttls_data → Option (List Nat) → List Nat → eap_sm U × eap_ttls_data

/-- What a pass of `eap_ttls_process_phase2` leaves behind: the state machine, the
session, and the handler calls it has made, in order. -/
structure phase2_result (U : Type) where
  sm : eap_sm U
  data : eap_ttls_data
  calls : List phase2_call

/-- The handler dispatch of `eap_ttls_process_phase2` (source lines 1233-1257). -/
def phase2_dispatch {U : Type} (E : phase2_env U) (sm : eap_sm U) (data : eap_ttls_data)
    (parse : eap_ttls_avp) : phase2_result U :=
  match parse.eap with
  | some eap =>
    let r := E.eap_ttls_process_phase2_eap sm data eap
    ⟨r.1, r.2, [.eap eap]⟩
  | none =>
    match parse.user_password with
    | some user_password =>
      let r := E.eap_ttls_process_phase2_pap sm data user_password
      ⟨r.1, r.2, [.pap user_password]⟩
    | none =>
      match parse.chap_password with
      | some chap_password =>
        let r := E.eap_ttls_process_phase2_chap sm data parse.chap_challenge chap_password
        ⟨r.1, r.2, [.chap parse.chap_challenge chap_password]⟩
      | none =>
        match parse.mschap_response with
        | some mschap_response =>
          let r := E.eap_ttls_process_phase2_mschap sm data parse.mschap_challenge
            mschap_response
          ⟨r.1, r.2, [.mschap parse.mschap_challenge mschap_response]⟩
        | none =>
          match parse.mschap2_response with
          | some mschap2_response =>
            let r := E.eap_ttls_process_phase2_mschapv2 sm data parse.mschap_challenge
              mschap2_response
            ⟨r.1, r.2, [.mschapv2 parse.mschap_challenge mschap2_response]⟩
          | none => ⟨sm, data, []⟩

/-- The part of `eap_ttls_process_phase2` that follows a successful
`eap_ttls_avp_parse` (source lines 1207-1257): identity update and lookup, the TNC
check when the build has `EAP_SERVER_TNC`, then the dispatch. -/
def phase2_after_parse {U : Type} (K : ttls_consts) (A : allocator) (E : phase2_env U)
    (sm : eap_sm U) (data : eap_ttls_data) (parse : eap_ttls_avp) : phase2_result U :=
  let tnc_and_dispatch := fun (sm1 : eap_sm U) =>
    if K.EAP_SERVER_TNC = true ∧ data.tnc_started ≠ 0 ∧ parse.eap = none then
      (⟨sm1, { data with state := .FAILURE }, []⟩ : phase2_result U)
    else phase2_dispatch E sm1 data parse
  match parse.user_name with
  | some user_name =>
    let sm1 : eap_sm U :=
      if A.os_malloc user_name.length then
        { sm with identity := some user_name, identity_len := user_name.length }
      else { sm with identity := none }
    let g := E.eap_user_get sm1 user_name 1
    if g.2 ≠ 0 then ⟨g.1, { data with state := .FAILURE }, []⟩
    else tnc_and_dispatch g.1
  | none => tnc_and_dispatch sm

/-- The function `eap_ttls_process_phase2 (sm, data, in_buf)` (source lines
1125-1262). The case `none` of the decoding does not occur
(`eap_ttls_avp_parse_total`). -/
def eap_ttls_process_phase2 {U : Type} (K : ttls_consts) (A : allocator) (E : phase2_env U)
    (sm : eap_sm U) (data : eap_ttls_data) (in_buf : List Nat) : phase2_result U :=
  match data.pending_phase2_eap_resp with
  | some pending =>
    let r := E.eap_ttls_process_phase2_eap sm data pending
    ⟨r.1, { r.2 with pending_phase2_eap_resp := none }, [.eap pending]⟩
  | none =>
    let buf_len := (in_buf.length + 500) * 3
    if A.os_malloc buf_len = false then ⟨sm, data, []⟩
    else
      let d := E.tls_connection_decrypt in_buf buf_len
      let len_decrypted := d.1
      let in_decrypted := d.2
      if len_decrypted < 0 then ⟨sm, { data with state := .FAILURE }, []⟩
      else if data.state = .PHASE_FINISHED then
        if len_decrypted = 0 ∧ E.tls_connection_ia_final_phase_finished = true then
          ⟨sm, { data with state := .SUCCESS }, []⟩
        else ⟨sm, { data with state := .FAILURE }, []⟩
      else
        match eap_ttls_avp_parse K A in_decrypted len_decrypted.toNat with
        | none => ⟨sm, data, []⟩
        | some p =>
          if p.ret < 0 then ⟨sm, { data with state := .FAILURE }, []⟩
          else phase2_after_parse K A E sm data p.parse

/-- The handler call that the priority order inner-EAP payload, User-Password (PAP),
CHAP-Password (CHAP), MS-CHAP-Response (MS-CHAP), MS-CHAP2-Response (MS-CHAPv2)
selects for a parsed set: the field of the handler is present, every field earlier in
the order is absent, and the handler receives the parsed fields. -/
def phase2_call.first_match (parse : eap_ttls_avp) : phase2_call → Prop
  | .eap e => parse.eap = some e
  | .pap w => parse.eap = none ∧ parse.user_password = some w
  | .chap c w =>
    parse.eap = none ∧ parse.user_password = none ∧ parse.chap_password = some w ∧
      c = parse.chap_challenge
  | .mschap c w =>
    parse.eap = none ∧ parse.user_password = none ∧ parse.chap_password = none ∧
      parse.mschap_response = some w ∧ c = parse.mschap_challenge
  | .mschapv2 c w =>
    parse.eap = none ∧ parse.user_password = none ∧ parse.chap_password = none ∧
      parse.mschap_response = none ∧ parse.mschap2_response = some w ∧
      c = parse.mschap_challenge

/-- A session at the start of Phase 2, hostapd defaults. -/
def sample_session : eap_ttls_data where
  state := .PHASE2_START
  ttls_version := 0
  force_version := -1
  phase2_method := none
  phase2_priv := none
  mschapv2_resp_ok := 0
  mschapv2_auth_response := List.replicate 20 0
  mschapv2_ident := 0
  tls_ia_configured := 0
  pending_phase2_eap_resp := none
  tnc_started := 0

/-- An environment in which decryption returns a buffer holding one User-Password AVP
(data `p w`) and one CHAP-Password AVP, the user lookup succeeds, and every handler
moves the session to `SUCCESS`. -/
def sample_env : phase2_env Unit where
  tls_connection_decrypt := fun _ _ =>
    (24, buf_mem [0, 0, 0, 2, 0x40, 0, 0, 10, 112, 119, 0, 0,
      0, 0, 0, 3, 0x40, 0, 0, 9, 5, 0, 0, 0] (fun _ => 0))
  tls_connection_ia_final_phase_finished := false
  eap_user_get := fun sm _ _ => (sm, 0)
  eap_ttls_process_phase2_eap := fun sm data _ => (sm, { data with state := .SUCCESS })
  eap_ttls_process_phase2_pap := fun sm data _ => (sm, { data with state := .SUCCESS })
  eap_ttls_process_phase2_chap := fun sm data _ _ => (sm, { data with state := .SUCCESS })
  eap_ttls_process_phase2_mschap := fun sm data _ _ => (sm, { data with state := .SUCCESS })
  eap_ttls_process_phase2_mschapv2 := fun sm data _ _ => (sm, { data with state := .SUCCESS })

/-- What the decoder leaves behind on the buffer of `sample_env`. -/
def sample_phase2_parse : avp_parse_result :=
  ⟨0, ⟨none, none, some [112, 119], none, some [5], none, none, none⟩,
    [0, 1, 2, 3, 4, 5, 6, 7, 9, 12, 13, 14, 15, 16, 17, 18, 19]⟩

/-! ## Sample buffers (hostapd constants) -/

/-- EAP-Message AVPs of 3 and 2 bytes with a User-Name AVP in between. -/
def sample_eap_avps : List wire_avp :=
  [⟨79, 0x40, none, [1, 2, 3], [0]⟩, ⟨1, 0x40, none, [65], [0, 0, 0]⟩,
    ⟨79, 0, none, [4, 5], [0, 0]⟩]

/-- What the decoder leaves behind on `sample_eap_avps`. -/
def sample_eap_result : avp_parse_result :=
  ⟨0, ⟨some [1, 2, 3, 4, 5], some [65], none, none, none, none, none, none⟩,
    [0, 1, 2, 3, 4, 5, 6, 7, 8, 9, 10, 12, 13, 14, 15, 16, 17, 18, 19, 24, 25, 26, 27,
      28, 29, 30, 31, 32, 33]⟩

/-- A User-Password AVP whose data `p 0 w` is followed by five zero bytes. -/
def sample_password_avp : wire_avp :=
  ⟨2, 0x40, none, [112, 0, 119, 0, 0, 0, 0, 0], []⟩

/-- What the decoder leaves behind on a User-Name AVP, `sample_password_avp` and an
EAP-Message AVP. -/
def sample_password_result : avp_parse_result :=
  ⟨0, ⟨some [4, 5], some [65], some [112, 0, 119], none, none, none, none, none⟩,
    [0, 1, 2, 3, 4, 5, 6, 7, 12, 13, 14, 15, 16, 17, 18, 19, 27, 26, 25, 24, 23, 22,
      28, 29, 30, 31, 32, 33, 34, 35, 36, 37]⟩

/-! ## Phase 2 handlers, key export and message processing -/

/-- The constant `MSCHAPV2_KEY_LEN` (source line 36). -/
def MSCHAPV2_KEY_LEN : Nat := 16

/-- The user record `struct eap_user` (declared in a header outside the source), as
far as `eap_ttls.c` reads it: `password` is `none` when the pointer is NULL,
`password_len` is the length of the list, and `methods` holds the field `method` of
the `EAP_MAX_METHODS` entries of the array `methods`. -/
structure eap_user where
  password : Option (List Nat)
  password_hash : Int
  ttls_auth : Nat
  force_version : Int
  methods : List Nat

/-- The three pointers of `struct tls_keys` read by `eap_ttls.c` (`none` for NULL). -/
structure tls_keys where
  client_random : Option (List Nat)
  server_random : Option (List Nat)
  inner_secret : Option (List Nat)

/-- The labels passed to the key derivation functions. -/
def label_ttls_challenge : String := "ttls challenge"

/-- The label of the implicit challenge of the extended protocol. -/
def label_inner_application_challenge : String := "inner application challenge"

/-- The label of the base key export. -/
def label_ttls_keying_material : String := "ttls keying material"

/-- The label of the extended key export. -/
def label_ttls_v1_keying_material : String := "ttls v1 keying material"

/-- The functions of the TLS layer and the cryptographic primitives that the handlers
call, as pure functions of their arguments (byte strings for pointer/length pairs).
A derivation that returns NULL, or a `tls_prf` that returns non-zero, is `none`;
`tls_connection_get_keys` gives its return value and the keys it stores. -/
structure ext_env where
  eap_server_tls_derive_key : String → Nat → Option (List Nat)
  tls_connection_get_keys : Int × tls_keys
  tls_prf : List Nat → String → List Nat → Nat → Option (List Nat)
  tls_connection_ia_permute_inner_secret : Option (List Nat) → Int
  WPA_PUT_BE16 : Nat → List Nat
  chap_md5 : Nat → List Nat → List Nat → List Nat
  challenge_response : List Nat → List Nat → List Nat
  nt_challenge_response : List Nat → List Nat → List Nat
  generate_nt_response_pwhash : List Nat → List Nat → List Nat → List Nat → List Nat
  generate_nt_response : List Nat → List Nat → List Nat → List Nat → List Nat
  nt_password_hash : List Nat → List Nat
  hash_nt_password_hash : List Nat → List Nat
  get_master_key : List Nat → List Nat → List Nat
  get_asymetric_start_key : List Nat → Nat → Int → Int → List Nat
  generate_authenticator_response_pwhash :
    List Nat → List Nat → List Nat → List Nat → List Nat → List Nat
  generate_authenticator_response :
    List Nat → List Nat → List Nat → List Nat → List Nat → List Nat

/-- The calls whose occurrence is recorded: the two key derivations of
`eap_ttls_getKey`, the call of `eap_ttls_ia_permute_inner_secret` with its key, and
the call of the TLS layer it makes. -/
inductive ttls_event where
  | eap_server_tls_derive_key (label : String) (len : Nat)
  | eap_ttls_v1_derive_key
  | eap_ttls_ia_permute_inner_secret (key : Option (List Nat))
  | tls_connection_ia_permute_inner_secret (buf : Option (List Nat))
deriving DecidableEq

/-- The test `os_memcmp (a, b, n) == 0` on two buffers that hold at least `n` bytes. -/
def os_memcmp_eq (a b : List Nat) (n : Nat) : Bool :=
  decide (a.take n = b.take n)

/-- The function `eap_ttls_state (data, state)` (source lines 87-93). -/
def eap_ttls_state (data : eap_ttls_data) (state : ttls_state) : eap_ttls_data :=
  { data with state := state }

/-- The function `eap_ttls_implicit_challenge (sm, data, len)` (source lines 320-371);
`none` is the NULL return. -/
def eap_ttls_implicit_challenge (A : allocator) (X : ext_env) (data : eap_ttls_data)
    (len : Nat) : Option (List Nat) :=
  if data.ttls_version = 0 then
    X.eap_server_tls_derive_key label_ttls_challenge len
  else
    let g := X.tls_connection_get_keys
    if g.1 ≠ 0 then none
    else
      match g.2.client_random, g.2.server_random, g.2.inner_secret with
      | some client_random, some server_random, some inner_secret =>
        if A.os_malloc (client_random.length + server_random.length) = false ∨
            A.os_malloc len = false then none
        else
          X.tls_prf inner_secret label_inner_application_challenge
            (server_random ++ client_random) len
      | _, _, _ => none

/-- The function `eap_ttls_ia_permute_inner_secret (sm, data, key, key_len)` (source
lines 616-644): the returned `int` and the call of the TLS layer, if made. -/
def eap_ttls_ia_permute_inner_secret (A : allocator) (X : ext_env) (key : Option (List Nat)) :
    Int × List ttls_event :=
  match key with
  | some k =>
    let buf_len := 2 + k.length
    if A.os_malloc buf_len = false then (-1, [])
    else
      let buf := X.WPA_PUT_BE16 k.length ++ k
      (X.tls_connection_ia_permute_inner_secret (some buf),
        [.tls_connection_ia_permute_inner_secret (some buf)])
  | none =>
    (X.tls_connection_ia_permute_inner_secret none,
      [.tls_connection_ia_permute_inner_secret none])

/-- The function `eap_ttls_process_phase2_pap` (source lines 647-671): the session
it leaves. -/
def eap_ttls_process_phase2_pap (K : ttls_consts) (sm : eap_sm eap_user)
    (data : eap_ttls_data) (user_password : List Nat) : eap_ttls_data :=
  match sm.user with
  | none => eap_ttls_state data .FAILURE
  | some user =>
    match user.password with
    | none => eap_ttls_state data .FAILURE
    | some password =>
      if user.password_hash ≠ 0 ∨ user.ttls_auth &&& K.EAP_TTLS_AUTH_PAP = 0 then
        eap_ttls_state data .FAILURE
      else if password.length ≠ user_password.length ∨
          os_memcmp_eq password user_password user_password.length = false then
        eap_ttls_state data .FAILURE
      else
        eap_ttls_state data (if data.ttls_version > 0 then .PHASE_FINISHED else .SUCCESS)

/-- The function `eap_ttls_process_phase2_chap` (source lines 674-732): the session
it leaves. `hash` is the `CHAP_MD5_LEN`-byte buffer filled by `chap_md5`. -/
def eap_ttls_process_phase2_chap (K : ttls_consts) (A : allocator) (X : ext_env)
    (sm : eap_sm eap_user) (data : eap_ttls_data) (challenge password : Option (List Nat)) :
    eap_ttls_data :=
  match challenge, password with
  | some challenge, some password =>
    if challenge.length ≠ K.EAP_TTLS_CHAP_CHALLENGE_LEN ∨
        password.length ≠ 1 + K.EAP_TTLS_CHAP_PASSWORD_LEN then
      eap_ttls_state data .FAILURE
    else
      match sm.user with
      | none => eap_ttls_state data .FAILURE
      | some user =>
        match user.password with
        | none => eap_ttls_state data .FAILURE
        | some user_password =>
          if user.password_hash ≠ 0 ∨ user.ttls_auth &&& K.EAP_TTLS_AUTH_CHAP = 0 then
            eap_ttls_state data .FAILURE
          else
            match eap_ttls_implicit_challenge A X data (K.EAP_TTLS_CHAP_CHALLENGE_LEN + 1) with
            | none => eap_ttls_state data .FAILURE
            | some chal =>
              if os_memcmp_eq challenge chal K.EAP_TTLS_CHAP_CHALLENGE_LEN = false ∨
                  password.getD 0 0 ≠ chal.getD K.EAP_TTLS_CHAP_CHALLENGE_LEN 0 then
                eap_ttls_state data .FAILURE
              else
                let hash := X.chap_md5 (password.getD 0 0) user_password challenge
                if os_memcmp_eq hash (password.drop 1) K.EAP_TTLS_CHAP_PASSWORD_LEN then
                  eap_ttls_state data
                    (if data.ttls_version > 0 then .PHASE_FINISHED else .SUCCESS)
                else eap_ttls_state data .FAILURE
  | _, _ => eap_ttls_state data .FAILURE

/-- The function `eap_ttls_process_phase2_mschap` (source lines 735-797): the session
it leaves. -/
def eap_ttls_process_phase2_mschap (K : ttls_consts) (A : allocator) (X : ext_env)
    (sm : eap_sm eap_user) (data : eap_ttls_data) (challenge response : Option (List Nat)) :
    eap_ttls_data :=
  match challenge, response with
  | some challenge, some response =>
    if challenge.length ≠ K.EAP_TTLS_MSCHAP_CHALLENGE_LEN ∨
        response.length ≠ K.EAP_TTLS_MSCHAP_RESPONSE_LEN then
      eap_ttls_state data .FAILURE
    else
      match sm.user with
      | none => eap_ttls_state data .FAILURE
      | some user =>
        match user.password with
        | none => eap_ttls_state data .FAILURE
        | some user_password =>
          if user.ttls_auth &&& K.EAP_TTLS_AUTH_MSCHAP = 0 then
            eap_ttls_state data .FAILURE
          else
            match eap_ttls_implicit_challenge A X data
                (K.EAP_TTLS_MSCHAP_CHALLENGE_LEN + 1) with
            | none => eap_ttls_state data .FAILURE
            | some chal =>
              if os_memcmp_eq challenge chal K.EAP_TTLS_MSCHAP_CHALLENGE_LEN = false ∨
                  response.getD 0 0 ≠ chal.getD K.EAP_TTLS_MSCHAP_CHALLENGE_LEN 0 then
                eap_ttls_state data .FAILURE
              else
                let nt_response :=
                  if user.password_hash ≠ 0 then X.challenge_response challenge user_password
                  else X.nt_challenge_response challenge user_password
                if os_memcmp_eq nt_response (response.drop (2 + 24)) 24 then
                  eap_ttls_state data
                    (if data.ttls_version > 0 then .PHASE_FINISHED else .SUCCESS)
                else eap_ttls_state data .FAILURE
  | _, _ => eap_ttls_state data .FAILURE

/-- The loop of source lines 834-840 over the bytes of the user name: what follows the
first backslash (byte 92), or `none` when there is no backslash. -/
def username_after_backslash : List Nat → Option (List Nat)
  | [] => none
  | b :: rest => if b = 92 then some rest else username_after_backslash rest

/-- The `username`, `username_len` pair after source lines 832-840, started from
`sm->identity`, `sm->identity_len`: the bytes after the first backslash, or the whole
identity when it has none. The loop reads `username[i]` for every `i < username_len`
up to the first backslash: with `sm->identity` NULL and `sm->identity_len` not 0 (the
state machine that `eap_ttls_process_phase2` leaves when its copy of the User-Name
cannot be allocated, source lines 1208-1214) it reads through the NULL pointer, and
the result is `none`. With `sm->identity` NULL and `sm->identity_len` 0 the loop does
not run and the name is empty. -/
def mschapv2_username (sm : eap_sm eap_user) : Option (List Nat) :=
  match sm.identity with
  | some identity =>
    let username := identity.take sm.identity_len
    some ((username_after_backslash username).getD username)
  | none => if sm.identity_len = 0 then some [] else none

/-- The key material of source lines 893-907: the two session-key halves derived from
the master key. -/
def mschapv2_session_key (X : ext_env) (user_password : List Nat) (password_hash : Int)
    (nt_response : List Nat) : List Nat :=
  let pw_hash := if password_hash ≠ 0 then user_password else X.nt_password_hash user_password
  let pw_hash_hash := X.hash_nt_password_hash pw_hash
  let master_key := X.get_master_key pw_hash_hash nt_response
  X.get_asymetric_start_key master_key MSCHAPV2_KEY_LEN 0 0 ++
    X.get_asymetric_start_key master_key MSCHAPV2_KEY_LEN 1 0

/-- The NT response computed at source lines 870-881, from the pre-hashed or the
plaintext credential. -/
def mschapv2_nt_response (X : ext_env) (user_password : List Nat) (password_hash : Int)
    (auth_challenge peer_challenge username : List Nat) : List Nat :=
  if password_hash ≠ 0 then
    X.generate_nt_response_pwhash auth_challenge peer_challenge username user_password
  else
    X.generate_nt_response auth_challenge peer_challenge username user_password

/-- The authenticator response computed at source lines 913-925, from the pre-hashed
or the plaintext credential. -/
def mschapv2_authenticator_response (X : ext_env) (user_password : List Nat)
    (password_hash : Int) (peer_challenge auth_challenge username nt_response : List Nat) :
    List Nat :=
  if password_hash ≠ 0 then
    X.generate_authenticator_response_pwhash user_password peer_challenge auth_challenge
      username nt_response
  else
    X.generate_authenticator_response user_password peer_challenge auth_challenge
      username nt_response

/-- The function `eap_ttls_process_phase2_mschapv2` (source lines 800-937): the
session it leaves and the recorded calls; `none` when the user-name loop of source
lines 832-840 reads through a NULL `sm->identity` (`mschapv2_username`), which happens
after the attribute, credential and permission checks and before the implicit
challenge is derived. `peer_challenge` is the `EAP_TTLS_MSCHAPV2_CHALLENGE_LEN` bytes
at `response + 2` (source lines 861-868), `rx_resp` the 24 bytes compared at source
line 884. -/
def eap_ttls_process_phase2_mschapv2 (K : ttls_consts) (A : allocator) (X : ext_env)
    (sm : eap_sm eap_user) (data : eap_ttls_data) (challenge response : Option (List Nat)) :
    Option (eap_ttls_data × List ttls_event) :=
  match challenge, response with
  | some challenge, some response =>
    if challenge.length ≠ K.EAP_TTLS_MSCHAPV2_CHALLENGE_LEN ∨
        response.length ≠ K.EAP_TTLS_MSCHAPV2_RESPONSE_LEN then
      some (eap_ttls_state data .FAILURE, [])
    else
      match sm.user with
      | none => some (eap_ttls_state data .FAILURE, [])
      | some user =>
        match user.password with
        | none => some (eap_ttls_state data .FAILURE, [])
        | some user_password =>
          if user.ttls_auth &&& K.EAP_TTLS_AUTH_MSCHAPV2 = 0 then
            some (eap_ttls_state data .FAILURE, [])
          else
            match mschapv2_username sm with
            | none => none
            | some username =>
              match eap_ttls_implicit_challenge A X data
                  (K.EAP_TTLS_MSCHAPV2_CHALLENGE_LEN + 1) with
              | none => some (eap_ttls_state data .FAILURE, [])
              | some chal =>
                if os_memcmp_eq challenge chal K.EAP_TTLS_MSCHAPV2_CHALLENGE_LEN = false ∨
                    response.getD 0 0 ≠ chal.getD K.EAP_TTLS_MSCHAPV2_CHALLENGE_LEN 0 then
                  some (eap_ttls_state data .FAILURE, [])
                else
                  let auth_challenge := challenge
                  let peer_challenge :=
                    (response.drop 2).take K.EAP_TTLS_MSCHAPV2_CHALLENGE_LEN
                  let nt_response :=
                    mschapv2_nt_response X user_password user.password_hash auth_challenge
                      peer_challenge username
                  let rx_resp := response.drop (2 + K.EAP_TTLS_MSCHAPV2_CHALLENGE_LEN + 8)
                  if os_memcmp_eq nt_response rx_resp 24 then
                    let data1 := { data with mschapv2_resp_ok := 1 }
                    let events : List ttls_event :=
                      if data.ttls_version > 0 then
                        let session_key :=
                          mschapv2_session_key X user_password user.password_hash nt_response
                        .eap_ttls_ia_permute_inner_secret (some session_key) ::
                          (eap_ttls_ia_permute_inner_secret A X (some session_key)).2
                      else []
                    let auth_response :=
                      mschapv2_authenticator_response X user_password user.password_hash
                        peer_challenge auth_challenge username nt_response
                    let data2 := { data1 with mschapv2_auth_response := auth_response }
                    some ({ eap_ttls_state data2 .PHASE2_MSCHAPV2_RESP with
                        mschapv2_ident := response.getD 0 0 }, events)
                  else
                    let data1 := { data with mschapv2_resp_ok := 0 }
                    some ({ eap_ttls_state data1 .PHASE2_MSCHAPV2_RESP with
                        mschapv2_ident := response.getD 0 0 }, [])
  | _, _ => some (eap_ttls_state data .FAILURE, [])

/-- The function `eap_ttls_isDone` (source lines 1364-1368). -/
def eap_ttls_isDone (data : eap_ttls_data) : Bool :=
  decide (data.state = .SUCCESS ∨ data.state = .FAILURE)

/-- The function `eap_ttls_isSuccess` (source lines 1447-1451). -/
def eap_ttls_isSuccess (data : eap_ttls_data) : Bool :=
  decide (data.state = .SUCCESS)

/-- The function `eap_ttls_v1_derive_key` (source lines 1371-1416); `none` is the NULL
return. -/
def eap_ttls_v1_derive_key (K : ttls_consts) (A : allocator) (X : ext_env) :
    Option (List Nat) :=
  let g := X.tls_connection_get_keys
  if g.1 ≠ 0 then none
  else
    match g.2.client_random, g.2.server_random, g.2.inner_secret with
    | some client_random, some server_random, some inner_secret =>
      if A.os_malloc (client_random.length + server_random.length) = false ∨
          A.os_malloc K.EAP_TLS_KEY_LEN = false then none
      else
        X.tls_prf inner_secret label_ttls_v1_keying_material
          (client_random ++ server_random) K.EAP_TLS_KEY_LEN
    | _, _, _ => none

/-- What `eap_ttls_getKey` leaves behind: the returned pointer (`none` for NULL), the
value stored through `len` (`none` when nothing is stored), and the key derivations
it has called. -/
structure getKey_result where
  eapKeyData : Option (List Nat)
  len : Option Nat
  events : List ttls_event
deriving DecidableEq

/-- The function `eap_ttls_getKey` (source lines 1419-1444). -/
def eap_ttls_getKey (K : ttls_consts) (A : allocator) (X : ext_env) (data : eap_ttls_data) :
    getKey_result :=
  if data.state ≠ .SUCCESS then ⟨none, none, []⟩
  else
    let r : Option (List Nat) × List ttls_event :=
      if data.ttls_version = 0 then
        (X.eap_server_tls_derive_key label_ttls_keying_material K.EAP_TLS_KEY_LEN,
          [.eap_server_tls_derive_key label_ttls_keying_material K.EAP_TLS_KEY_LEN])
      else (eap_ttls_v1_derive_key K A X, [.eap_ttls_v1_derive_key])
    match r.1 with
    | some eapKeyData => ⟨some eapKeyData, some K.EAP_TLS_KEY_LEN, r.2⟩
    | none => ⟨none, none, r.2⟩

/-- What `eap_ttls_process_msg` calls besides `eap_ttls_process_phase2`: the result of
`eap_server_tls_phase1` and the effect and result of `eap_ttls_phase2_eap_init`. -/
structure msg_env (U : Type) where
  eap_server_tls_phase1 : Int
  eap_ttls_phase2_eap_init : eap_sm U → eap_ttls_data → Nat → eap_sm U × eap_ttls_data × Int

/-- The function `eap_ttls_start_tnc` (source lines 1265-1281). -/
def eap_ttls_start_tnc {U : Type} (K : ttls_consts) (M : msg_env U) (sm : eap_sm U)
    (data : eap_ttls_data) : eap_sm U × eap_ttls_data :=
  if K.EAP_SERVER_TNC = true then
    if sm.tnc = 0 ∨ data.state ≠ .SUCCESS ∨ data.tnc_started ≠ 0 then (sm, data)
    else
      let r := M.eap_ttls_phase2_eap_init sm data K.EAP_TYPE_TNC
      if r.2.2 ≠ 0 then (r.1, eap_ttls_state r.2.1 .FAILURE)
      else (r.1, eap_ttls_state { r.2.1 with tnc_started := 1 } .PHASE2_METHOD)
  else (sm, data)

/-- The function `eap_ttls_process_msg` (source lines 1308-1350); `in_buf` is the
content of `data->ssl.in_buf`. -/
def eap_ttls_process_msg {U : Type} (K : ttls_consts) (A : allocator) (E : phase2_env U)
    (M : msg_env U) (sm : eap_sm U) (data : eap_ttls_data) (in_buf : List Nat) :
    phase2_result U :=
  match data.state with
  | .PHASE1 =>
    if M.eap_server_tls_phase1 < 0 then ⟨sm, eap_ttls_state data .FAILURE, []⟩
    else ⟨sm, data, []⟩
  | .PHASE2_START | .PHASE2_METHOD | .PHASE_FINISHED =>
    let r := eap_ttls_process_phase2 K A E sm data in_buf
    let t := eap_ttls_start_tnc K M r.sm r.data
    ⟨t.1, t.2, r.calls⟩
  | .PHASE2_MSCHAPV2_RESP =>
    let data1 :=
      if data.mschapv2_resp_ok ≠ 0 ∧ in_buf.length = 0 then
        eap_ttls_state data (if data.ttls_version > 0 then .PHASE_FINISHED else .SUCCESS)
      else if data.mschapv2_resp_ok = 0 then eap_ttls_state data .FAILURE
      else eap_ttls_state data .FAILURE
    let t := eap_ttls_start_tnc K M sm data1
    ⟨t.1, t.2, []⟩
  | _ => ⟨sm, data, []⟩

/-! ## Sample sessions and collaborators -/

/-- Collaborators with simple deterministic answers: every derivation of `len` bytes
gives `len` bytes 7, the keys are available, and the primitives give byte strings of
the expected lengths that depend on the credential. -/
def sample_ext : ext_env where
  eap_server_tls_derive_key := fun _ len => some (List.replicate len 7)
  tls_connection_get_keys := (0, ⟨some [1, 1], some [2, 2], some [3]⟩)
  tls_prf := fun _ _ _ len => some (List.replicate len 7)
  tls_connection_ia_permute_inner_secret := fun _ => 0
  WPA_PUT_BE16 := fun v => [v / 256 % 256, v % 256]
  chap_md5 := fun id secret _ => List.replicate 16 ((id + secret.sum) % 256)
  challenge_response := fun _ h => List.replicate 24 (h.sum % 256)
  nt_challenge_response := fun _ pw => List.replicate 24 (pw.sum % 256)
  generate_nt_response_pwhash := fun _ _ _ h => List.replicate 24 (h.sum % 256)
  generate_nt_response := fun _ _ _ pw => List.replicate 24 (pw.sum % 256)
  nt_password_hash := fun pw => List.replicate 16 (pw.sum % 256)
  hash_nt_password_hash := fun h => List.replicate 16 ((h.sum + 1) % 256)
  get_master_key := fun h _ => List.replicate 16 ((h.sum + 2) % 256)
  get_asymetric_start_key := fun k len _ _ => List.replicate len (k.sum % 256)
  generate_authenticator_response_pwhash := fun h _ _ _ _ => List.replicate 20 (h.sum % 256)
  generate_authenticator_response := fun pw _ _ _ _ => List.replicate 20 (pw.sum % 256)

/-- Collaborators as `sample_ext`, except that the TLS layer has no inner secret and
the base derivation fails. -/
def sample_ext_no_keys : ext_env :=
  { sample_ext with
    eap_server_tls_derive_key := fun _ _ => none
    tls_connection_get_keys := (0, ⟨some [1, 1], some [2, 2], none⟩) }

/-- A user with the plaintext password `p w` and every Phase 2 method permitted. -/
def sample_user : eap_user where
  password := some [112, 119]
  password_hash := 0
  ttls_auth := 0x0f
  force_version := -1
  methods := [4, 26, 0, 0, 0, 0, 0, 0]

/-- A state machine with the identity `d \ u` and `sample_user`, TNC off. -/
def sample_sm : eap_sm eap_user where
  identity := some [100, 92, 117]
  identity_len := 3
  user := some sample_user
  tnc := 0
  method_pending := 0
  user_eap_method_index := 0

/-- A session in state `SUCCESS` under the base protocol. -/
def sample_success_v0 : eap_ttls_data := { sample_session with state := .SUCCESS }

/-- A session in state `SUCCESS` under the extended protocol. -/
def sample_success_v1 : eap_ttls_data :=
  { sample_session with state := .SUCCESS, ttls_version := 1 }

/-- An MS-CHAP / MS-CHAPv2 response of 50 bytes: identifier 7, then 25 bytes `x`,
then the 24-byte NT response made of bytes `nt`. -/
def sample_response (x nt : Nat) : List Nat :=
  7 :: List.replicate 25 x ++ List.replicate 24 nt

/-- A session waiting for the MS-CHAPv2 acknowledgment, with the given success flag
and protocol version. -/
def sample_ack_session (ok version : Int) : eap_ttls_data :=
  { sample_session with
    state := .PHASE2_MSCHAPV2_RESP, mschapv2_resp_ok := ok, ttls_version := version }

/-- The collaborators of `eap_ttls_process_msg` in the samples. -/
def sample_msg_env : msg_env Unit where
  eap_server_tls_phase1 := 0
  eap_ttls_phase2_eap_init := fun sm data _ => (sm, data, 0)

/-! ## Counting the iterations of the decoder -/

/-- The number of times the body of the `while (left > 0)` loop of `eap_ttls_avp_parse`
is entered (source lines 172-311), the iteration that jumps to `fail` included. The
recursion is that of `avp_parse_loop`. -/
def avp_parse_iterations (K : ttls_consts) (A : allocator) (buf : Nat → Nat) :
    Nat → Nat → Int → eap_ttls_avp → Nat
  | fuel, pos, left, parse =>
    if left > 0 then
      match fuel with
      | 0 => 0
      | fuel + 1 =>
        match avp_parse_iter K A buf pos left parse with
        | (_, .fail _) => 1
        | (_, .next advance parse1) =>
          1 + avp_parse_iterations K A buf fuel (pos + advance) (left - (advance : Int)) parse1
    else
      0

/-! ## Building the MS-CHAPv2 reply -/

/-- The character that the conversion `%02X` prints for a nibble: `0`-`9`, `A`-`F`. -/
def hex_uppercase_digit (n : Nat) : Nat :=
  if n < 10 then 48 + n else 55 + n

/-- Modelled from the spec: `wpa_snprintf_hex_uppercase (buf, buf_size, data, len)` is
defined in `utils/common.c`, which is not among the sources; the spec says the
authenticator response is encoded as an uppercase hexadecimal string. Each byte is
printed as two characters, most significant nibble first, as long as the buffer has
room for them and the terminating NUL; the result is the characters that the returned
count covers. -/
def wpa_snprintf_hex_uppercase : Nat → List Nat → List Nat
  | _, [] => []
  | buf_size, b :: rest =>
    if 2 < buf_size then
      [hex_uppercase_digit (b / 16 % 16), hex_uppercase_digit (b % 16)] ++
        wpa_snprintf_hex_uppercase (buf_size - 2) rest
    else []

/-- The plaintext `req`, `req_len` that `eap_ttls_build_phase2_mschapv2` hands to
`eap_server_tls_encrypt` (source lines 490-513); `none` is the NULL return when
`os_malloc (100)` fails. `os_snprintf` with the format `S=` stores the two characters
and returns 2; `mschapv2_ident` is a `u8` and `mschapv2_auth_response` an array of 20
bytes. -/
def eap_ttls_build_phase2_mschapv2_req (K : ttls_consts) (A : allocator)
    (data : eap_ttls_data) : Option (List Nat) :=
  if A.os_malloc 100 = false then none
  else
    if data.mschapv2_resp_ok ≠ 0 then
      let pos := eap_ttls_avp_hdr K K.RADIUS_ATTR_MS_CHAP2_SUCCESS
        K.RADIUS_VENDOR_ID_MICROSOFT true 43
      let pos := pos ++ [data.mschapv2_ident % 256]
      let ret : Int := 2
      let pos := if ret ≥ 0 ∧ ret < (100 : Int) - pos.length then pos ++ [83, 61] else pos
      some (pos ++
        wpa_snprintf_hex_uppercase (100 - pos.length) (data.mschapv2_auth_response.take 20))
    else
      let pos := eap_ttls_avp_hdr K K.RADIUS_ATTR_MS_CHAP_ERROR
        K.RADIUS_VENDOR_ID_MICROSOFT true 6
      let pos := pos ++ [70, 97, 105, 108, 101, 100]
      some (AVP_PAD pos)

/-- The characters of the uppercase hexadecimal form of a byte string, two per byte. -/
def hex_uppercase (data : List Nat) : List Nat :=
  match data with
  | [] => []
  | b :: rest =>
    hex_uppercase_digit (b / 16 % 16) :: hex_uppercase_digit (b % 16) :: hex_uppercase rest

/-- The vendor AVP header of the spec, section 4.1: code, flags byte, 24-bit length,
vendor identifier, 12 bytes. -/
def vendor_avp_header (code flags length vendor : Nat) : List Nat :=
  host_to_be32 code ++ [flags] ++
    [length / 2 ^ 16 % 256, length / 2 ^ 8 % 256, length % 256] ++ host_to_be32 vendor

/-- A session in state `PHASE2_MSCHAPV2_RESP` with the given success flag, the
identifier 7 and the authenticator response `0x00 0x1f 0xa0 0xff` five times. -/
def sample_reply_session (ok : Int) : eap_ttls_data :=
  { sample_session with
    state := .PHASE2_MSCHAPV2_RESP, mschapv2_resp_ok := ok, mschapv2_ident := 7,
    mschapv2_auth_response :=
      [0, 31, 160, 255, 0, 31, 160, 255, 0, 31, 160, 255, 0, 31, 160, 255, 0, 31, 160, 255] }

/-! ## Inner EAP methods -/

/-- Modelled from the spec: `struct eap_hdr` is declared in `eap_common/eap_defs.h`,
which is not among the sources; the spec gives the inner EAP header as 4 bytes: code,
identifier and a 16-bit big-endian length. -/
def sizeof_eap_hdr : Nat := 4

/-- A call that the inner-EAP code makes to a method table or to the inner-secret
permutation, with the EAP type `m` of the table and the frame it passes. -/
inductive method_call where
  | reset (m : Nat)
  | init (eap_type : Nat)
  | check (m : Nat) (buf : List Nat)
  | process (m : Nat) (buf : List Nat)
  | getKey (m : Nat)
  | eap_ttls_ia_permute_inner_secret (key : Option (List Nat))
deriving DecidableEq

/-- The inner EAP methods and the functions of the EAP runtime that the inner-EAP code
calls, all defined outside the source. A method table is named by its EAP type `m`;
the private data of a method is a value of type `Nat`. `eap_server_get_eap_method`
tells whether a table is registered for the type; `init` gives the private data
(`none` for NULL); `reset`, `process`, `eap_sm_process_nak` and `eap_user_get` may
write to the state machine, `process` and `buildReq` to the private data; `check`,
`isDone`, `isSuccess` are queries; `getKey m` is `none` when the table has no `getKey`
function. -/
structure method_env where
  eap_server_get_eap_method : Nat → Bool
  init : Nat → eap_sm eap_user → eap_sm eap_user × Option Nat
  reset : Nat → eap_sm eap_user → Nat → eap_sm eap_user
  buildReq : Nat → eap_sm eap_user → Nat → Nat → eap_sm eap_user × Nat × Option (List Nat)
  check : Nat → eap_sm eap_user → Nat → List Nat → Bool
  process : Nat → eap_sm eap_user → Nat → List Nat → eap_sm eap_user × Nat
  isDone : Nat → eap_sm eap_user → Nat → Bool
  isSuccess : Nat → eap_sm eap_user → Nat → Bool
  getKey : Nat → Option (eap_sm eap_user → Nat → Option (List Nat))
  eap_sm_process_nak : eap_sm eap_user → List Nat → eap_sm eap_user
  eap_user_get : eap_sm eap_user → List Nat → Int → eap_sm eap_user × Int

/-- What the inner-EAP functions leave behind: the state machine, the session, and the
calls made, in order. -/
structure inner_result where
  sm : eap_sm eap_user
  data : eap_ttls_data
  calls : List method_call

/-- The function `eap_ttls_phase2_eap_init` (source lines 940-958): what it leaves
behind and the returned `int`. The method's `init` runs with `sm->init_phase2` set,
which is cleared again before the return. -/
def eap_ttls_phase2_eap_init (Me : method_env) (sm : eap_sm eap_user) (data : eap_ttls_data)
    (eap_type : Nat) : inner_result × Int :=
  let r : inner_result :=
    match data.phase2_priv, data.phase2_method with
    | some priv, some m =>
      ⟨Me.reset m sm priv, { data with phase2_method := none, phase2_priv := none },
        [.reset m]⟩
    | _, _ => ⟨sm, data, []⟩
  if Me.eap_server_get_eap_method eap_type = false then
    (⟨r.sm, { r.data with phase2_method := none }, r.calls⟩, -1)
  else
    let i := Me.init eap_type r.sm
    (⟨i.1, { r.data with phase2_method := some eap_type, phase2_priv := i.2 },
        r.calls ++ [.init eap_type]⟩,
      if i.2.isNone then -1 else 0)

/-- The `switch (data->state)` that ends `eap_ttls_process_phase2_eap_response` (source
lines 1033-1073), entered when the inner method `m` is done with success. When
`eap_user_get` returns 0 it has stored a user record; the first method of a missing
record is taken to be `EAP_TYPE_NONE`. `next_type` is a `u8` (source line 965): it
holds the method number modulo 256. The value returned by
`eap_ttls_ia_permute_inner_secret` is not used. -/
def phase2_eap_method_done (K : ttls_consts) (Me : method_env) (sm : eap_sm eap_user)
    (data : eap_ttls_data) (m priv : Nat) (calls : List method_call) : inner_result :=
  match data.state with
  | .PHASE2_START =>
    let g := Me.eap_user_get sm ((sm.identity.getD []).take sm.identity_len) 1
    if g.2 ≠ 0 then ⟨g.1, eap_ttls_state data .FAILURE, calls⟩
    else
      let data1 := eap_ttls_state data .PHASE2_METHOD
      let next_type :=
        (match g.1.user with
          | some user => user.methods.getD 0 K.EAP_TYPE_NONE
          | none => K.EAP_TYPE_NONE) % 256
      let sm1 := { g.1 with user_eap_method_index := 1 }
      let r := eap_ttls_phase2_eap_init Me sm1 data1 next_type
      if r.2 ≠ 0 then ⟨r.1.sm, eap_ttls_state r.1.data .FAILURE, calls ++ r.1.calls⟩
      else ⟨r.1.sm, r.1.data, calls ++ r.1.calls⟩
  | .PHASE2_METHOD =>
    if data.ttls_version > 0 then
      match Me.getKey m with
      | some getKey =>
        ⟨sm, eap_ttls_state data .PHASE_FINISHED,
          calls ++ [.getKey m, .eap_ttls_ia_permute_inner_secret (getKey sm priv)]⟩
      | none => ⟨sm, eap_ttls_state data .PHASE_FINISHED, calls⟩
    else ⟨sm, eap_ttls_state data .SUCCESS, calls⟩
  | .FAILURE => ⟨sm, data, calls⟩
  | _ => ⟨sm, data, calls⟩

/-- The Nak branch of `eap_ttls_process_phase2_eap_response` (source lines 982-1005):
`allowed` are the `left - 1` bytes after the type byte. The test against
`EAP_TYPE_NONE` is made on the method number of the user record; `next_type` is a `u8`
(source line 965) and holds that number modulo 256. -/
def phase2_eap_nak (K : ttls_consts) (Me : method_env) (sm : eap_sm eap_user)
    (data : eap_ttls_data) (allowed : List Nat) : inner_result :=
  let sm1 := Me.eap_sm_process_nak sm allowed
  match sm1.user with
  | some user =>
    if sm1.user_eap_method_index < K.EAP_MAX_METHODS ∧
        user.methods.getD sm1.user_eap_method_index K.EAP_TYPE_NONE ≠ K.EAP_TYPE_NONE then
      let next_type := user.methods.getD sm1.user_eap_method_index K.EAP_TYPE_NONE % 256
      let sm2 := { sm1 with user_eap_method_index := sm1.user_eap_method_index + 1 }
      let r := eap_ttls_phase2_eap_init Me sm2 data next_type
      if r.2 ≠ 0 then ⟨r.1.sm, eap_ttls_state r.1.data .FAILURE, r.1.calls⟩
      else r.1
    else ⟨sm1, eap_ttls_state data .FAILURE, []⟩
  | none => ⟨sm1, eap_ttls_state data .FAILURE, []⟩

/-- The function `eap_ttls_process_phase2_eap_response (sm, data, in_data, in_len)`
(source lines 961-1075); `in_data` holds at least `in_len` bytes. `wpabuf_dup` gives
NULL when its allocation fails. The method table is non-NULL whenever the private data
is (`eap_ttls_phase2_eap_init` stores the private data only after the table); the
model leaves the session as it is in the other case. -/
def eap_ttls_process_phase2_eap_response (K : ttls_consts) (A : allocator) (Me : method_env)
    (sm : eap_sm eap_user) (data : eap_ttls_data) (in_data : List Nat) (in_len : Nat) :
    inner_result :=
  match data.phase2_priv with
  | none => ⟨sm, data, []⟩
  | some priv =>
    if in_len > sizeof_eap_hdr ∧ in_data.getD sizeof_eap_hdr 0 = K.EAP_TYPE_NAK then
      let left := in_len - sizeof_eap_hdr
      phase2_eap_nak K Me sm data ((in_data.drop (sizeof_eap_hdr + 1)).take (left - 1))
    else
      match data.phase2_method with
      | none => ⟨sm, data, []⟩
      | some m =>
        let buf := in_data.take in_len
        if Me.check m sm priv buf then ⟨sm, data, [.check m buf]⟩
        else
          let p := Me.process m sm priv buf
          let calls : List method_call := [.check m buf, .process m buf]
          let data1 := { data with phase2_priv := some p.2 }
          let data2 :=
            if p.1.method_pending = K.METHOD_PENDING_WAIT then
              { data1 with
                pending_phase2_eap_resp := if A.wpabuf_alloc buf.length then some buf else none }
            else data1
          if Me.isDone m p.1 p.2 = false then ⟨p.1, data2, calls⟩
          else if Me.isSuccess m p.1 p.2 = false then
            ⟨p.1, eap_ttls_state data2 .FAILURE, calls⟩
          else phase2_eap_method_done K Me p.1 data2 m p.2 calls

/-- The function `eap_ttls_process_phase2_eap (sm, data, eap, eap_len)` (source lines
1077-1122); `hdr->code` is the byte at offset 0 and `hdr->length` the big-endian 16-bit
value at offset 2. -/
def eap_ttls_process_phase2_eap (K : ttls_consts) (A : allocator) (Me : method_env)
    (sm : eap_sm eap_user) (data : eap_ttls_data) (eap : List Nat) : inner_result :=
  let r : inner_result × Int :=
    if data.state = .PHASE2_START then eap_ttls_phase2_eap_init Me sm data K.EAP_TYPE_IDENTITY
    else (⟨sm, data, []⟩, 0)
  if r.2 < 0 then r.1
  else if eap.length < sizeof_eap_hdr then r.1
  else
    let len := eap.getD 2 0 % 256 * 256 + eap.getD 3 0 % 256
    if len > eap.length then r.1
    else if eap.getD 0 0 = K.EAP_CODE_RESPONSE then
      let q := eap_ttls_process_phase2_eap_response K A Me r.1.sm r.1.data eap len
      ⟨q.sm, q.data, r.1.calls ++ q.calls⟩
    else r.1

/-- The five handlers of `eap_ttls.c` as the collaborators of `eap_ttls_process_phase2`:
the TLS layer and the user lookup are those of `E`. Where the MS-CHAPv2 handler has no
result (it reads through a NULL `sm->identity`) the field gives the session it was
called with; a pass in which that happens has no result in the source, and
`ttls_pass_defined` tells the passes in which it does not happen. -/
def ttls_phase2_env (K : ttls_consts) (A : allocator) (X : ext_env) (Me : method_env)
    (E : phase2_env eap_user) : phase2_env eap_user where
  tls_connection_decrypt := E.tls_connection_decrypt
  tls_connection_ia_final_phase_finished := E.tls_connection_ia_final_phase_finished
  eap_user_get := E.eap_user_get
  eap_ttls_process_phase2_eap := fun sm data eap =>
    ((eap_ttls_process_phase2_eap K A Me sm data eap).sm,
      (eap_ttls_process_phase2_eap K A Me sm data eap).data)
  eap_ttls_process_phase2_pap := fun sm data user_password =>
    (sm, eap_ttls_process_phase2_pap K sm data user_password)
  eap_ttls_process_phase2_chap := fun sm data challenge password =>
    (sm, eap_ttls_process_phase2_chap K A X sm data challenge (some password))
  eap_ttls_process_phase2_mschap := fun sm data challenge response =>
    (sm, eap_ttls_process_phase2_mschap K A X sm data challenge (some response))
  eap_ttls_process_phase2_mschapv2 := fun sm data challenge response =>
    match eap_ttls_process_phase2_mschapv2 K A X sm data challenge (some response) with
    | some r => (sm, r.1)
    | none => (sm, data)

/-- The collaborators of `eap_ttls_process_msg` with `eap_ttls_phase2_eap_init` of
`eap_ttls.c`; `phase1` is the value returned by `eap_server_tls_phase1`. -/
def ttls_msg_env (Me : method_env) (phase1 : Int) : msg_env eap_user where
  eap_server_tls_phase1 := phase1
  eap_ttls_phase2_eap_init := fun sm data eap_type =>
    ((eap_ttls_phase2_eap_init Me sm data eap_type).1.sm,
      (eap_ttls_phase2_eap_init Me sm data eap_type).1.data,
      (eap_ttls_phase2_eap_init Me sm data eap_type).2)

/-! ## Requests, the entry point of message processing, and the life cycle -/

/-- The values of `data->ssl.state` (the enumeration of `struct eap_ssl_data`, declared
in `eap_tls_common.h`, outside the source). -/
inductive tls_frag_state where
  | MSG
  | FRAG_ACK
  | WAIT_FRAG_ACK
deriving DecidableEq

/-- The fields of `struct eap_ssl_data` (the field `ssl` of the session) that
`eap_ttls_buildReq` reads or writes; `out_buf` is `none` when the pointer is NULL. -/
structure eap_ssl_data where
  state : tls_frag_state
  out_buf : Option (List Nat)
  out_used : Nat
deriving DecidableEq

/-- The functions of the TLS layer and of the EAP runtime that request building calls,
all defined outside the source. `eap_server_tls_build_msg` gives the record it leaves
and the frame it returns; `eap_msg_alloc payload_len id` gives the header of the new
frame (`none` for NULL); `tls_connection_ia_send_phase_finished final max_len` gives
the returned length and the bytes stored. -/
structure build_env where
  eap_server_tls_build_ack : Nat → Int → Option (List Nat)
  eap_server_tls_build_msg : eap_ssl_data → Int → Nat → eap_ssl_data × Option (List Nat)
  eap_msg_alloc : Nat → Nat → Option (List Nat)
  tls_connection_established : Bool
  eap_server_tls_encrypt : List Nat → Option (List Nat)
  tls_connection_ia_send_phase_finished : Int → Nat → Int × List Nat

/-- The state-specific constructions of `eap_ttls_buildReq`. -/
inductive build_call where
  | eap_ttls_build_start
  | tls_connection_established
  | eap_ttls_build_phase2_eap_req
  | eap_ttls_build_phase2_mschapv2
  | eap_ttls_build_phase_finished
deriving DecidableEq

/-- What `eap_ttls_buildReq` leaves behind: the returned frame (`none` for NULL), the
state machine, the transport record, the session, and the state-specific
constructions it has made. -/
structure buildReq_result where
  req : Option (List Nat)
  sm : eap_sm eap_user
  ssl : eap_ssl_data
  data : eap_ttls_data
  calls : List build_call

/-- The function `eap_ttls_build_start` (source lines 426-445): the frame and the
session. The version is not negative, and the flags octet is a `u8`. -/
def eap_ttls_build_start (K : ttls_consts) (B : build_env) (data : eap_ttls_data) (id : Nat) :
    Option (List Nat) × eap_ttls_data :=
  match B.eap_msg_alloc 1 id with
  | none => (none, eap_ttls_state data .FAILURE)
  | some req =>
    (some (req ++ [(K.EAP_TLS_FLAGS_START ||| data.ttls_version.toNat) % 256]),
      eap_ttls_state data .PHASE1)

/-- The function `eap_ttls_build_phase2_eap_req` (source lines 448-479): the state
machine and private data left by the method's `buildReq`, and the returned buffer. It
is called in state `PHASE2_METHOD`, where the method table and the private data are
set; without them the model returns NULL. -/
def eap_ttls_build_phase2_eap_req (K : ttls_consts) (A : allocator) (B : build_env)
    (Me : method_env) (sm : eap_sm eap_user) (data : eap_ttls_data) (id : Nat) :
    eap_sm eap_user × eap_ttls_data × Option (List Nat) :=
  match data.phase2_method, data.phase2_priv with
  | some m, some priv =>
    let r := Me.buildReq m sm priv id
    let data1 := { data with phase2_priv := some r.2.1 }
    match r.2.2 with
    | none => (r.1, data1, none)
    | some buf =>
      match eap_ttls_avp_encapsulate K A buf K.RADIUS_ATTR_EAP_MESSAGE true with
      | none => (r.1, data1, none)
      | some req => (r.1, data1, B.eap_server_tls_encrypt req)
  | _, _ => (sm, data, none)

/-- The function `eap_ttls_build_phase2_mschapv2` (source lines 482-521). -/
def eap_ttls_build_phase2_mschapv2 (K : ttls_consts) (A : allocator) (B : build_env)
    (data : eap_ttls_data) : Option (List Nat) :=
  match eap_ttls_build_phase2_mschapv2_req K A data with
  | none => none
  | some req => B.eap_server_tls_encrypt req

/-- The function `eap_ttls_build_phase_finished` (source lines 524-546). -/
def eap_ttls_build_phase_finished (A : allocator) (B : build_env) (final : Int) :
    Option (List Nat) :=
  let max_len := 300
  if A.wpabuf_alloc max_len = false then none
  else
    let r := B.tls_connection_ia_send_phase_finished final max_len
    if r.1 < 0 then none else some (r.2.take r.1.toNat)

/-- The function `eap_ttls_buildReq` (source lines 549-597). -/
def eap_ttls_buildReq (K : ttls_consts) (A : allocator) (B : build_env) (Me : method_env)
    (sm : eap_sm eap_user) (ssl : eap_ssl_data) (data : eap_ttls_data) (id : Nat) :
    buildReq_result :=
  if ssl.state = .FRAG_ACK then
    ⟨B.eap_server_tls_build_ack id data.ttls_version, sm, ssl, data, []⟩
  else if ssl.state = .WAIT_FRAG_ACK then
    let r := B.eap_server_tls_build_msg ssl data.ttls_version id
    ⟨r.2, sm, r.1, data, []⟩
  else
    let finish := fun (sm1 : eap_sm eap_user) (ssl1 : eap_ssl_data) (data1 : eap_ttls_data)
        (calls : List build_call) =>
      let r := B.eap_server_tls_build_msg ssl1 data1.ttls_version id
      (⟨r.2, sm1, r.1, data1, calls⟩ : buildReq_result)
    match data.state with
    | .START =>
      let r := eap_ttls_build_start K B data id
      ⟨r.1, sm, ssl, r.2, [.eap_ttls_build_start]⟩
    | .PHASE1 =>
      let data1 :=
        if B.tls_connection_established then eap_ttls_state data .PHASE2_START else data
      finish sm ssl data1 [.tls_connection_established]
    | .PHASE2_METHOD =>
      let r := eap_ttls_build_phase2_eap_req K A B Me sm data id
      finish r.1 { ssl with out_used := 0, out_buf := r.2.2 } r.2.1
        [.eap_ttls_build_phase2_eap_req]
    | .PHASE2_MSCHAPV2_RESP =>
      finish sm { ssl with out_used := 0, out_buf := eap_ttls_build_phase2_mschapv2 K A B data }
        data [.eap_ttls_build_phase2_mschapv2]
    | .PHASE_FINISHED =>
      finish sm { ssl with out_used := 0, out_buf := eap_ttls_build_phase_finished A B 1 }
        data [.eap_ttls_build_phase_finished]
    | _ => ⟨none, sm, ssl, data, []⟩

/-- The function `eap_ttls_process_version` (source lines 1284-1305): the session and
the returned `int`; `set_ia` is the value returned by `tls_connection_set_ia`. -/
def eap_ttls_process_version (set_ia : Int) (data : eap_ttls_data) (peer_version : Int) :
    eap_ttls_data × Int :=
  let data1 :=
    if peer_version < data.ttls_version then { data with ttls_version := peer_version }
    else data
  if data1.ttls_version > 0 ∧ data1.tls_ia_configured = 0 then
    if set_ia ≠ 0 then (data1, -1)
    else ({ data1 with tls_ia_configured := 1 }, 0)
  else (data1, 0)

/-- A call that `eap_server_tls_process` makes to one of the two callbacks it is
given, with the argument it passes (the peer version; the content of
`data->ssl.in_buf` at that moment). -/
inductive tls_callback where
  | proc_version (peer_version : Int)
  | proc_msg (in_buf : List Nat)

/-- The function `eap_server_tls_process`, defined outside the source: it reaches the
session only through the callbacks `eap_ttls_process_version` and
`eap_ttls_process_msg`. Its run is given by the callbacks it calls, in order, the
value `tls_connection_set_ia` returns during them, and the value it returns. -/
structure tls_process_env where
  callbacks : List tls_callback
  tls_connection_set_ia : Int
  ret : Int

/-- The effect of a sequence of callbacks on the state machine and the session. -/
def run_callbacks (K : ttls_consts) (A : allocator) (E : phase2_env eap_user)
    (M : msg_env eap_user) (set_ia : Int) :
    List tls_callback → eap_sm eap_user → eap_ttls_data → eap_sm eap_user × eap_ttls_data
  | [], sm, data => (sm, data)
  | .proc_version v :: rest, sm, data =>
    run_callbacks K A E M set_ia rest sm (eap_ttls_process_version set_ia data v).1
  | .proc_msg in_buf :: rest, sm, data =>
    let r := eap_ttls_process_msg K A E M sm data in_buf
    run_callbacks K A E M set_ia rest r.sm r.data

/-- The function `eap_ttls_process` (source lines 1353-1361). -/
def eap_ttls_process (K : ttls_consts) (A : allocator) (E : phase2_env eap_user)
    (M : msg_env eap_user) (T : tls_process_env) (sm : eap_sm eap_user)
    (data : eap_ttls_data) : eap_sm eap_user × eap_ttls_data :=
  let r := run_callbacks K A E M T.tls_connection_set_ia T.callbacks sm data
  if T.ret < 0 then (r.1, eap_ttls_state r.2 .FAILURE) else r

/-- What `eap_ttls_init` calls: whether `os_zalloc` gives memory, whether the TLS
library has the capability `TLS_CAPABILITY_IA`, and the value returned by
`eap_server_tls_ssl_init`. -/
structure init_env where
  os_zalloc : Bool
  tls_capability_ia : Bool
  eap_server_tls_ssl_init : Int

/-- The function `eap_ttls_init` (source lines 374-410); `none` is the NULL return.
The session starts zeroed: NULL pointers, flags 0. -/
def eap_ttls_init (K : ttls_consts) (I : init_env) (sm : eap_sm eap_user) :
    Option eap_ttls_data :=
  if I.os_zalloc = false then none
  else
    let forced := (sm.user.map (fun u => decide (u.force_version ≥ 0))).getD false
    let force_version : Int := if forced then (sm.user.map (·.force_version)).getD (-1) else -1
    let ttls_version : Int := if forced then force_version else K.EAP_TTLS_VERSION
    let data : eap_ttls_data :=
      { state := .START, ttls_version := ttls_version, force_version := force_version,
        phase2_method := none, phase2_priv := none, mschapv2_resp_ok := 0,
        mschapv2_auth_response := List.replicate 20 0, mschapv2_ident := 0,
        tls_ia_configured := 0, pending_phase2_eap_resp := none, tnc_started := 0 }
    if I.tls_capability_ia = false ∧ data.ttls_version > 0 then
      if data.force_version > 0 then none
      else
        if I.eap_server_tls_ssl_init ≠ 0 then none
        else some { data with ttls_version := 0 }
    else
      if I.eap_server_tls_ssl_init ≠ 0 then none else some data

/-- A call of `eap_ttls_process_msg` with the handlers of `eap_ttls.c` has a result:
the MS-CHAPv2 handler, if it is called, does not read through a NULL `sm->identity`.
The handler is called with the session `data` the pass starts from, and the PAP, CHAP,
MS-CHAP and MS-CHAPv2 handlers leave the state machine as it is, so that the state
machine of the result is the one the MS-CHAPv2 handler was called with. -/
def ttls_pass_defined (K : ttls_consts) (A : allocator) (X : ext_env) (Me : method_env)
    (E : phase2_env eap_user) (phase1 : Int) (sm : eap_sm eap_user) (data : eap_ttls_data)
    (in_buf : List Nat) : Prop :=
  ∀ c r,
    phase2_call.mschapv2 c r ∈
      (eap_ttls_process_msg K A (ttls_phase2_env K A X Me E) (ttls_msg_env Me phase1) sm data
        in_buf).calls →
    eap_ttls_process_phase2_mschapv2 K A X
      (eap_ttls_process_msg K A (ttls_phase2_env K A X Me E) (ttls_msg_env Me phase1) sm data
        in_buf).sm data c (some r) ≠ none

/-- The sessions that `eap_ttls_init` creates and that `eap_ttls_buildReq` and
`eap_ttls_process_msg` then lead to, whatever the state machine, the transport record,
the inbound message and the answers of the collaborators at each call; a call of
`eap_ttls_process_msg` that has no result (`ttls_pass_defined`) leads nowhere. -/
inductive ttls_reaches (K : ttls_consts) : eap_ttls_data → Prop where
  | init (I : init_env) (sm : eap_sm eap_user) (data : eap_ttls_data) :
    eap_ttls_init K I sm = some data → ttls_reaches K data
  | buildReq (A : allocator) (B : build_env) (Me : method_env) (sm : eap_sm eap_user)
    (ssl : eap_ssl_data) (data : eap_ttls_data) (id : Nat) :
    ttls_reaches K data → ttls_reaches K (eap_ttls_buildReq K A B Me sm ssl data id).data
  | process_msg (A : allocator) (X : ext_env) (Me : method_env) (E : phase2_env eap_user)
    (phase1 : Int) (sm : eap_sm eap_user) (data : eap_ttls_data) (in_buf : List Nat) :
    ttls_reaches K data → ttls_pass_defined K A X Me E phase1 sm data in_buf →
    ttls_reaches K (eap_ttls_process_msg K A (ttls_phase2_env K A X Me E)
      (ttls_msg_env Me phase1) sm data in_buf).data

/-- The sessions an inner-EAP function can leave, seen from the session it starts
from: the version is kept, and the state is kept, or becomes `FAILURE`, or
`PHASE2_METHOD`, or, from `PHASE2_METHOD`, `SUCCESS` under the base protocol and
`PHASE_FINISHED` under the extended one. -/
def inner_eap_step (data data1 : eap_ttls_data) : Prop :=
  data1.ttls_version = data.ttls_version ∧
  (data1.state = data.state ∨ data1.state = .FAILURE ∨ data1.state = .PHASE2_METHOD ∨
    (data1.state = .SUCCESS ∧ data.state = .PHASE2_METHOD ∧ ¬ data.ttls_version > 0) ∨
    (data1.state = .PHASE_FINISHED ∧ data.state = .PHASE2_METHOD ∧ data.ttls_version > 0))

/-! ## Sample collaborators of request building and of the inner-EAP code -/

/-- A TLS layer that sends the outgoing buffer in one frame, encrypts by the identity
and has the handshake established. -/
def sample_build_env : build_env where
  eap_server_tls_build_ack := fun id _ => some [1, id, 0, 6, 21, 0]
  eap_server_tls_build_msg := fun ssl _ id =>
    ({ ssl with out_used := (ssl.out_buf.getD []).length },
      some ([1, id] ++ ssl.out_buf.getD []))
  eap_msg_alloc := fun _ id => some [1, id, 0, 6, 21]
  tls_connection_established := true
  eap_server_tls_encrypt := fun req => some req
  tls_connection_ia_send_phase_finished := fun _ _ => (0, [])

/-- Inner methods registered for every type but 0. The private data counts the
processed frames and a method is done with success after one frame; a frame whose
byte 5 is 255 is not counted and leaves `method_pending` at 1 (`METHOD_PENDING_WAIT`). -/
def sample_method_env : method_env where
  eap_server_get_eap_method := fun t => decide (t ≠ 0)
  init := fun _ sm => (sm, some 0)
  reset := fun _ sm _ => sm
  buildReq := fun _ sm priv id => (sm, priv, some [1, id, 0, 5, 1])
  check := fun _ _ _ _ => false
  process := fun _ sm priv buf =>
    if buf.getD 5 0 = 255 then ({ sm with method_pending := 1 }, priv)
    else ({ sm with method_pending := 0 }, priv + 1)
  isDone := fun _ _ priv => decide (priv ≥ 1)
  isSuccess := fun _ _ _ => true
  getKey := fun _ => none
  eap_sm_process_nak := fun sm _ => sm
  eap_user_get := fun sm _ _ => (sm, 0)

/-- A transport record with nothing queued. -/
def sample_ssl (state : tls_frag_state) : eap_ssl_data where
  state := state
  out_buf := none
  out_used := 0

/-- A session in state `PHASE2_METHOD` under the base protocol, running the inner
method of type 4 with private data 0. -/
def sample_method_session : eap_ttls_data :=
  { sample_session with
    state := .PHASE2_METHOD, phase2_method := some 4, phase2_priv := some 0 }

/-- An inner EAP response of 6 bytes with identifier 7, the given type and one data
byte. -/
def sample_inner_response (type byte : Nat) : List Nat := [2, 7, 0, 6, type, byte]

/-- A TLS layer whose decryption gives one EAP-Message AVP with the one-byte
payload 2. -/
def sample_short_eap_env : phase2_env eap_user where
  tls_connection_decrypt := fun _ _ =>
    (12, buf_mem [0, 0, 0, 79, 0x40, 0, 0, 9, 2, 0, 0, 0] (fun _ => 0))
  tls_connection_ia_final_phase_finished := false
  eap_user_get := fun sm _ _ => (sm, 0)
  eap_ttls_process_phase2_eap := fun sm data _ => (sm, data)
  eap_ttls_process_phase2_pap := fun sm data _ => (sm, data)
  eap_ttls_process_phase2_chap := fun sm data _ _ => (sm, data)
  eap_ttls_process_phase2_mschap := fun sm data _ _ => (sm, data)
  eap_ttls_process_phase2_mschapv2 := fun sm data _ _ => (sm, data)

/-- An initialisation in which every call succeeds and the TLS library has no TLS/IA. -/
def sample_init_env : init_env where
  os_zalloc := true
  tls_capability_ia := false
  eap_server_tls_ssl_init := 0

/-- The session after `eap_ttls_init`, two calls of `eap_ttls_buildReq` and one call of
`eap_ttls_process_msg` on an inner EAP frame of one byte: EAP-Identity is initialised
and the state is still `PHASE2_START`. -/
def sample_identity_session : eap_ttls_data :=
  { sample_session with phase2_method := some 1, phase2_priv := some 0 }

/-! # Lemmas -/

/-! ## Arithmetic of the header fields -/

theorem and_ffffff (x : Nat) : x &&& 0xffffff = x % 2 ^ 24 := by
  have h := Nat.and_pow_two_sub_one_eq_mod x 24
  simpa using h

theorem and_ff (x : Nat) : x &&& 0xff = x % 256 := by
  have h := Nat.and_pow_two_sub_one_eq_mod x 8
  simpa using h

theorem and_three (x : Nat) : x &&& 3 = x % 4 := by
  have h := Nat.and_pow_two_sub_one_eq_mod x 2
  simpa using h

theorem pad_eq (n : Nat) : (4 - (n &&& 3)) &&& 3 = (4 - n % 4) % 4 := by
  rw [and_three, and_three]

theorem flags_shift_or (f n : Nat) (hn : n < 2 ^ 24) :
    (f <<< 24) ||| n = f * 2 ^ 24 + n := by
  rw [Nat.shiftLeft_eq, Nat.mul_comm, ← Nat.mul_add_lt_is_or hn]

theorem be_to_host32_of_bytes (buf : Nat → Nat) (pos x : Nat)
    (h0 : buf pos = x / 2 ^ 24 % 256) (h1 : buf (pos + 1) = x / 2 ^ 16 % 256)
    (h2 : buf (pos + 2) = x / 2 ^ 8 % 256) (h3 : buf (pos + 3) = x % 256) :
    be_to_host32 buf pos = x % 2 ^ 32 := by
  unfold be_to_host32
  rw [h0, h1, h2, h3]
  omega

theorem be_to_host32_lt (buf : Nat → Nat) (pos : Nat) : be_to_host32 buf pos < 2 ^ 32 := by
  unfold be_to_host32
  exact Nat.mod_lt _ (by norm_num)

theorem word_flags (f n : Nat) (hf : f < 256) (hn : n < 2 ^ 24) :
    (((f * 2 ^ 24 + n) % 2 ^ 32) >>> 24) &&& 0xff = f := by
  rw [and_ff, Nat.shiftRight_eq_div_pow]
  omega

theorem word_length (f n : Nat) (hn : n < 2 ^ 24) :
    ((f * 2 ^ 24 + n) % 2 ^ 32) &&& 0xffffff = n := by
  rw [and_ffffff]
  omega

/-! ## Shape of one iteration -/

theorem avp_parse_finish_snd (parse : eap_ttls_avp) (n : Nat) (reads : List Nat)
    (dpos : Nat) (r : List Nat × Option eap_ttls_avp) :
    (avp_parse_finish parse n reads dpos r).2 =
      match r.2 with
      | none => avp_parse_fail parse
      | some q => avp_parse_advance n q := by
  unfold avp_parse_finish
  cases r.2 <;> rfl

theorem avp_parse_advance_eq (n : Nat) (q : eap_ttls_avp) :
    avp_parse_advance n q = .next (n + (4 - n % 4) % 4) q := by
  unfold avp_parse_advance
  simp only [pad_eq]

/-- The step of an iteration, as a function of the decoded header fields. -/
theorem avp_parse_iter_snd (K : ttls_consts) (A : allocator) (buf : Nat → Nat) (pos : Nat)
    (left : Int) (parse : eap_ttls_avp) :
    (avp_parse_iter K A buf pos left parse).2 =
      if ((be_to_host32 buf (pos + 4) % 2 ^ 24 : Nat) : Int) > left then avp_parse_fail parse
      else if be_to_host32 buf (pos + 4) % 2 ^ 24 < 8 then avp_parse_fail parse
      else if ((be_to_host32 buf (pos + 4)) >>> 24 &&& 0xff) &&& K.AVP_FLAGS_VENDOR ≠ 0 then
        if be_to_host32 buf (pos + 4) % 2 ^ 24 - 8 < 4 then avp_parse_fail parse
        else
          match (avp_parse_attr K A parse (be_to_host32 buf pos)
              ((be_to_host32 buf (pos + 4)) >>> 24 &&& 0xff) (be_to_host32 buf (pos + 8))
              (mem_bytes buf (pos + 8 + 4) (be_to_host32 buf (pos + 4) % 2 ^ 24 - 8 - 4))).2 with
          | none => avp_parse_fail parse
          | some q => avp_parse_advance (be_to_host32 buf (pos + 4) % 2 ^ 24) q
      else
        match (avp_parse_attr K A parse (be_to_host32 buf pos)
            ((be_to_host32 buf (pos + 4)) >>> 24 &&& 0xff) 0
            (mem_bytes buf (pos + 8) (be_to_host32 buf (pos + 4) % 2 ^ 24 - 8))).2 with
        | none => avp_parse_fail parse
        | some q => avp_parse_advance (be_to_host32 buf (pos + 4) % 2 ^ 24) q := by
  unfold avp_parse_iter
  simp only [and_ffffff, sizeof_ttls_avp]
  split_ifs <;> simp only [avp_parse_finish_snd]

theorem avp_parse_iter_next (K : ttls_consts) (A : allocator) (buf : Nat → Nat) (pos : Nat)
    (left : Int) (parse : eap_ttls_avp) (n : Nat) (q : eap_ttls_avp)
    (h : (avp_parse_iter K A buf pos left parse).2 = .next n q) :
    8 ≤ n ∧ (n : Int) ≤ left + 3 := by
  rw [avp_parse_iter_snd] at h
  simp only [avp_parse_fail, avp_parse_advance_eq] at h
  split_ifs at h with h1 h2 h3 h4
  · split at h
    · cases h
    · simp only [avp_step.next.injEq] at h
      omega
  · split at h
    · cases h
    · simp only [avp_step.next.injEq] at h
      omega

/-! ## The loop: unfolding, totality, independence of the fuel -/

theorem avp_parse_loop_done (K : ttls_consts) (A : allocator) (buf : Nat → Nat)
    (fuel pos : Nat) (left : Int) (parse : eap_ttls_avp) (reads : List Nat)
    (h : ¬ left > 0) :
    avp_parse_loop K A buf fuel pos left parse reads = some ⟨0, parse, reads⟩ := by
  unfold avp_parse_loop
  simp only [h, if_false]

theorem avp_parse_loop_fail (K : ttls_consts) (A : allocator) (buf : Nat → Nat)
    (fuel pos : Nat) (left : Int) (parse : eap_ttls_avp) (reads : List Nat)
    (h : left > 0) (q : eap_ttls_avp)
    (hs : (avp_parse_iter K A buf pos left parse).2 = .fail q) :
    avp_parse_loop K A buf (fuel + 1) pos left parse reads =
      some ⟨-1, q, reads ++ (avp_parse_iter K A buf pos left parse).1⟩ := by
  rw [avp_parse_loop]
  simp only [h, if_true]
  generalize avp_parse_iter K A buf pos left parse = it at hs
  obtain ⟨r, st⟩ := it
  simp only at hs
  subst hs
  rfl

theorem avp_parse_loop_next (K : ttls_consts) (A : allocator) (buf : Nat → Nat)
    (fuel pos : Nat) (left : Int) (parse : eap_ttls_avp) (reads : List Nat)
    (h : left > 0) (n : Nat) (q : eap_ttls_avp)
    (hs : (avp_parse_iter K A buf pos left parse).2 = .next n q) :
    avp_parse_loop K A buf (fuel + 1) pos left parse reads =
      avp_parse_loop K A buf fuel (pos + n) (left - (n : Int)) q
        (reads ++ (avp_parse_iter K A buf pos left parse).1) := by
  rw [avp_parse_loop]
  simp only [h, if_true]
  generalize avp_parse_iter K A buf pos left parse = it at hs
  obtain ⟨r, st⟩ := it
  simp only at hs
  subst hs
  rfl

theorem avp_parse_loop_total (K : ttls_consts) (A : allocator) (buf : Nat → Nat)
    (fuel : Nat) : ∀ (pos : Nat) (left : Int) (parse : eap_ttls_avp) (reads : List Nat),
    left ≤ (fuel : Int) →
    ∃ r, avp_parse_loop K A buf fuel pos left parse reads = some r := by
  induction fuel with
  | zero =>
    intro pos left parse reads h
    exact ⟨_, avp_parse_loop_done K A buf 0 pos left parse reads (by simpa using h)⟩
  | succ f ih =>
    intro pos left parse reads h
    by_cases hl : left > 0
    · cases hs : (avp_parse_iter K A buf pos left parse).2 with
      | fail q => exact ⟨_, avp_parse_loop_fail K A buf f pos left parse reads hl q hs⟩
      | next n q =>
        rw [avp_parse_loop_next K A buf f pos left parse reads hl n q hs]
        have hb := avp_parse_iter_next K A buf pos left parse n q hs
        exact ih _ _ _ _ (by push_cast at h; omega)
    · exact ⟨_, avp_parse_loop_done K A buf _ pos left parse reads hl⟩

theorem avp_parse_loop_fuel (K : ttls_consts) (A : allocator) (buf : Nat → Nat)
    (f1 : Nat) : ∀ (f2 pos : Nat) (left : Int) (parse : eap_ttls_avp) (reads : List Nat),
    left ≤ (f1 : Int) → left ≤ (f2 : Int) →
    avp_parse_loop K A buf f1 pos left parse reads =
      avp_parse_loop K A buf f2 pos left parse reads := by
  induction f1 with
  | zero =>
    intro f2 pos left parse reads h1 _
    have hl : ¬ left > 0 := by simpa using h1
    rw [avp_parse_loop_done K A buf 0 pos left parse reads hl,
      avp_parse_loop_done K A buf f2 pos left parse reads hl]
  | succ f ih =>
    intro f2 pos left parse reads h1 h2
    by_cases hl : left > 0
    · cases f2 with
      | zero => exact absurd h2 (by simpa using hl)
      | succ g =>
        cases hs : (avp_parse_iter K A buf pos left parse).2 with
        | fail q =>
          rw [avp_parse_loop_fail K A buf f pos left parse reads hl q hs,
            avp_parse_loop_fail K A buf g pos left parse reads hl q hs]
        | next n q =>
          rw [avp_parse_loop_next K A buf f pos left parse reads hl n q hs,
            avp_parse_loop_next K A buf g pos left parse reads hl n q hs]
          have hb := avp_parse_iter_next K A buf pos left parse n q hs
          exact ih _ _ _ _ _ (by push_cast at h1; omega) (by push_cast at h2; omega)
    · rw [avp_parse_loop_done K A buf _ pos left parse reads hl,
        avp_parse_loop_done K A buf f2 pos left parse reads hl]

theorem size_t_to_int_le (len : Nat) : size_t_to_int len ≤ (len : Int) := by
  unfold size_t_to_int
  have h := Nat.mod_le len (2 ^ 32)
  split_ifs <;> omega

theorem size_t_to_int_of_lt (len : Nat) (h : len < 2 ^ 31) : size_t_to_int len = (len : Int) := by
  unfold size_t_to_int
  have h1 : len % 2 ^ 32 = len := Nat.mod_eq_of_lt (by omega)
  rw [h1, if_pos h]

/-- The decoder terminates with a result on every buffer. -/
theorem eap_ttls_avp_parse_total (K : ttls_consts) (A : allocator) (buf : Nat → Nat)
    (len : Nat) : ∃ r, eap_ttls_avp_parse K A buf len = some r :=
  avp_parse_loop_total K A buf len 0 _ _ _ (size_t_to_int_le len)

/-! ## Memories -/

theorem mem_holds_append (buf : Nat → Nat) (pos : Nat) (x y : List Nat) :
    mem_holds buf pos (x ++ y) ↔ mem_holds buf pos x ∧ mem_holds buf (pos + x.length) y := by
  unfold mem_holds
  constructor
  · intro h
    constructor
    · intro i hi
      rw [h i (by rw [List.length_append]; omega), List.getD_append _ _ _ _ hi]
    · intro i hi
      rw [Nat.add_assoc, h (x.length + i) (by rw [List.length_append]; omega),
        List.getD_append_right _ _ _ _ (by omega)]
      simp
  · rintro ⟨h1, h2⟩ i hi
    rw [List.length_append] at hi
    by_cases hx : i < x.length
    · rw [h1 i hx, List.getD_append _ _ _ _ hx]
    · have h := h2 (i - x.length) (by omega)
      rw [List.getD_append_right _ _ _ _ (by omega), ← h]
      congr 1
      omega

theorem mem_holds_bytes (buf : Nat → Nat) (pos : Nat) (b : List Nat)
    (h : mem_holds buf pos b) : mem_bytes buf pos b.length = b := by
  unfold mem_bytes
  apply List.ext_getElem
  · simp
  · intro i h1 h2
    simp only [List.getElem_map, List.getElem_range]
    rw [h i h2, List.getD_eq_getElem _ _ h2]

theorem mem_holds_be32 (buf : Nat → Nat) (pos x : Nat)
    (h : mem_holds buf pos (host_to_be32 x)) : be_to_host32 buf pos = x % 2 ^ 32 := by
  apply be_to_host32_of_bytes
  · have := h 0 (by simp [host_to_be32])
    simpa [host_to_be32] using this
  · have := h 1 (by simp [host_to_be32])
    simpa [host_to_be32] using this
  · have := h 2 (by simp [host_to_be32])
    simpa [host_to_be32] using this
  · have := h 3 (by simp [host_to_be32])
    simpa [host_to_be32] using this

theorem buf_mem_holds (pre b rest : List Nat) (junk : Nat → Nat) :
    mem_holds (buf_mem (pre ++ b ++ rest) junk) pre.length b := by
  intro i hi
  unfold buf_mem
  rw [List.append_assoc, List.getD_append_right _ _ _ _ (by omega)]
  simp only [Nat.add_sub_cancel_left]
  rw [List.getD_append _ _ _ _ hi, List.getD_eq_getElem _ _ hi, List.getD_eq_getElem _ _ hi]

theorem be_to_host32_congr (buf1 buf2 : Nat → Nat) (p1 p2 : Nat)
    (h : ∀ i, i < 4 → buf1 (p1 + i) = buf2 (p2 + i)) :
    be_to_host32 buf1 p1 = be_to_host32 buf2 p2 := by
  unfold be_to_host32
  have h0 := h 0 (by omega)
  rw [h 1 (by omega), h 2 (by omega), h 3 (by omega)]
  simp only [Nat.add_zero] at h0
  rw [h0]

theorem mem_bytes_congr (buf1 buf2 : Nat → Nat) (p1 p2 n : Nat)
    (h : ∀ i, i < n → buf1 (p1 + i) = buf2 (p2 + i)) :
    mem_bytes buf1 p1 n = mem_bytes buf2 p2 n := by
  unfold mem_bytes
  apply List.map_congr_left
  intro i hi
  exact h i (List.mem_range.mp hi)

/-! ## The outcome depends only on the bytes inside the buffer -/

/-- With fewer than 8 bytes left every iteration fails, whatever the header bytes. -/
theorem avp_parse_iter_short (K : ttls_consts) (A : allocator) (buf : Nat → Nat) (pos : Nat)
    (left : Int) (parse : eap_ttls_avp) (h : left < 8) :
    (avp_parse_iter K A buf pos left parse).2 = avp_parse_fail parse := by
  rw [avp_parse_iter_snd]
  split_ifs <;> first | rfl | omega

theorem avp_parse_iter_congr (K : ttls_consts) (A : allocator) (buf1 buf2 : Nat → Nat)
    (p1 p2 : Nat) (left : Int) (parse : eap_ttls_avp)
    (h : ∀ i : Nat, (i : Int) < left → buf1 (p1 + i) = buf2 (p2 + i)) :
    (avp_parse_iter K A buf1 p1 left parse).2 = (avp_parse_iter K A buf2 p2 left parse).2 := by
  by_cases h8 : left < 8
  · rw [avp_parse_iter_short K A buf1 p1 left parse h8,
      avp_parse_iter_short K A buf2 p2 left parse h8]
  · have hc : be_to_host32 buf1 p1 = be_to_host32 buf2 p2 :=
      be_to_host32_congr _ _ _ _ (fun i hi => h i (by omega))
    have hl : be_to_host32 buf1 (p1 + 4) = be_to_host32 buf2 (p2 + 4) :=
      be_to_host32_congr _ _ _ _ (fun i hi => by
        rw [Nat.add_assoc, Nat.add_assoc]; exact h (4 + i) (by omega))
    rw [avp_parse_iter_snd, avp_parse_iter_snd, hc, hl]
    by_cases c1 : ((be_to_host32 buf2 (p2 + 4) % 2 ^ 24 : Nat) : Int) > left
    · rw [if_pos c1, if_pos c1]
    · rw [if_neg c1, if_neg c1]
      by_cases c2 : be_to_host32 buf2 (p2 + 4) % 2 ^ 24 < 8
      · rw [if_pos c2, if_pos c2]
      · rw [if_neg c2, if_neg c2]
        by_cases c3 : ((be_to_host32 buf2 (p2 + 4)) >>> 24 &&& 0xff) &&& K.AVP_FLAGS_VENDOR ≠ 0
        · rw [if_pos c3, if_pos c3]
          by_cases c4 : be_to_host32 buf2 (p2 + 4) % 2 ^ 24 - 8 < 4
          · rw [if_pos c4, if_pos c4]
          · rw [if_neg c4, if_neg c4]
            have hv : be_to_host32 buf1 (p1 + 8) = be_to_host32 buf2 (p2 + 8) :=
              be_to_host32_congr _ _ _ _ (fun i hi => by
                rw [Nat.add_assoc, Nat.add_assoc]; exact h (8 + i) (by omega))
            have hd : mem_bytes buf1 (p1 + 8 + 4) (be_to_host32 buf2 (p2 + 4) % 2 ^ 24 - 8 - 4)
                = mem_bytes buf2 (p2 + 8 + 4) (be_to_host32 buf2 (p2 + 4) % 2 ^ 24 - 8 - 4) :=
              mem_bytes_congr _ _ _ _ _ (fun i hi => by
                rw [Nat.add_assoc, Nat.add_assoc, Nat.add_assoc, Nat.add_assoc]
                exact h (8 + (4 + i)) (by omega))
            rw [hv, hd]
        · rw [if_neg c3, if_neg c3]
          have hd : mem_bytes buf1 (p1 + 8) (be_to_host32 buf2 (p2 + 4) % 2 ^ 24 - 8)
              = mem_bytes buf2 (p2 + 8) (be_to_host32 buf2 (p2 + 4) % 2 ^ 24 - 8) :=
            mem_bytes_congr _ _ _ _ _ (fun i hi => by
              rw [Nat.add_assoc, Nat.add_assoc]
              exact h (8 + i) (by omega))
          rw [hd]

/-- Two runs of the loop over memories that agree on the `left` bytes that remain
have the same outcome (returned value and parsed set), whatever lies beyond. -/
theorem avp_parse_loop_congr (K : ttls_consts) (A : allocator) (buf1 buf2 : Nat → Nat)
    (f1 : Nat) : ∀ (f2 p1 p2 : Nat) (left : Int) (parse : eap_ttls_avp)
    (reads1 reads2 : List Nat),
    left ≤ (f1 : Int) → left ≤ (f2 : Int) →
    (∀ i : Nat, (i : Int) < left → buf1 (p1 + i) = buf2 (p2 + i)) →
    (avp_parse_loop K A buf1 f1 p1 left parse reads1).map avp_parse_result.outcome =
      (avp_parse_loop K A buf2 f2 p2 left parse reads2).map avp_parse_result.outcome := by
  induction f1 with
  | zero =>
    intro f2 p1 p2 left parse reads1 reads2 h1 _ _
    have hl : ¬ left > 0 := by simpa using h1
    rw [avp_parse_loop_done K A buf1 0 p1 left parse reads1 hl,
      avp_parse_loop_done K A buf2 f2 p2 left parse reads2 hl]
    simp only [Option.map_some', avp_parse_result.outcome]
  | succ f ih =>
    intro f2 p1 p2 left parse reads1 reads2 h1 h2 h
    by_cases hl : left > 0
    · cases f2 with
      | zero => exact absurd h2 (by simpa using hl)
      | succ g =>
        have hi := avp_parse_iter_congr K A buf1 buf2 p1 p2 left parse h
        cases hs : (avp_parse_iter K A buf2 p2 left parse).2 with
        | fail q =>
          rw [hs] at hi
          rw [avp_parse_loop_fail K A buf1 f p1 left parse reads1 hl q hi,
            avp_parse_loop_fail K A buf2 g p2 left parse reads2 hl q hs]
          simp only [Option.map_some', avp_parse_result.outcome]
        | next n q =>
          rw [hs] at hi
          rw [avp_parse_loop_next K A buf1 f p1 left parse reads1 hl n q hi,
            avp_parse_loop_next K A buf2 g p2 left parse reads2 hl n q hs]
          have hb := avp_parse_iter_next K A buf2 p2 left parse n q hs
          apply ih
          · push_cast at h1; omega
          · push_cast at h2; omega
          · intro i hi2
            rw [Nat.add_assoc, Nat.add_assoc]
            exact h (n + i) (by push_cast; omega)
    · rw [avp_parse_loop_done K A buf1 _ p1 left parse reads1 hl,
        avp_parse_loop_done K A buf2 f2 p2 left parse reads2 hl]
      simp only [Option.map_some', avp_parse_result.outcome]

/-! ## One iteration over a well-formed AVP -/

theorem host_to_be32_length (x : Nat) : (host_to_be32 x).length = 4 := rfl

theorem wire_avp.body_length (a : wire_avp) : a.body.length = a.avp_length := by
  unfold wire_avp.body wire_avp.avp_length sizeof_ttls_avp
  cases a.vendor <;> simp [host_to_be32_length] <;> omega

theorem wire_avp.bytes_length (K : ttls_consts) (a : wire_avp) (hw : a.wf K) :
    a.bytes.length = a.avp_length + (4 - a.avp_length % 4) % 4 := by
  unfold wire_avp.bytes
  rw [List.length_append, wire_avp.body_length, hw.2.2.2.2.2]

theorem wire_avp.avp_length_ge (a : wire_avp) : 8 ≤ a.avp_length := by
  unfold wire_avp.avp_length sizeof_ttls_avp
  omega

/-- The iteration that meets a well-formed AVP whose declared length fits in `left`
decodes its fields and hands them to the attribute dispatch. -/
theorem avp_parse_iter_wire (K : ttls_consts) (A : allocator) (buf : Nat → Nat) (pos : Nat)
    (left : Int) (parse : eap_ttls_avp) (a : wire_avp) (hw : a.wf K)
    (hb : mem_holds buf pos a.body) (hl : (a.avp_length : Int) ≤ left) :
    (avp_parse_iter K A buf pos left parse).2 =
      match (avp_parse_attr K A parse a.code a.flags a.vendor_id a.data).2 with
      | none => avp_parse_fail parse
      | some q => .next a.bytes.length q := by
  obtain ⟨hcode, hflags, hlen, hvid, hvend, hpad⟩ := hw
  have hge := a.avp_length_ge
  rw [wire_avp.bytes_length K a ⟨hcode, hflags, hlen, hvid, hvend, hpad⟩]
  unfold wire_avp.body at hb
  rw [mem_holds_append, mem_holds_append, mem_holds_append] at hb
  obtain ⟨⟨⟨hb1, hb2⟩, hb3⟩, hb4⟩ := hb
  simp only [List.length_append, host_to_be32_length] at hb2 hb3 hb4
  have e1 : be_to_host32 buf pos = a.code := by
    rw [mem_holds_be32 buf pos _ hb1, Nat.mod_eq_of_lt hcode]
  have e2 : be_to_host32 buf (pos + 4) = (a.flags * 2 ^ 24 + a.avp_length) % 2 ^ 32 :=
    mem_holds_be32 buf (pos + 4) _ hb2
  have e3 : (be_to_host32 buf (pos + 4)) >>> 24 &&& 0xff = a.flags := by
    rw [e2]; exact word_flags _ _ hflags hlen
  have e4 : be_to_host32 buf (pos + 4) % 2 ^ 24 = a.avp_length := by
    rw [e2, ← and_ffffff]; exact word_length _ _ hlen
  rw [avp_parse_iter_snd, e1, e3, e4, if_neg (by omega), if_neg (by omega)]
  cases hv : a.vendor with
  | none =>
    have hnv : ¬ (a.flags &&& K.AVP_FLAGS_VENDOR ≠ 0) := by
      rw [← hvend, hv]; simp
    have hdl : a.avp_length - 8 = a.data.length := by
      unfold wire_avp.avp_length sizeof_ttls_avp; rw [hv]; simp
    have hvz : a.vendor_id = 0 := by unfold wire_avp.vendor_id; rw [hv]; rfl
    rw [hv] at hb4
    simp only [List.length_nil, Nat.add_zero] at hb4
    rw [if_neg hnv, hdl, mem_holds_bytes buf (pos + 8) a.data hb4, hvz]
    cases (avp_parse_attr K A parse a.code a.flags 0 a.data).2 with
    | none => rfl
    | some q => simp only [avp_parse_advance_eq]
  | some v =>
    have hnv : a.flags &&& K.AVP_FLAGS_VENDOR ≠ 0 := by
      rw [← hvend, hv]; rfl
    have hdl : a.avp_length - 8 - 4 = a.data.length := by
      unfold wire_avp.avp_length sizeof_ttls_avp; rw [hv]; simp; omega
    have hvz : a.vendor_id = v := by unfold wire_avp.vendor_id; rw [hv]; rfl
    rw [hv] at hb3 hb4
    simp only [host_to_be32_length] at hb4
    have e5 : be_to_host32 buf (pos + 8) = v := by
      rw [mem_holds_be32 buf (pos + 8) _ hb3, Nat.mod_eq_of_lt (by rw [← hvz]; exact hvid)]
    have h12 : ¬ a.avp_length - 8 < 4 := by
      unfold wire_avp.avp_length sizeof_ttls_avp; rw [hv]; simp; omega
    rw [if_pos hnv, if_neg h12, hdl, e5, hvz]
    have hb5 : mem_holds buf (pos + 8 + 4) a.data := by
      have : pos + (4 + 4 + 4) = pos + 8 + 4 := by omega
      rw [← this]; exact hb4
    rw [mem_holds_bytes buf (pos + 8 + 4) a.data hb5]
    cases (avp_parse_attr K A parse a.code a.flags v a.data).2 with
    | none => rfl
    | some q => simp only [avp_parse_advance_eq]

/-! ## The loop over a sequence of well-formed AVPs -/

theorem avp_parse_loop_outcome_reads (K : ttls_consts) (A : allocator) (buf : Nat → Nat)
    (f1 f2 pos : Nat) (left : Int) (parse : eap_ttls_avp) (reads1 reads2 : List Nat)
    (h1 : left ≤ (f1 : Int)) (h2 : left ≤ (f2 : Int)) :
    (avp_parse_loop K A buf f1 pos left parse reads1).map avp_parse_result.outcome =
      (avp_parse_loop K A buf f2 pos left parse reads2).map avp_parse_result.outcome :=
  avp_parse_loop_congr K A buf buf f1 f2 pos pos left parse reads1 reads2 h1 h2
    (fun _ _ => rfl)

/-- One iteration over a well-formed AVP, at the level of the loop. -/
theorem avp_parse_loop_wire_step (K : ttls_consts) (A : allocator) (buf : Nat → Nat)
    (fuel pos : Nat) (left : Int) (parse : eap_ttls_avp) (reads : List Nat) (a : wire_avp)
    (hw : a.wf K) (hb : mem_holds buf pos a.body) (hl : (a.avp_length : Int) ≤ left)
    (hf : left ≤ (fuel : Int)) :
    (avp_parse_loop K A buf fuel pos left parse reads).map avp_parse_result.outcome =
      match (avp_parse_attr K A parse a.code a.flags a.vendor_id a.data).2 with
      | none => some (-1, { parse with eap := none })
      | some q =>
        (avp_parse_loop K A buf fuel (pos + a.bytes.length)
          (left - (a.bytes.length : Int)) q reads).map avp_parse_result.outcome := by
  have hge := a.avp_length_ge
  have hpos : left > 0 := by omega
  have hi := avp_parse_iter_wire K A buf pos left parse a hw hb hl
  cases fuel with
  | zero => exact absurd hf (by simpa using hpos)
  | succ f =>
    cases hat : (avp_parse_attr K A parse a.code a.flags a.vendor_id a.data).2 with
    | none =>
      rw [hat] at hi
      rw [avp_parse_loop_fail K A buf f pos left parse reads hpos _ hi]
      simp only [Option.map_some', avp_parse_result.outcome]
    | some q =>
      rw [hat] at hi
      simp only at hi
      rw [avp_parse_loop_next K A buf f pos left parse reads hpos _ q hi]
      have hb2 := avp_parse_iter_next K A buf pos left parse _ q hi
      exact avp_parse_loop_outcome_reads K A buf _ _ _ _ _ _ _
        (by push_cast at hf; omega) (by push_cast at hf; omega)

theorem wire_bytes_nil : wire_bytes [] = [] := rfl

theorem wire_bytes_cons (a : wire_avp) (l : List wire_avp) :
    wire_bytes (a :: l) = a.bytes ++ wire_bytes l := rfl

/-- The loop over a buffer that starts with a sequence of well-formed AVPs: it fails
where the attribute dispatch of one of them fails, and otherwise goes on after the
sequence with the parsed set the sequence yields. -/
theorem avp_parse_loop_wire (K : ttls_consts) (A : allocator) (buf : Nat → Nat)
    (l : List wire_avp) : ∀ (fuel pos : Nat) (left : Int) (parse : eap_ttls_avp)
    (reads : List Nat) (rest : List Nat),
    (∀ a ∈ l, a.wf K) → mem_holds buf pos (wire_bytes l ++ rest) →
    left = ((wire_bytes l).length : Int) + (rest.length : Int) → left ≤ (fuel : Int) →
    (avp_parse_loop K A buf fuel pos left parse reads).map avp_parse_result.outcome =
      if (wire_parse K A parse l).1 = 0 then
        (avp_parse_loop K A buf fuel (pos + (wire_bytes l).length) (rest.length : Int)
          (wire_parse K A parse l).2 reads).map avp_parse_result.outcome
      else some (wire_parse K A parse l) := by
  induction l with
  | nil =>
    intro fuel pos left parse reads rest _ _ hl _
    have h0 : left = (rest.length : Int) := by rw [hl, wire_bytes_nil]; simp
    rw [wire_bytes_nil, h0]
    simp only [wire_parse, List.length_nil, if_true, Nat.add_zero]
  | cons a l ih =>
    intro fuel pos left parse reads rest hw hb hl hf
    have hwa : a.wf K := hw a (List.mem_cons_self _ _)
    rw [wire_bytes_cons, List.append_assoc, mem_holds_append] at hb
    have hba : mem_holds buf pos a.body := by
      have := hb.1
      unfold wire_avp.bytes at this
      rw [mem_holds_append] at this
      exact this.1
    have hlen : (a.bytes.length : Int) = (a.avp_length : Int) + ((4 - a.avp_length % 4) % 4 : Nat) := by
      rw [wire_avp.bytes_length K a hwa]; push_cast; rfl
    rw [wire_bytes_cons, List.length_append] at hl
    rw [avp_parse_loop_wire_step K A buf fuel pos left parse reads a hwa hba
      (by rw [hl]; push_cast; omega) hf]
    rw [wire_parse]
    cases hat : (avp_parse_attr K A parse a.code a.flags a.vendor_id a.data).2 with
    | none => simp
    | some q =>
      simp only
      rw [ih fuel (pos + a.bytes.length) (left - (a.bytes.length : Int)) q reads rest
        (fun b hb => hw b (List.mem_cons_of_mem _ hb)) hb.2
        (by rw [hl]; push_cast; omega) (by omega)]
      rw [wire_bytes_cons, List.length_append, Nat.add_assoc]

theorem wire_parse_ret (K : ttls_consts) (A : allocator) (l : List wire_avp) :
    ∀ parse, (wire_parse K A parse l).1 = 0 ∨ (wire_parse K A parse l).1 = -1 := by
  induction l with
  | nil => intro parse; left; rfl
  | cons a l ih =>
    intro parse
    rw [wire_parse]
    cases (avp_parse_attr K A parse a.code a.flags a.vendor_id a.data).2 with
    | none => right; rfl
    | some q => exact ih q

/-- The decoding of a buffer made of well-formed AVPs. -/
theorem eap_ttls_avp_parse_wire (K : ttls_consts) (A : allocator) (l : List wire_avp)
    (junk : Nat → Nat) (hw : ∀ a ∈ l, a.wf K) (hlen : (wire_bytes l).length < 2 ^ 31) :
    (eap_ttls_avp_parse K A (buf_mem (wire_bytes l) junk) (wire_bytes l).length).map
      avp_parse_result.outcome = some (wire_parse K A eap_ttls_avp.zero l) := by
  unfold eap_ttls_avp_parse
  have hb : mem_holds (buf_mem (wire_bytes l) junk) 0 (wire_bytes l ++ []) := by
    have := buf_mem_holds [] (wire_bytes l) [] junk
    simpa using this
  rw [avp_parse_loop_wire K A _ l _ 0 _ eap_ttls_avp.zero [] [] hw hb
    (by rw [size_t_to_int_of_lt _ hlen]; simp) (size_t_to_int_le _)]
  split_ifs with h
  · rw [avp_parse_loop_done _ _ _ _ _ _ _ _ (by simp)]
    simp only [Option.map_some', avp_parse_result.outcome]
    rw [← h]
  · rfl

/-! ## The encoder -/

theorem encapsulated_avp_length (K : ttls_consts) (resp : List Nat) (c : Nat) (m : Bool) :
    (encapsulated_avp K resp c m).avp_length = 8 + resp.length := by
  simp [encapsulated_avp, wire_avp.avp_length, sizeof_ttls_avp]

theorem eap_ttls_avp_encapsulate_wire (K : ttls_consts) (A : allocator) (resp : List Nat)
    (c : Nat) (m : Bool) (hlen : 8 + resp.length < 2 ^ 24)
    (ha : A.wpabuf_alloc (8 + resp.length + 4) = true) :
    eap_ttls_avp_encapsulate K A resp c m = some (encapsulated_avp K resp c m).bytes := by
  unfold eap_ttls_avp_encapsulate
  simp only [sizeof_ttls_avp, ha, if_true]
  unfold AVP_PAD eap_ttls_avp_hdr wire_avp.bytes wire_avp.body
  rw [encapsulated_avp_length]
  simp only [ne_eq, not_true_eq_false, if_false, sizeof_ttls_avp,
    flags_shift_or _ _ hlen, List.length_append, host_to_be32_length]
  have h8 : 4 + 4 + resp.length = 8 + resp.length := by omega
  rw [h8]
  simp [encapsulated_avp, encapsulate_flags]

theorem encapsulated_avp_wf (K : ttls_consts) (resp : List Nat) (c : Nat) (m : Bool)
    (hc : c < 2 ^ 32) (hlen : 8 + resp.length < 2 ^ 24)
    (hMV : K.AVP_FLAGS_MANDATORY % 256 &&& K.AVP_FLAGS_VENDOR = 0) :
    (encapsulated_avp K resp c m).wf K := by
  refine ⟨hc, ?_, ?_, ?_, ?_, ?_⟩
  · exact Nat.mod_lt _ (by norm_num)
  · rw [encapsulated_avp_length]; exact hlen
  · simp [encapsulated_avp, wire_avp.vendor_id]
  · cases m
    · simp [encapsulated_avp, encapsulate_flags]
    · simp [encapsulated_avp, encapsulate_flags, hMV]
  · rw [encapsulated_avp_length]
    simp [encapsulated_avp]

theorem outcome_some (x : Option avp_parse_result) (a : Int) (q : eap_ttls_avp)
    (h : x.map avp_parse_result.outcome = some (a, q)) :
    ∃ r, x = some r ∧ r.ret = a ∧ r.parse = q := by
  cases x with
  | none => simp at h
  | some r =>
    simp only [Option.map_some', avp_parse_result.outcome, Option.some.injEq,
      Prod.mk.injEq] at h
    exact ⟨r, rfl, h.1, h.2⟩

/-! ## The states the decoder goes through -/

theorem avp_parse_reaches_left_le (K : ttls_consts) (A : allocator) (buf : Nat → Nat)
    (len pos : Nat) (left : Int) (parse : eap_ttls_avp)
    (h : avp_parse_reaches K A buf len pos left parse) : left ≤ (len : Int) - (pos : Int) := by
  induction h with
  | start => simpa using size_t_to_int_le len
  | step pos left parse n q _ _ _ ih => push_cast; omega

theorem avp_parse_reaches_loop (K : ttls_consts) (A : allocator) (buf : Nat → Nat)
    (len pos : Nat) (left : Int) (parse : eap_ttls_avp)
    (h : avp_parse_reaches K A buf len pos left parse) :
    ∃ (fuel : Nat) (reads : List Nat), left ≤ (fuel : Int) ∧
      eap_ttls_avp_parse K A buf len = avp_parse_loop K A buf fuel pos left parse reads := by
  induction h with
  | start => exact ⟨len, [], size_t_to_int_le len, rfl⟩
  | step pos left parse n q _ hl hs ih =>
    obtain ⟨fuel, reads, hf, he⟩ := ih
    cases fuel with
    | zero => exact absurd hf (by simpa using hl)
    | succ f =>
      rw [avp_parse_loop_next K A buf f pos left parse reads hl n q hs] at he
      have hb := avp_parse_iter_next K A buf pos left parse n q hs
      exact ⟨f, _, by push_cast at hf; omega, he⟩

theorem avp_parse_loop_fail_ret (K : ttls_consts) (A : allocator) (buf : Nat → Nat)
    (fuel pos : Nat) (left : Int) (parse : eap_ttls_avp) (reads : List Nat)
    (hl : left > 0) (hf : left ≤ (fuel : Int))
    (hs : (avp_parse_iter K A buf pos left parse).2 = avp_parse_fail parse) :
    ∃ r, avp_parse_loop K A buf fuel pos left parse reads = some r ∧ r.ret = -1 := by
  cases fuel with
  | zero => exact absurd hf (by simpa using hl)
  | succ f => exact ⟨_, avp_parse_loop_fail K A buf f pos left parse reads hl _ hs, rfl⟩

/-- An iteration that fails at a state the decoder goes through makes the decoder
return -1. -/
theorem avp_parse_reaches_fail (K : ttls_consts) (A : allocator) (buf : Nat → Nat)
    (len pos : Nat) (left : Int) (parse : eap_ttls_avp)
    (h : avp_parse_reaches K A buf len pos left parse) (hl : left > 0)
    (hs : (avp_parse_iter K A buf pos left parse).2 = avp_parse_fail parse) :
    ∃ r, eap_ttls_avp_parse K A buf len = some r ∧ r.ret = -1 := by
  obtain ⟨fuel, reads, hf, he⟩ := avp_parse_reaches_loop K A buf len pos left parse h
  rw [he]
  exact avp_parse_loop_fail_ret K A buf fuel pos left parse reads hl hf hs

theorem avp_parse_iter_overflow (K : ttls_consts) (A : allocator) (buf : Nat → Nat)
    (pos : Nat) (left : Int) (parse : eap_ttls_avp)
    (h : (declared_length buf pos : Int) > left) :
    (avp_parse_iter K A buf pos left parse).2 = avp_parse_fail parse := by
  unfold declared_length at h
  rw [and_ffffff] at h
  rw [avp_parse_iter_snd, if_pos h]

theorem avp_parse_iter_underflow (K : ttls_consts) (A : allocator) (buf : Nat → Nat)
    (pos : Nat) (left : Int) (parse : eap_ttls_avp)
    (h : declared_length buf pos < 8 ∨
      (declared_flags buf pos &&& K.AVP_FLAGS_VENDOR ≠ 0 ∧ declared_length buf pos < 12)) :
    (avp_parse_iter K A buf pos left parse).2 = avp_parse_fail parse := by
  unfold declared_length declared_flags at h
  rw [and_ffffff] at h
  rw [avp_parse_iter_snd]
  split_ifs with h1 h2 h3 h4 <;> first | rfl | skip
  · rcases h with h | h
    · exact absurd h h2
    · exact absurd (show be_to_host32 buf (pos + 4) % 2 ^ 24 - 8 < 4 by omega) h4
  · rcases h with h | h
    · exact absurd h h2
    · exact absurd h.1 h3

theorem getD_take (b : List Nat) (k j : Nat) (h : j < k) :
    (b.take k).getD j 0 = b.getD j 0 := by
  simp only [List.getD_eq_getElem?_getD, List.getElem?_take, h, if_true]

/-- The flags/length word of a well-formed AVP is still in place when the AVP is cut
after at least 8 bytes. -/
theorem mem_holds_cut_word (buf : Nat → Nat) (pos k : Nat) (a : wire_avp) (hk : 8 ≤ k)
    (hk2 : k ≤ a.avp_length) (h : mem_holds buf pos (a.body.take k)) :
    be_to_host32 buf (pos + 4) = (a.flags * 2 ^ 24 + a.avp_length) % 2 ^ 32 := by
  apply mem_holds_be32
  intro i hi
  rw [host_to_be32_length] at hi
  have hlen : (a.body.take k).length = k := by
    rw [List.length_take, wire_avp.body_length]; omega
  have h1 := h (4 + i) (by rw [hlen]; omega)
  rw [getD_take _ _ _ (by omega)] at h1
  rw [Nat.add_assoc, h1]
  unfold wire_avp.body
  rw [List.append_assoc, List.append_assoc,
    List.getD_append_right _ _ _ _ (by rw [host_to_be32_length]; omega),
    List.getD_append _ _ _ _ (by rw [host_to_be32_length, host_to_be32_length]; omega)]
  rw [host_to_be32_length, Nat.add_sub_cancel_left]

/-! ## The attribute dispatch -/

theorem avp_parse_attr_unknown (K : ttls_consts) (A : allocator) (parse : eap_ttls_avp)
    (c f v : Nat) (data : List Nat) (h : ¬ avp_recognised K v c) :
    (avp_parse_attr K A parse c f v data).2 =
      if f &&& K.AVP_FLAGS_MANDATORY ≠ 0 then none else some parse := by
  unfold avp_recognised at h
  simp only [not_or] at h
  obtain ⟨h1, h2, h3, h4, h5, h6, h7, h8⟩ := h
  unfold avp_parse_attr
  simp only [h1, h2, h3, h4, h5, h6, h7, h8, if_false]
  split_ifs <;> rfl

theorem avp_parse_attr_eap (K : ttls_consts) (A : allocator) (parse : eap_ttls_avp)
    (c f v : Nat) (data : List Nat) (h : v = 0 ∧ c = K.RADIUS_ATTR_EAP_MESSAGE) :
    (avp_parse_attr K A parse c f v data).2 =
      match parse.eap with
      | none =>
        if A.os_malloc data.length then some { parse with eap := some data } else none
      | some e =>
        if A.os_realloc e.length (e.length + data.length) then
          some { parse with eap := some (e ++ data) }
        else none := by
  unfold avp_parse_attr
  simp only [h, and_self, if_true]
  cases parse.eap <;> simp only <;> split_ifs <;> rfl

theorem avp_parse_attr_keeps_eap (K : ttls_consts) (A : allocator) (parse : eap_ttls_avp)
    (c f v : Nat) (data : List Nat) (h : ¬ (v = 0 ∧ c = K.RADIUS_ATTR_EAP_MESSAGE))
    (q : eap_ttls_avp) (hq : (avp_parse_attr K A parse c f v data).2 = some q) :
    q.eap = parse.eap := by
  unfold avp_parse_attr at hq
  simp only [h, if_false] at hq
  split_ifs at hq <;> simp only [Option.some.injEq] at hq <;> rw [← hq]

theorem avp_parse_attr_password (K : ttls_consts) (A : allocator) (parse : eap_ttls_avp)
    (c f v : Nat) (data : List Nat) (h : v = 0 ∧ c = K.RADIUS_ATTR_USER_PASSWORD)
    (h1 : K.RADIUS_ATTR_USER_PASSWORD ≠ K.RADIUS_ATTR_EAP_MESSAGE)
    (h2 : K.RADIUS_ATTR_USER_PASSWORD ≠ K.RADIUS_ATTR_USER_NAME) :
    (avp_parse_attr K A parse c f v data).2 =
      some { parse with
        user_password := some (data.take (password_strip data data.length)) } := by
  unfold avp_parse_attr
  simp only [h.1, h.2, h1, h2, and_false, and_self, if_false, if_true]

theorem avp_parse_attr_keeps_password (K : ttls_consts) (A : allocator)
    (parse : eap_ttls_avp) (c f v : Nat) (data : List Nat)
    (h : ¬ (v = 0 ∧ c = K.RADIUS_ATTR_USER_PASSWORD))
    (q : eap_ttls_avp) (hq : (avp_parse_attr K A parse c f v data).2 = some q) :
    q.user_password = parse.user_password := by
  by_cases he : v = 0 ∧ c = K.RADIUS_ATTR_EAP_MESSAGE
  · rw [avp_parse_attr_eap K A parse c f v data he] at hq
    cases hp : parse.eap with
    | none =>
      rw [hp] at hq
      simp only at hq
      split_ifs at hq
      simp only [Option.some.injEq] at hq
      rw [← hq]
    | some e =>
      rw [hp] at hq
      simp only at hq
      split_ifs at hq
      simp only [Option.some.injEq] at hq
      rw [← hq]
  · unfold avp_parse_attr at hq
    simp only [he, h, if_false] at hq
    split_ifs at hq <;> simp only [Option.some.injEq] at hq <;> rw [← hq]

/-! ## Decoding a list of wire AVPs -/

theorem wire_parse_cons (K : ttls_consts) (A : allocator) (parse : eap_ttls_avp)
    (a : wire_avp) (l : List wire_avp) :
    wire_parse K A parse (a :: l) =
      match (avp_parse_attr K A parse a.code a.flags a.vendor_id a.data).2 with
      | none => (-1, { parse with eap := none })
      | some q => wire_parse K A q l := rfl

theorem wire_bytes_append (l1 l2 : List wire_avp) :
    wire_bytes (l1 ++ l2) = wire_bytes l1 ++ wire_bytes l2 := by
  induction l1 with
  | nil => rfl
  | cons a l ih => rw [List.cons_append, wire_bytes_cons, wire_bytes_cons, ih, List.append_assoc]

theorem wire_parse_append (K : ttls_consts) (A : allocator) (l1 l2 : List wire_avp) :
    ∀ parse, wire_parse K A parse (l1 ++ l2) =
      if (wire_parse K A parse l1).1 = 0 then
        wire_parse K A (wire_parse K A parse l1).2 l2
      else wire_parse K A parse l1 := by
  induction l1 with
  | nil => intro parse; simp [wire_parse]
  | cons a l ih =>
    intro parse
    rw [List.cons_append, wire_parse_cons, wire_parse_cons]
    cases (avp_parse_attr K A parse a.code a.flags a.vendor_id a.data).2 with
    | none => simp
    | some q => exact ih q

/-- An unrecognised AVP with the mandatory flag makes the decoding of the list fail. -/
theorem wire_parse_unknown_mandatory (K : ttls_consts) (A : allocator) (l : List wire_avp)
    (h : ∃ a ∈ l, ¬ avp_recognised K a.vendor_id a.code ∧ a.mandatory K) :
    ∀ parse, (wire_parse K A parse l).1 = -1 := by
  induction l with
  | nil => obtain ⟨a, ha, _⟩ := h; cases ha
  | cons b l ih =>
    intro parse
    rw [wire_parse_cons]
    cases hq : (avp_parse_attr K A parse b.code b.flags b.vendor_id b.data).2 with
    | none => rfl
    | some q =>
      simp only
      apply ih
      obtain ⟨a, ha, hu, hm⟩ := h
      rcases List.mem_cons.mp ha with rfl | hin
      · unfold wire_avp.mandatory at hm
        rw [avp_parse_attr_unknown K A parse _ _ _ _ hu, if_pos hm] at hq
        cases hq
      · exact ⟨a, hin, hu, hm⟩

/-- The inner-EAP payload accumulated by the decoding of a list of wire AVPs. -/
theorem wire_parse_eap (K : ttls_consts) (A : allocator) (l : List wire_avp) :
    ∀ parse, (wire_parse K A parse l).1 = 0 →
      (wire_parse K A parse l).2.eap =
        match parse.eap with
        | some e => some (e ++ eap_payloads K l)
        | none => if (∃ a ∈ l, a.is_eap_message K) then some (eap_payloads K l) else none := by
  induction l with
  | nil =>
    intro parse _
    cases h : parse.eap <;> simp [wire_parse, eap_payloads, h]
  | cons b l ih =>
    intro parse h0
    rw [wire_parse_cons] at h0 ⊢
    cases hq : (avp_parse_attr K A parse b.code b.flags b.vendor_id b.data).2 with
    | none => rw [hq] at h0; simp at h0
    | some q =>
      rw [hq] at h0
      simp only at h0 ⊢
      rw [ih q h0]
      by_cases hb : b.is_eap_message K
      · have hex : ∃ a ∈ b :: l, a.is_eap_message K := ⟨b, List.mem_cons_self _ _, hb⟩
        rw [avp_parse_attr_eap K A parse _ _ _ _ hb] at hq
        have hp : eap_payloads K (b :: l) = b.data ++ eap_payloads K l := by
          rw [eap_payloads, if_pos hb]
        cases hpe : parse.eap with
        | none =>
          rw [hpe] at hq
          simp only at hq
          split_ifs at hq
          simp only [Option.some.injEq] at hq
          rw [← hq, hp]
          simp only [if_pos hex]
        | some e =>
          rw [hpe] at hq
          simp only at hq
          split_ifs at hq
          simp only [Option.some.injEq] at hq
          rw [← hq, hp]
          simp only [List.append_assoc]
      · have hk := avp_parse_attr_keeps_eap K A parse _ _ _ _ hb q hq
        have hp : eap_payloads K (b :: l) = eap_payloads K l := by
          rw [eap_payloads, if_neg hb]
        have hex : (∃ a ∈ b :: l, a.is_eap_message K) ↔ (∃ a ∈ l, a.is_eap_message K) := by
          constructor
          · rintro ⟨a, ha, hm⟩
            rcases List.mem_cons.mp ha with rfl | hin
            · exact absurd hm hb
            · exact ⟨a, hin, hm⟩
          · rintro ⟨a, ha, hm⟩
            exact ⟨a, List.mem_cons_of_mem _ ha, hm⟩
        rw [hk, hp]
        cases parse.eap with
        | none => simp only [hex]
        | some e => rfl

theorem eap_payloads_length (K : ttls_consts) (l : List wire_avp) :
    (eap_payloads K l).length =
      ((l.filter (fun a => decide (a.is_eap_message K))).map (fun a => a.data.length)).sum := by
  induction l with
  | nil => rfl
  | cons b l ih =>
    by_cases hb : b.is_eap_message K
    · rw [eap_payloads, if_pos hb, List.length_append, ih, List.filter_cons_of_pos (by simpa using hb)]
      simp
    · rw [eap_payloads, if_neg hb, ih, List.filter_cons_of_neg (by simpa using hb)]

theorem wire_parse_append_unknown (K : ttls_consts) (A : allocator) (pre : List wire_avp)
    (a : wire_avp) (hu : ¬ avp_recognised K a.vendor_id a.code) (hm : ¬ a.mandatory K)
    (parse : eap_ttls_avp) :
    wire_parse K A parse (pre ++ [a]) = wire_parse K A parse pre := by
  rw [wire_parse_append]
  split_ifs with h0
  · unfold wire_avp.mandatory at hm
    rw [wire_parse_cons, avp_parse_attr_unknown K A _ _ _ _ _ hu, if_neg hm]
    simp only [wire_parse]
    exact Prod.ext h0.symm rfl
  · rfl

theorem buf_mem_holds_all (b : List Nat) (junk : Nat → Nat) :
    mem_holds (buf_mem b junk) 0 b := by
  have := buf_mem_holds [] b [] junk
  simpa using this

/-! ## The User-Password loop -/

theorem password_strip_spec (d : List Nat) (n : Nat) :
    password_strip d n ≤ n ∧
    (∀ i, password_strip d n ≤ i → i < n → d.getD i 0 = 0) ∧
    (password_strip d n = 0 ∨ d.getD (password_strip d n - 1) 0 ≠ 0) := by
  induction n with
  | zero => exact ⟨Nat.le_refl _, fun i _ hi => absurd hi (Nat.not_lt_zero _), Or.inl rfl⟩
  | succ n ih =>
    rw [password_strip]
    split_ifs with h
    · refine ⟨Nat.le_succ_of_le ih.1, ?_, ih.2.2⟩
      intro i h1 h2
      by_cases hin : i = n
      · rw [hin]; exact h
      · exact ih.2.1 i h1 (by omega)
    · refine ⟨Nat.le_refl _, fun i h1 h2 => absurd h2 (by omega), Or.inr ?_⟩
      simpa using h

theorem password_strip_take (d : List Nat) :
    ∃ k, d = d.take (password_strip d d.length) ++ List.replicate k 0 ∧
      (∀ x, (d.take (password_strip d d.length)).getLast? = some x → x ≠ 0) ∧
      ((∀ x ∈ d, x = 0) → d.take (password_strip d d.length) = []) := by
  obtain ⟨h1, h2, h3⟩ := password_strip_spec d d.length
  have hlast : ∀ x, (d.take (password_strip d d.length)).getLast? = some x → x ≠ 0 := by
    intro x hx
    rcases h3 with h3 | h3
    · rw [h3] at hx; simp at hx
    · rw [List.getLast?_eq_getElem?, List.length_take, Nat.min_eq_left h1,
        List.getElem?_take] at hx
      have hpos : 0 < password_strip d d.length := by
        by_contra hc
        have hz : password_strip d d.length = 0 := by omega
        rw [hz] at hx
        simp at hx
      rw [if_pos (by omega)] at hx
      rw [List.getD_eq_getElem?_getD, hx] at h3
      simpa using h3
  refine ⟨d.length - password_strip d d.length, ?_, hlast, ?_⟩
  · apply List.ext_getElem
    · rw [List.length_append, List.length_take, List.length_replicate]; omega
    · intro i hi1 hi2
      by_cases hi : i < password_strip d d.length
      · rw [List.getElem_append_left (by rw [List.length_take]; omega), List.getElem_take]
      · rw [List.getElem_append_right (by rw [List.length_take]; omega), List.getElem_replicate]
        have := h2 i (by omega) hi1
        rw [List.getD_eq_getElem _ _ hi1] at this
        exact this
  · intro hall
    rcases h3 with h3 | h3
    · rw [h3]; rfl
    · exfalso
      apply h3
      have hlt : password_strip d d.length - 1 < d.length := by
        by_contra hc
        apply h3
        rw [List.getD_eq_default _ _ (by omega)]
      rw [List.getD_eq_getElem _ _ hlt]
      exact hall _ (List.getElem_mem _)

theorem wire_parse_keeps_password (K : ttls_consts) (A : allocator) (l : List wire_avp)
    (hl : ∀ b ∈ l, ¬ (b.vendor_id = 0 ∧ b.code = K.RADIUS_ATTR_USER_PASSWORD)) :
    ∀ parse, (wire_parse K A parse l).1 = 0 →
      (wire_parse K A parse l).2.user_password = parse.user_password := by
  induction l with
  | nil => intro parse _; rfl
  | cons b l ih =>
    intro parse h0
    rw [wire_parse_cons] at h0 ⊢
    cases hq : (avp_parse_attr K A parse b.code b.flags b.vendor_id b.data).2 with
    | none => rfl
    | some q =>
      rw [hq] at h0
      simp only at h0 ⊢
      rw [ih (fun c hc => hl c (List.mem_cons_of_mem _ hc)) q h0]
      exact avp_parse_attr_keeps_password K A parse _ _ _ _
        (hl b (List.mem_cons_self _ _)) q hq

/-! ## Phase 2 dispatch -/

theorem phase2_dispatch_calls {U : Type} (E : phase2_env U) (sm : eap_sm U)
    (data : eap_ttls_data) (parse : eap_ttls_avp) :
    (phase2_dispatch E sm data parse).calls.length ≤ 1 ∧
    (∀ c ∈ (phase2_dispatch E sm data parse).calls, c.first_match parse) ∧
    ((phase2_dispatch E sm data parse).calls = [] ↔
      (parse.eap = none ∧ parse.user_password = none ∧ parse.chap_password = none ∧
        parse.mschap_response = none ∧ parse.mschap2_response = none)) := by
  unfold phase2_dispatch
  cases h1 : parse.eap with
  | some e => simp [phase2_call.first_match, h1]
  | none =>
    cases h2 : parse.user_password with
    | some w => simp [phase2_call.first_match, h1, h2]
    | none =>
      cases h3 : parse.chap_password with
      | some w => simp [phase2_call.first_match, h1, h2, h3]
      | none =>
        cases h4 : parse.mschap_response with
        | some w => simp [phase2_call.first_match, h1, h2, h3, h4]
        | none =>
          cases h5 : parse.mschap2_response with
          | some w => simp [phase2_call.first_match, h1, h2, h3, h4, h5]
          | none => simp

theorem phase2_after_parse_calls {U : Type} (K : ttls_consts) (A : allocator)
    (E : phase2_env U) (sm : eap_sm U) (data : eap_ttls_data) (parse : eap_ttls_avp) :
    (phase2_after_parse K A E sm data parse).calls = [] ∨
    ∃ sm1, (phase2_after_parse K A E sm data parse).calls =
      (phase2_dispatch E sm1 data parse).calls := by
  unfold phase2_after_parse
  cases parse.user_name with
  | none =>
    simp only
    split_ifs
    · left; rfl
    · right; exact ⟨sm, rfl⟩
  | some u =>
    simp only
    split_ifs
    · left; rfl
    · left; rfl
    · right; exact ⟨_, rfl⟩
    · left; rfl
    · left; rfl
    · right; exact ⟨_, rfl⟩

theorem phase2_after_parse_direct {U : Type} (K : ttls_consts) (A : allocator)
    (E : phase2_env U) (sm : eap_sm U) (data : eap_ttls_data) (parse : eap_ttls_avp)
    (hu : parse.user_name = none)
    (ht : ¬ (K.EAP_SERVER_TNC = true ∧ data.tnc_started ≠ 0 ∧ parse.eap = none)) :
    phase2_after_parse K A E sm data parse = phase2_dispatch E sm data parse := by
  unfold phase2_after_parse
  rw [hu]
  simp only [if_neg ht]

theorem eap_ttls_process_phase2_parsed {U : Type} (K : ttls_consts) (A : allocator)
    (E : phase2_env U) (sm : eap_sm U) (data : eap_ttls_data) (in_buf : List Nat)
    (p : avp_parse_result)
    (hpend : data.pending_phase2_eap_resp = none)
    (halloc : A.os_malloc ((in_buf.length + 500) * 3) = true)
    (hdec : 0 ≤ (E.tls_connection_decrypt in_buf ((in_buf.length + 500) * 3)).1)
    (hst : data.state ≠ .PHASE_FINISHED)
    (hp : eap_ttls_avp_parse K A
      (E.tls_connection_decrypt in_buf ((in_buf.length + 500) * 3)).2
      (E.tls_connection_decrypt in_buf ((in_buf.length + 500) * 3)).1.toNat = some p)
    (hret : p.ret = 0) :
    eap_ttls_process_phase2 K A E sm data in_buf = phase2_after_parse K A E sm data p.parse := by
  unfold eap_ttls_process_phase2
  rw [hpend]
  simp only [halloc, Bool.true_eq_false, if_false, if_neg (not_lt.mpr hdec), if_neg hst, hp]
  rw [if_neg (by rw [hret]; decide)]

/-! ## How far the decoder reads -/

theorem password_strip_reads_lt (d : List Nat) (n : Nat) :
    ∀ i ∈ password_strip_reads d n, i < n := by
  induction n with
  | zero => intro i hi; cases hi
  | succ n ih =>
    intro i hi
    rw [password_strip_reads] at hi
    rcases List.mem_cons.mp hi with h | h
    · omega
    · split_ifs at h
      · exact Nat.lt_succ_of_lt (ih i h)
      · cases h

theorem avp_parse_attr_reads_lt (K : ttls_consts) (A : allocator) (parse : eap_ttls_avp)
    (c f v : Nat) (data : List Nat) :
    ∀ i ∈ (avp_parse_attr K A parse c f v data).1, i < data.length := by
  intro i hi
  by_cases he : v = 0 ∧ c = K.RADIUS_ATTR_EAP_MESSAGE
  · unfold avp_parse_attr at hi
    simp only [he, and_self, if_true] at hi
    cases hp : parse.eap with
    | none =>
      rw [hp] at hi
      simp only at hi
      split_ifs at hi
      · exact List.mem_range.mp hi
      · cases hi
    | some e =>
      rw [hp] at hi
      simp only at hi
      split_ifs at hi
      · exact List.mem_range.mp hi
      · cases hi
  · unfold avp_parse_attr at hi
    simp only [he, if_false] at hi
    split_ifs at hi <;> first | (exact password_strip_reads_lt _ _ i hi) | cases hi

theorem avp_parse_finish_fst (parse : eap_ttls_avp) (n : Nat) (reads : List Nat)
    (dpos : Nat) (r : List Nat × Option eap_ttls_avp) :
    (avp_parse_finish parse n reads dpos r).1 = reads ++ r.1.map (fun i => dpos + i) := by
  unfold avp_parse_finish
  cases r.2 <;> rfl

theorem mem_bytes_length (buf : Nat → Nat) (pos n : Nat) : (mem_bytes buf pos n).length = n := by
  unfold mem_bytes
  simp

/-- An iteration reads the 8 header bytes, and beyond them only bytes covered by
`left`. -/
theorem avp_parse_iter_reads (K : ttls_consts) (A : allocator) (buf : Nat → Nat) (pos : Nat)
    (left : Int) (parse : eap_ttls_avp) :
    ∀ o ∈ (avp_parse_iter K A buf pos left parse).1,
      o < pos + 8 ∨ (o : Int) < (pos : Int) + left := by
  intro o ho
  unfold avp_parse_iter at ho
  simp only [and_ffffff, sizeof_ttls_avp] at ho
  split_ifs at ho with h1 h2 h3 h4
  · left; have := List.mem_range'_1.mp ho; omega
  · left; have := List.mem_range'_1.mp ho; omega
  · left; have := List.mem_range'_1.mp ho; omega
  · rw [avp_parse_finish_fst] at ho
    rcases List.mem_append.mp ho with ho | ho
    · rcases List.mem_append.mp ho with ho | ho
      · left; have := List.mem_range'_1.mp ho; omega
      · right; have := List.mem_range'_1.mp ho; omega
    · obtain ⟨i, hi, rfl⟩ := List.mem_map.mp ho
      have := avp_parse_attr_reads_lt K A _ _ _ _ _ i hi
      rw [mem_bytes_length] at this
      right; push_cast; omega
  · rw [avp_parse_finish_fst] at ho
    rcases List.mem_append.mp ho with ho | ho
    · left; have := List.mem_range'_1.mp ho; omega
    · obtain ⟨i, hi, rfl⟩ := List.mem_map.mp ho
      have := avp_parse_attr_reads_lt K A _ _ _ _ _ i hi
      rw [mem_bytes_length] at this
      right; push_cast; omega

theorem avp_parse_loop_reads (K : ttls_consts) (A : allocator) (buf : Nat → Nat) (len : Nat)
    (fuel : Nat) : ∀ (pos : Nat) (left : Int) (parse : eap_ttls_avp) (reads : List Nat)
    (r : avp_parse_result), left ≤ (len : Int) - (pos : Int) →
    (∀ o ∈ reads, o < len + 7) →
    avp_parse_loop K A buf fuel pos left parse reads = some r →
    ∀ o ∈ r.reads, o < len + 7 := by
  induction fuel with
  | zero =>
    intro pos left parse reads r _ hrd hr
    rw [avp_parse_loop] at hr
    split_ifs at hr
    simp only [Option.some.injEq] at hr
    rw [← hr]; exact hrd
  | succ f ih =>
    intro pos left parse reads r hle hrd hr
    by_cases hl : left > 0
    · have hit := avp_parse_iter_reads K A buf pos left parse
      have hrd2 : ∀ o ∈ reads ++ (avp_parse_iter K A buf pos left parse).1, o < len + 7 := by
        intro o ho
        rcases List.mem_append.mp ho with ho | ho
        · exact hrd o ho
        · rcases hit o ho with h | h <;> omega
      cases hs : (avp_parse_iter K A buf pos left parse).2 with
      | fail q =>
        rw [avp_parse_loop_fail K A buf f pos left parse reads hl q hs] at hr
        simp only [Option.some.injEq] at hr
        rw [← hr]; exact hrd2
      | next n q =>
        rw [avp_parse_loop_next K A buf f pos left parse reads hl n q hs] at hr
        exact ih _ _ _ _ r (by push_cast; omega) hrd2 hr
    · rw [avp_parse_loop_done K A buf _ pos left parse reads hl] at hr
      simp only [Option.some.injEq] at hr
      rw [← hr]; exact hrd

/-- The decoder never reads more than 7 bytes past the end of the buffer. -/
theorem eap_ttls_avp_parse_reads_bound (K : ttls_consts) (A : allocator) (buf : Nat → Nat)
    (len : Nat) (r : avp_parse_result) (h : eap_ttls_avp_parse K A buf len = some r) :
    ∀ o ∈ r.reads, o < len + 7 :=
  avp_parse_loop_reads K A buf len len 0 _ _ [] r
    (by simpa using size_t_to_int_le len) (fun o ho => by cases ho) h

/-! ## Phase 2 handlers -/

theorem os_memcmp_eq_iff (a b : List Nat) (n : Nat) :
    os_memcmp_eq a b n = true ↔ a.take n = b.take n := by
  unfold os_memcmp_eq
  exact decide_eq_true_iff

theorem os_memcmp_eq_false_iff (a b : List Nat) (n : Nat) :
    os_memcmp_eq a b n = false ↔ a.take n ≠ b.take n := by
  unfold os_memcmp_eq
  exact decide_eq_false_iff_not

theorem os_memcmp_eq_same_length (a b : List Nat) (h : a.length = b.length) :
    os_memcmp_eq a b b.length = true ↔ a = b := by
  rw [os_memcmp_eq_iff, List.take_length]
  have : a.take b.length = a := by rw [← h, List.take_length]
  rw [this]

theorem eap_ttls_state_state (data : eap_ttls_data) (s : ttls_state) :
    (eap_ttls_state data s).state = s := rfl

theorem success_state_ne_failure (v : Int) :
    (if v > 0 then ttls_state.PHASE_FINISHED else ttls_state.SUCCESS) ≠ ttls_state.FAILURE := by
  split_ifs <;> decide

theorem pap_no_user (K : ttls_consts) (sm : eap_sm eap_user) (data : eap_ttls_data)
    (w : List Nat) (hu : sm.user = none) :
    eap_ttls_process_phase2_pap K sm data w = eap_ttls_state data .FAILURE := by
  unfold eap_ttls_process_phase2_pap
  rw [hu]

theorem pap_no_password (K : ttls_consts) (sm : eap_sm eap_user) (data : eap_ttls_data)
    (w : List Nat) (user : eap_user) (hu : sm.user = some user) (hp : user.password = none) :
    eap_ttls_process_phase2_pap K sm data w = eap_ttls_state data .FAILURE := by
  unfold eap_ttls_process_phase2_pap
  rw [hu]
  simp only [hp]

theorem pap_with_password (K : ttls_consts) (sm : eap_sm eap_user) (data : eap_ttls_data)
    (w : List Nat) (user : eap_user) (P : List Nat) (hu : sm.user = some user)
    (hp : user.password = some P) :
    eap_ttls_process_phase2_pap K sm data w =
      if user.password_hash ≠ 0 ∨ user.ttls_auth &&& K.EAP_TTLS_AUTH_PAP = 0 then
        eap_ttls_state data .FAILURE
      else if P.length ≠ w.length ∨ os_memcmp_eq P w w.length = false then
        eap_ttls_state data .FAILURE
      else
        eap_ttls_state data (if data.ttls_version > 0 then .PHASE_FINISHED else .SUCCESS) := by
  unfold eap_ttls_process_phase2_pap
  rw [hu]
  simp only [hp]

theorem chap_bad_length (K : ttls_consts) (A : allocator) (X : ext_env)
    (sm : eap_sm eap_user) (data : eap_ttls_data) (c w : List Nat)
    (h : c.length ≠ K.EAP_TTLS_CHAP_CHALLENGE_LEN ∨
      w.length ≠ 1 + K.EAP_TTLS_CHAP_PASSWORD_LEN) :
    eap_ttls_process_phase2_chap K A X sm data (some c) (some w) =
      eap_ttls_state data .FAILURE := by
  unfold eap_ttls_process_phase2_chap
  simp only [if_pos h]

theorem chap_checked (K : ttls_consts) (A : allocator) (X : ext_env)
    (sm : eap_sm eap_user) (data : eap_ttls_data) (c w : List Nat) (user : eap_user)
    (P chal : List Nat) (hu : sm.user = some user) (hp : user.password = some P)
    (hh : user.password_hash = 0) (ha : user.ttls_auth &&& K.EAP_TTLS_AUTH_CHAP ≠ 0)
    (hl1 : c.length = K.EAP_TTLS_CHAP_CHALLENGE_LEN)
    (hl2 : w.length = 1 + K.EAP_TTLS_CHAP_PASSWORD_LEN)
    (hi : eap_ttls_implicit_challenge A X data (K.EAP_TTLS_CHAP_CHALLENGE_LEN + 1) =
      some chal) :
    eap_ttls_process_phase2_chap K A X sm data (some c) (some w) =
      if os_memcmp_eq c chal K.EAP_TTLS_CHAP_CHALLENGE_LEN = false ∨
          w.getD 0 0 ≠ chal.getD K.EAP_TTLS_CHAP_CHALLENGE_LEN 0 then
        eap_ttls_state data .FAILURE
      else if os_memcmp_eq (X.chap_md5 (w.getD 0 0) P c) (w.drop 1)
          K.EAP_TTLS_CHAP_PASSWORD_LEN then
        eap_ttls_state data (if data.ttls_version > 0 then .PHASE_FINISHED else .SUCCESS)
      else eap_ttls_state data .FAILURE := by
  unfold eap_ttls_process_phase2_chap
  have h1 : ¬ (c.length ≠ K.EAP_TTLS_CHAP_CHALLENGE_LEN ∨
      w.length ≠ 1 + K.EAP_TTLS_CHAP_PASSWORD_LEN) := by
    rw [hl1, hl2]; simp
  have h2 : ¬ (user.password_hash ≠ 0 ∨ user.ttls_auth &&& K.EAP_TTLS_AUTH_CHAP = 0) := by
    rw [hh]; simp [ha]
  simp only [if_neg h1]
  rw [hu]
  simp only [hp, if_neg h2, hi]

theorem mschap_checked (K : ttls_consts) (A : allocator) (X : ext_env)
    (sm : eap_sm eap_user) (data : eap_ttls_data) (c r : List Nat) (user : eap_user)
    (P chal : List Nat) (hu : sm.user = some user) (hp : user.password = some P)
    (ha : user.ttls_auth &&& K.EAP_TTLS_AUTH_MSCHAP ≠ 0)
    (hl1 : c.length = K.EAP_TTLS_MSCHAP_CHALLENGE_LEN)
    (hl2 : r.length = K.EAP_TTLS_MSCHAP_RESPONSE_LEN)
    (hi : eap_ttls_implicit_challenge A X data (K.EAP_TTLS_MSCHAP_CHALLENGE_LEN + 1) =
      some chal)
    (hm : os_memcmp_eq c chal K.EAP_TTLS_MSCHAP_CHALLENGE_LEN = true)
    (hid : r.getD 0 0 = chal.getD K.EAP_TTLS_MSCHAP_CHALLENGE_LEN 0) :
    eap_ttls_process_phase2_mschap K A X sm data (some c) (some r) =
      if os_memcmp_eq
          (if user.password_hash ≠ 0 then X.challenge_response c P
            else X.nt_challenge_response c P) (r.drop 26) 24 then
        eap_ttls_state data (if data.ttls_version > 0 then .PHASE_FINISHED else .SUCCESS)
      else eap_ttls_state data .FAILURE := by
  unfold eap_ttls_process_phase2_mschap
  have h1 : ¬ (c.length ≠ K.EAP_TTLS_MSCHAP_CHALLENGE_LEN ∨
      r.length ≠ K.EAP_TTLS_MSCHAP_RESPONSE_LEN) := by
    rw [hl1, hl2]; simp
  have h3 : ¬ (os_memcmp_eq c chal K.EAP_TTLS_MSCHAP_CHALLENGE_LEN = false ∨
      r.getD 0 0 ≠ chal.getD K.EAP_TTLS_MSCHAP_CHALLENGE_LEN 0) := by
    rw [hm, hid]; simp
  simp only [if_neg h1]
  rw [hu]
  simp only [hp, ha, if_false, hi, if_neg h3]

/-- The MS-CHAP handler looks at the response only through its length, its byte 0
and the 24 bytes at offset 26. -/
theorem mschap_response_congr (K : ttls_consts) (A : allocator) (X : ext_env)
    (sm : eap_sm eap_user) (data : eap_ttls_data) (ch : Option (List Nat)) (r1 r2 : List Nat)
    (hlen : r1.length = r2.length) (h0 : r1.getD 0 0 = r2.getD 0 0)
    (hnt : (r1.drop 26).take 24 = (r2.drop 26).take 24) :
    eap_ttls_process_phase2_mschap K A X sm data ch (some r1) =
      eap_ttls_process_phase2_mschap K A X sm data ch (some r2) := by
  have hnt2 : List.take 24 (List.drop (2 + 24) r1) = List.take 24 (List.drop (2 + 24) r2) := hnt
  unfold eap_ttls_process_phase2_mschap
  cases ch with
  | none => rfl
  | some c => simp only [os_memcmp_eq, hlen, h0, hnt2]

/-- The MS-CHAPv2 handler once the attribute, credential and implicit-challenge checks
have passed, for a state machine whose identity gives the name `name`. -/
theorem mschapv2_checked (K : ttls_consts) (A : allocator) (X : ext_env)
    (sm : eap_sm eap_user) (data : eap_ttls_data) (c r : List Nat) (user : eap_user)
    (P chal name : List Nat) (hu : sm.user = some user) (hp : user.password = some P)
    (ha : user.ttls_auth &&& K.EAP_TTLS_AUTH_MSCHAPV2 ≠ 0)
    (hl1 : c.length = K.EAP_TTLS_MSCHAPV2_CHALLENGE_LEN)
    (hl2 : r.length = K.EAP_TTLS_MSCHAPV2_RESPONSE_LEN)
    (hn : mschapv2_username sm = some name)
    (hi : eap_ttls_implicit_challenge A X data (K.EAP_TTLS_MSCHAPV2_CHALLENGE_LEN + 1) =
      some chal)
    (hm : os_memcmp_eq c chal K.EAP_TTLS_MSCHAPV2_CHALLENGE_LEN = true)
    (hid : r.getD 0 0 = chal.getD K.EAP_TTLS_MSCHAPV2_CHALLENGE_LEN 0) :
    eap_ttls_process_phase2_mschapv2 K A X sm data (some c) (some r) =
      if os_memcmp_eq
          (mschapv2_nt_response X P user.password_hash c
            ((r.drop 2).take K.EAP_TTLS_MSCHAPV2_CHALLENGE_LEN) name)
          (r.drop (2 + K.EAP_TTLS_MSCHAPV2_CHALLENGE_LEN + 8)) 24 then
        some ({ eap_ttls_state
              { data with
                mschapv2_resp_ok := 1
                mschapv2_auth_response :=
                  mschapv2_authenticator_response X P user.password_hash
                    ((r.drop 2).take K.EAP_TTLS_MSCHAPV2_CHALLENGE_LEN) c name
                    (mschapv2_nt_response X P user.password_hash c
                      ((r.drop 2).take K.EAP_TTLS_MSCHAPV2_CHALLENGE_LEN) name) }
              .PHASE2_MSCHAPV2_RESP with mschapv2_ident := r.getD 0 0 },
          if data.ttls_version > 0 then
            .eap_ttls_ia_permute_inner_secret
                (some (mschapv2_session_key X P user.password_hash
                  (mschapv2_nt_response X P user.password_hash c
                    ((r.drop 2).take K.EAP_TTLS_MSCHAPV2_CHALLENGE_LEN) name))) ::
              (eap_ttls_ia_permute_inner_secret A X
                (some (mschapv2_session_key X P user.password_hash
                  (mschapv2_nt_response X P user.password_hash c
                    ((r.drop 2).take K.EAP_TTLS_MSCHAPV2_CHALLENGE_LEN) name)))).2
          else [])
      else
        some ({ eap_ttls_state { data with mschapv2_resp_ok := 0 } .PHASE2_MSCHAPV2_RESP with
            mschapv2_ident := r.getD 0 0 }, []) := by
  unfold eap_ttls_process_phase2_mschapv2
  have h1 : ¬ (c.length ≠ K.EAP_TTLS_MSCHAPV2_CHALLENGE_LEN ∨
      r.length ≠ K.EAP_TTLS_MSCHAPV2_RESPONSE_LEN) := by
    rw [hl1, hl2]; simp
  have h3 : ¬ (os_memcmp_eq c chal K.EAP_TTLS_MSCHAPV2_CHALLENGE_LEN = false ∨
      r.getD 0 0 ≠ chal.getD K.EAP_TTLS_MSCHAPV2_CHALLENGE_LEN 0) := by
    rw [hm, hid]; simp
  simp only [if_neg h1]
  rw [hu]
  simp only [hp, ha, if_false, hn, hi, if_neg h3]

/-- The MS-CHAPv2 handler when the received challenge or identifier does not match the
implicit challenge. -/
theorem mschapv2_challenge_mismatch (K : ttls_consts) (A : allocator) (X : ext_env)
    (sm : eap_sm eap_user) (data : eap_ttls_data) (c r : List Nat) (user : eap_user)
    (P chal name : List Nat) (hu : sm.user = some user) (hp : user.password = some P)
    (ha : user.ttls_auth &&& K.EAP_TTLS_AUTH_MSCHAPV2 ≠ 0)
    (hl1 : c.length = K.EAP_TTLS_MSCHAPV2_CHALLENGE_LEN)
    (hl2 : r.length = K.EAP_TTLS_MSCHAPV2_RESPONSE_LEN)
    (hn : mschapv2_username sm = some name)
    (hi : eap_ttls_implicit_challenge A X data (K.EAP_TTLS_MSCHAPV2_CHALLENGE_LEN + 1) =
      some chal)
    (hm : os_memcmp_eq c chal K.EAP_TTLS_MSCHAPV2_CHALLENGE_LEN = false ∨
      r.getD 0 0 ≠ chal.getD K.EAP_TTLS_MSCHAPV2_CHALLENGE_LEN 0) :
    eap_ttls_process_phase2_mschapv2 K A X sm data (some c) (some r) =
      some (eap_ttls_state data .FAILURE, []) := by
  unfold eap_ttls_process_phase2_mschapv2
  have h1 : ¬ (c.length ≠ K.EAP_TTLS_MSCHAPV2_CHALLENGE_LEN ∨
      r.length ≠ K.EAP_TTLS_MSCHAPV2_RESPONSE_LEN) := by
    rw [hl1, hl2]; simp
  simp only [if_neg h1]
  rw [hu]
  simp only [hp, ha, if_false, hn, hi, if_pos hm]

/-- The MS-CHAPv2 handler when the attribute, credential and permission checks have
passed and the identity cannot be read: no result. -/
theorem mschapv2_undefined (K : ttls_consts) (A : allocator) (X : ext_env)
    (sm : eap_sm eap_user) (data : eap_ttls_data) (c r : List Nat) (user : eap_user)
    (P : List Nat) (hu : sm.user = some user) (hp : user.password = some P)
    (ha : user.ttls_auth &&& K.EAP_TTLS_AUTH_MSCHAPV2 ≠ 0)
    (hl1 : c.length = K.EAP_TTLS_MSCHAPV2_CHALLENGE_LEN)
    (hl2 : r.length = K.EAP_TTLS_MSCHAPV2_RESPONSE_LEN)
    (hn : mschapv2_username sm = none) :
    eap_ttls_process_phase2_mschapv2 K A X sm data (some c) (some r) = none := by
  unfold eap_ttls_process_phase2_mschapv2
  have h1 : ¬ (c.length ≠ K.EAP_TTLS_MSCHAPV2_CHALLENGE_LEN ∨
      r.length ≠ K.EAP_TTLS_MSCHAPV2_RESPONSE_LEN) := by
    rw [hl1, hl2]; simp
  simp only [if_neg h1]
  rw [hu]
  simp only [hp, ha, if_false, hn]

/-- The identity cannot be read exactly when `sm->identity` is NULL and
`sm->identity_len` is not 0. -/
theorem mschapv2_username_none_iff (sm : eap_sm eap_user) :
    mschapv2_username sm = none ↔ sm.identity = none ∧ sm.identity_len ≠ 0 := by
  unfold mschapv2_username
  cases sm.identity with
  | none =>
    by_cases h : sm.identity_len = 0
    · simp [h]
    · simp [h]
  | some identity => simp

/-- Whatever its arguments, the MS-CHAPv2 handler either fails at once, with no
recorded call, or has no result because the identity cannot be read, or passes the
attribute, credential and implicit-challenge checks. -/
theorem mschapv2_cases (K : ttls_consts) (A : allocator) (X : ext_env)
    (sm : eap_sm eap_user) (data : eap_ttls_data) (ch rs : Option (List Nat)) :
    eap_ttls_process_phase2_mschapv2 K A X sm data ch rs =
      some (eap_ttls_state data .FAILURE, []) ∨
    (eap_ttls_process_phase2_mschapv2 K A X sm data ch rs = none ∧
      mschapv2_username sm = none) ∨
    ∃ (c r : List Nat) (user : eap_user) (P chal name : List Nat),
      ch = some c ∧ rs = some r ∧ sm.user = some user ∧ user.password = some P ∧
      user.ttls_auth &&& K.EAP_TTLS_AUTH_MSCHAPV2 ≠ 0 ∧
      c.length = K.EAP_TTLS_MSCHAPV2_CHALLENGE_LEN ∧
      r.length = K.EAP_TTLS_MSCHAPV2_RESPONSE_LEN ∧
      mschapv2_username sm = some name ∧
      eap_ttls_implicit_challenge A X data (K.EAP_TTLS_MSCHAPV2_CHALLENGE_LEN + 1) =
        some chal ∧
      os_memcmp_eq c chal K.EAP_TTLS_MSCHAPV2_CHALLENGE_LEN = true ∧
      r.getD 0 0 = chal.getD K.EAP_TTLS_MSCHAPV2_CHALLENGE_LEN 0 := by
  cases ch with
  | none => left; unfold eap_ttls_process_phase2_mschapv2; rfl
  | some c =>
    cases rs with
    | none => left; unfold eap_ttls_process_phase2_mschapv2; rfl
    | some r =>
      by_cases h1 : c.length ≠ K.EAP_TTLS_MSCHAPV2_CHALLENGE_LEN ∨
          r.length ≠ K.EAP_TTLS_MSCHAPV2_RESPONSE_LEN
      · left
        unfold eap_ttls_process_phase2_mschapv2
        simp only [if_pos h1]
      · simp only [not_or, not_not] at h1
        cases hu : sm.user with
        | none =>
          left
          unfold eap_ttls_process_phase2_mschapv2
          rw [hu]
          simp only [ite_self]
        | some user =>
          cases hp : user.password with
          | none =>
            left
            unfold eap_ttls_process_phase2_mschapv2
            rw [hu]
            simp only [hp, ite_self]
          | some P =>
            by_cases ha : user.ttls_auth &&& K.EAP_TTLS_AUTH_MSCHAPV2 = 0
            · left
              unfold eap_ttls_process_phase2_mschapv2
              rw [hu]
              simp only [hp, ha, if_true, ite_self]
            · cases hn : mschapv2_username sm with
              | none =>
                right; left
                exact ⟨mschapv2_undefined K A X sm data c r user P hu hp ha h1.1 h1.2 hn, rfl⟩
              | some name =>
                cases hi : eap_ttls_implicit_challenge A X data
                    (K.EAP_TTLS_MSCHAPV2_CHALLENGE_LEN + 1) with
                | none =>
                  left
                  unfold eap_ttls_process_phase2_mschapv2
                  rw [hu]
                  simp only [hp, ha, if_false, hn, hi, ite_self]
                | some chal =>
                  by_cases hm :
                      os_memcmp_eq c chal K.EAP_TTLS_MSCHAPV2_CHALLENGE_LEN = false ∨
                      r.getD 0 0 ≠ chal.getD K.EAP_TTLS_MSCHAPV2_CHALLENGE_LEN 0
                  · left
                    exact mschapv2_challenge_mismatch K A X sm data c r user P chal name hu hp
                      ha h1.1 h1.2 hn hi hm
                  · right; right
                    simp only [not_or, not_not, Bool.not_eq_false] at hm
                    exact ⟨c, r, user, P, chal, name, rfl, rfl, rfl, hp, ha, h1.1, h1.2, rfl,
                      rfl, hm.1, hm.2⟩

/-! ## Message processing -/

theorem eap_ttls_start_tnc_off {U : Type} (K : ttls_consts) (M : msg_env U) (sm : eap_sm U)
    (data : eap_ttls_data)
    (h : K.EAP_SERVER_TNC = false ∨ sm.tnc = 0 ∨ data.state ≠ .SUCCESS) :
    eap_ttls_start_tnc K M sm data = (sm, data) := by
  unfold eap_ttls_start_tnc
  rcases h with h | h | h
  · simp [h]
  · simp [h]
  · simp [h]

theorem eap_ttls_process_msg_ack {U : Type} (K : ttls_consts) (A : allocator)
    (E : phase2_env U) (M : msg_env U) (sm : eap_sm U) (data : eap_ttls_data)
    (in_buf : List Nat) (hs : data.state = .PHASE2_MSCHAPV2_RESP) :
    eap_ttls_process_msg K A E M sm data in_buf =
      ⟨(eap_ttls_start_tnc K M sm
          (if data.mschapv2_resp_ok ≠ 0 ∧ in_buf.length = 0 then
            eap_ttls_state data
              (if data.ttls_version > 0 then .PHASE_FINISHED else .SUCCESS)
          else eap_ttls_state data .FAILURE)).1,
        (eap_ttls_start_tnc K M sm
          (if data.mschapv2_resp_ok ≠ 0 ∧ in_buf.length = 0 then
            eap_ttls_state data
              (if data.ttls_version > 0 then .PHASE_FINISHED else .SUCCESS)
          else eap_ttls_state data .FAILURE)).2, []⟩ := by
  unfold eap_ttls_process_msg
  rw [hs]
  simp only [ite_self]

theorem eap_ttls_process_msg_ack_failure {U : Type} (K : ttls_consts) (A : allocator)
    (E : phase2_env U) (M : msg_env U) (sm : eap_sm U) (data : eap_ttls_data)
    (in_buf : List Nat) (hs : data.state = .PHASE2_MSCHAPV2_RESP)
    (hf : ¬ (data.mschapv2_resp_ok ≠ 0 ∧ in_buf.length = 0)) :
    eap_ttls_process_msg K A E M sm data in_buf = ⟨sm, eap_ttls_state data .FAILURE, []⟩ := by
  rw [eap_ttls_process_msg_ack K A E M sm data in_buf hs, if_neg hf,
    eap_ttls_start_tnc_off K M sm _ (Or.inr (Or.inr (by rw [eap_ttls_state_state]; decide)))]

/-! ## The number of iterations -/

theorem avp_parse_iterations_done (K : ttls_consts) (A : allocator) (buf : Nat → Nat)
    (fuel pos : Nat) (left : Int) (parse : eap_ttls_avp) (h : ¬ left > 0) :
    avp_parse_iterations K A buf fuel pos left parse = 0 := by
  unfold avp_parse_iterations
  simp only [h, if_false]

theorem avp_parse_iterations_fail (K : ttls_consts) (A : allocator) (buf : Nat → Nat)
    (fuel pos : Nat) (left : Int) (parse : eap_ttls_avp) (h : left > 0) (q : eap_ttls_avp)
    (hs : (avp_parse_iter K A buf pos left parse).2 = .fail q) :
    avp_parse_iterations K A buf (fuel + 1) pos left parse = 1 := by
  rw [avp_parse_iterations]
  simp only [h, if_true]
  generalize avp_parse_iter K A buf pos left parse = it at hs
  obtain ⟨r, st⟩ := it
  simp only at hs
  subst hs
  rfl

theorem avp_parse_iterations_next (K : ttls_consts) (A : allocator) (buf : Nat → Nat)
    (fuel pos : Nat) (left : Int) (parse : eap_ttls_avp) (h : left > 0) (n : Nat)
    (q : eap_ttls_avp) (hs : (avp_parse_iter K A buf pos left parse).2 = .next n q) :
    avp_parse_iterations K A buf (fuel + 1) pos left parse =
      1 + avp_parse_iterations K A buf fuel (pos + n) (left - (n : Int)) q := by
  rw [avp_parse_iterations]
  simp only [h, if_true]
  generalize avp_parse_iter K A buf pos left parse = it at hs
  obtain ⟨r, st⟩ := it
  simp only at hs
  subst hs
  rfl

theorem avp_parse_iterations_bound (K : ttls_consts) (A : allocator) (buf : Nat → Nat)
    (fuel : Nat) : ∀ (pos : Nat) (left : Int) (parse : eap_ttls_avp),
    left > 0 → 8 * (avp_parse_iterations K A buf fuel pos left parse : Int) ≤ left + 7 := by
  induction fuel with
  | zero =>
    intro pos left parse hl
    unfold avp_parse_iterations
    simp only [hl, if_true]
    omega
  | succ f ih =>
    intro pos left parse hl
    cases hs : (avp_parse_iter K A buf pos left parse).2 with
    | fail q =>
      rw [avp_parse_iterations_fail K A buf f pos left parse hl q hs]
      omega
    | next n q =>
      rw [avp_parse_iterations_next K A buf f pos left parse hl n q hs]
      have hb := avp_parse_iter_next K A buf pos left parse n q hs
      by_cases h2 : left - (n : Int) > 0
      · have := ih (pos + n) (left - (n : Int)) q h2
        push_cast
        omega
      · rw [avp_parse_iterations_done K A buf f (pos + n) _ q h2]
        omega

theorem avp_parse_iterations_fuel (K : ttls_consts) (A : allocator) (buf : Nat → Nat)
    (f1 : Nat) : ∀ (f2 pos : Nat) (left : Int) (parse : eap_ttls_avp),
    left ≤ (f1 : Int) → left ≤ (f2 : Int) →
    avp_parse_iterations K A buf f1 pos left parse =
      avp_parse_iterations K A buf f2 pos left parse := by
  induction f1 with
  | zero =>
    intro f2 pos left parse h1 _
    have hl : ¬ left > 0 := by simpa using h1
    rw [avp_parse_iterations_done K A buf 0 pos left parse hl,
      avp_parse_iterations_done K A buf f2 pos left parse hl]
  | succ f ih =>
    intro f2 pos left parse h1 h2
    by_cases hl : left > 0
    · cases f2 with
      | zero => exact absurd h2 (by simpa using hl)
      | succ g =>
        cases hs : (avp_parse_iter K A buf pos left parse).2 with
        | fail q =>
          rw [avp_parse_iterations_fail K A buf f pos left parse hl q hs,
            avp_parse_iterations_fail K A buf g pos left parse hl q hs]
        | next n q =>
          rw [avp_parse_iterations_next K A buf f pos left parse hl n q hs,
            avp_parse_iterations_next K A buf g pos left parse hl n q hs]
          have hb := avp_parse_iter_next K A buf pos left parse n q hs
          rw [ih g (pos + n) (left - (n : Int)) q (by push_cast at h1; omega)
            (by push_cast at h2; omega)]
    · rw [avp_parse_iterations_done K A buf _ pos left parse hl,
        avp_parse_iterations_done K A buf f2 pos left parse hl]

/-! ## The user name of MS-CHAPv2 -/

theorem username_after_backslash_first : ∀ (l : List Nat) (i : Nat), i < l.length →
    l.getD i 0 = 92 → (∀ j, j < i → l.getD j 0 ≠ 92) →
    username_after_backslash l = some (l.drop (i + 1))
  | [], _, h, _, _ => absurd h (by simp)
  | b :: rest, 0, _, h92, _ => by
    have hb : b = 92 := by simpa using h92
    simp [username_after_backslash, hb]
  | b :: rest, i + 1, h, h92, hfirst => by
    have hb : b ≠ 92 := by simpa using hfirst 0 (Nat.succ_pos i)
    have hrec := username_after_backslash_first rest i (by simpa using h) (by simpa using h92)
      (fun j hj => by simpa using hfirst (j + 1) (Nat.succ_lt_succ hj))
    simp [username_after_backslash, hb, hrec]

theorem username_after_backslash_none : ∀ (l : List Nat),
    (∀ i, i < l.length → l.getD i 0 ≠ 92) → username_after_backslash l = none
  | [], _ => rfl
  | b :: rest, h => by
    have hb : b ≠ 92 := by simpa using h 0 (by simp)
    have hrec := username_after_backslash_none rest
      (fun i hi => by simpa using h (i + 1) (by simpa using hi))
    simp [username_after_backslash, hb, hrec]

/-! ## The MS-CHAPv2 reply -/

theorem eap_ttls_avp_hdr_vendor_length (K : ttls_consts) (c v len : Nat) (m : Bool)
    (hv : v ≠ 0) : (eap_ttls_avp_hdr K c v m len).length = 12 := by
  unfold eap_ttls_avp_hdr
  simp only [hv, ne_eq, not_false_eq_true, if_true, List.length_append, host_to_be32_length]

theorem eap_ttls_avp_hdr_vendor_eq (K : ttls_consts) (c v len : Nat) (hv : v ≠ 0)
    (hM : K.AVP_FLAGS_MANDATORY < 256) (hV : K.AVP_FLAGS_VENDOR < 256)
    (hlen : 12 + len < 2 ^ 24) :
    eap_ttls_avp_hdr K c v true len =
      vendor_avp_header c (K.AVP_FLAGS_MANDATORY ||| K.AVP_FLAGS_VENDOR) (12 + len) v := by
  have hf : K.AVP_FLAGS_MANDATORY ||| K.AVP_FLAGS_VENDOR < 256 :=
    Nat.or_lt_two_pow (n := 8) hM hV
  unfold eap_ttls_avp_hdr vendor_avp_header
  simp only [hv, ne_eq, not_false_eq_true, if_true, sizeof_ttls_avp_vendor,
    Nat.mod_eq_of_lt hM, Nat.mod_eq_of_lt hf, flags_shift_or _ _ hlen]
  generalize K.AVP_FLAGS_MANDATORY ||| K.AVP_FLAGS_VENDOR = f at hf
  have e1 : (f * 2 ^ 24 + (12 + len)) / 2 ^ 24 % 256 = f := by omega
  have e2 : (f * 2 ^ 24 + (12 + len)) / 2 ^ 16 % 256 = (12 + len) / 2 ^ 16 % 256 := by omega
  have e3 : (f * 2 ^ 24 + (12 + len)) / 2 ^ 8 % 256 = (12 + len) / 2 ^ 8 % 256 := by omega
  have e4 : (f * 2 ^ 24 + (12 + len)) % 256 = (12 + len) % 256 := by omega
  simp only [host_to_be32, e1, e2, e3, e4, List.cons_append, List.nil_append,
    List.append_assoc]

theorem hex_uppercase_length (data : List Nat) :
    (hex_uppercase data).length = 2 * data.length := by
  induction data with
  | nil => rfl
  | cons b rest ih =>
    simp only [hex_uppercase, List.length_cons, ih]
    omega

theorem wpa_snprintf_hex_uppercase_eq : ∀ (data : List Nat) (buf_size : Nat),
    2 * data.length < buf_size → wpa_snprintf_hex_uppercase buf_size data = hex_uppercase data
  | [], _, _ => by
    unfold wpa_snprintf_hex_uppercase
    rfl
  | b :: rest, buf_size, h => by
    have h2 : 2 < buf_size := by
      simp only [List.length_cons] at h
      omega
    have hrec := wpa_snprintf_hex_uppercase_eq rest (buf_size - 2) (by
      simp only [List.length_cons] at h
      omega)
    unfold wpa_snprintf_hex_uppercase
    rw [if_pos h2, hrec]
    rfl

theorem hex_uppercase_digit_ne_zero (n : Nat) : hex_uppercase_digit n ≠ 0 := by
  unfold hex_uppercase_digit
  split_ifs <;> omega

theorem hex_uppercase_getD_last : ∀ (data : List Nat), data ≠ [] →
    (hex_uppercase data).getD (2 * data.length - 1) 0 ≠ 0
  | [], h => absurd rfl h
  | [b], _ => by
    simp only [hex_uppercase, List.length_singleton]
    exact hex_uppercase_digit_ne_zero _
  | b :: c :: rest, _ => by
    have hrec := hex_uppercase_getD_last (c :: rest) (by simp)
    have e : 2 * (b :: c :: rest).length - 1 = (2 * (c :: rest).length - 1) + 2 := by
      simp only [List.length_cons]
      omega
    rw [e]
    exact hrec

theorem build_phase2_mschapv2_req_success (K : ttls_consts) (A : allocator)
    (data : eap_ttls_data) (ha : A.os_malloc 100 = true)
    (hv : K.RADIUS_VENDOR_ID_MICROSOFT ≠ 0) (hr : data.mschapv2_auth_response.length = 20)
    (hok : data.mschapv2_resp_ok ≠ 0) :
    eap_ttls_build_phase2_mschapv2_req K A data =
      some (eap_ttls_avp_hdr K K.RADIUS_ATTR_MS_CHAP2_SUCCESS K.RADIUS_VENDOR_ID_MICROSOFT
        true 43 ++ [data.mschapv2_ident % 256] ++ [83, 61] ++
        hex_uppercase data.mschapv2_auth_response) := by
  have hl := eap_ttls_avp_hdr_vendor_length K K.RADIUS_ATTR_MS_CHAP2_SUCCESS
    K.RADIUS_VENDOR_ID_MICROSOFT 43 true hv
  have ht : data.mschapv2_auth_response.take 20 = data.mschapv2_auth_response := by
    rw [← hr]
    exact List.take_length _
  unfold eap_ttls_build_phase2_mschapv2_req
  simp only [ha, Bool.true_eq_false, if_false, hok, ne_eq, not_false_eq_true, if_true,
    List.length_append, hl, List.length_singleton, ht]
  have hc : ((2 : Int) ≥ 0 ∧ (2 : Int) < 100 - ((12 + 1 : Nat) : Int)) := by decide
  rw [if_pos hc]
  rw [wpa_snprintf_hex_uppercase_eq _ _ (by
    simp only [List.length_append, hl, List.length_singleton, List.length_cons,
      List.length_nil, hr]
    omega)]

theorem build_phase2_mschapv2_req_failure (K : ttls_consts) (A : allocator)
    (data : eap_ttls_data) (ha : A.os_malloc 100 = true)
    (hv : K.RADIUS_VENDOR_ID_MICROSOFT ≠ 0) (hok : data.mschapv2_resp_ok = 0) :
    eap_ttls_build_phase2_mschapv2_req K A data =
      some (eap_ttls_avp_hdr K K.RADIUS_ATTR_MS_CHAP_ERROR K.RADIUS_VENDOR_ID_MICROSOFT
        true 6 ++ [70, 97, 105, 108, 101, 100] ++ [0, 0]) := by
  have hl := eap_ttls_avp_hdr_vendor_length K K.RADIUS_ATTR_MS_CHAP_ERROR
    K.RADIUS_VENDOR_ID_MICROSOFT 6 true hv
  unfold eap_ttls_build_phase2_mschapv2_req AVP_PAD
  simp only [ha, Bool.true_eq_false, if_false, hok, ne_eq, not_true_eq_false,
    List.length_append, hl, List.length_cons, List.length_nil]
  rfl

theorem hex_uppercase_digit_table (n : Nat) (h : n < 16) :
    hex_uppercase_digit n =
      [48, 49, 50, 51, 52, 53, 54, 55, 56, 57, 65, 66, 67, 68, 69, 70].getD n 0 := by
  unfold hex_uppercase_digit
  interval_cases n <;> rfl

theorem hex_uppercase_getD : ∀ (data : List Nat) (i : Nat), i < data.length →
    (hex_uppercase data).getD (2 * i) 0 =
      [48, 49, 50, 51, 52, 53, 54, 55, 56, 57, 65, 66, 67, 68, 69, 70].getD
        (data.getD i 0 / 16 % 16) 0 ∧
    (hex_uppercase data).getD (2 * i + 1) 0 =
      [48, 49, 50, 51, 52, 53, 54, 55, 56, 57, 65, 66, 67, 68, 69, 70].getD
        (data.getD i 0 % 16) 0
  | [], _, h => absurd h (by simp)
  | b :: rest, 0, _ => by
    simp only [hex_uppercase, Nat.mul_zero, List.getD_cons_zero, Nat.zero_add,
      List.getD_cons_succ]
    exact ⟨hex_uppercase_digit_table _ (Nat.mod_lt _ (by decide)),
      hex_uppercase_digit_table _ (Nat.mod_lt _ (by decide))⟩
  | b :: rest, i + 1, h => by
    have hrec := hex_uppercase_getD rest i (by simpa using h)
    have e1 : 2 * (i + 1) = (2 * i + 1) + 1 := by omega
    have e2 : 2 * (i + 1) + 1 = ((2 * i + 1) + 1) + 1 := by omega
    rw [e1]
    simp only [hex_uppercase, List.getD_cons_succ]
    exact hrec

/-! ## The state a handler leaves -/

theorem pap_state (K : ttls_consts) (sm : eap_sm eap_user) (data : eap_ttls_data)
    (w : List Nat) :
    (eap_ttls_process_phase2_pap K sm data w).state = .FAILURE ∨
    (eap_ttls_process_phase2_pap K sm data w).state =
      (if data.ttls_version > 0 then .PHASE_FINISHED else .SUCCESS) := by
  unfold eap_ttls_process_phase2_pap
  repeat' first | split | dsimp only
  all_goals first
    | exact Or.inl rfl
    | exact Or.inr rfl

theorem chap_state (K : ttls_consts) (A : allocator) (X : ext_env) (sm : eap_sm eap_user)
    (data : eap_ttls_data) (c w : Option (List Nat)) :
    (eap_ttls_process_phase2_chap K A X sm data c w).state = .FAILURE ∨
    (eap_ttls_process_phase2_chap K A X sm data c w).state =
      (if data.ttls_version > 0 then .PHASE_FINISHED else .SUCCESS) := by
  unfold eap_ttls_process_phase2_chap
  repeat' first | split | dsimp only
  all_goals first
    | exact Or.inl rfl
    | exact Or.inr rfl

theorem mschap_state (K : ttls_consts) (A : allocator) (X : ext_env) (sm : eap_sm eap_user)
    (data : eap_ttls_data) (c r : Option (List Nat)) :
    (eap_ttls_process_phase2_mschap K A X sm data c r).state = .FAILURE ∨
    (eap_ttls_process_phase2_mschap K A X sm data c r).state =
      (if data.ttls_version > 0 then .PHASE_FINISHED else .SUCCESS) := by
  unfold eap_ttls_process_phase2_mschap
  repeat' first | split | dsimp only
  all_goals first
    | exact Or.inl rfl
    | exact Or.inr rfl

theorem mschapv2_state (K : ttls_consts) (A : allocator) (X : ext_env) (sm : eap_sm eap_user)
    (data : eap_ttls_data) (c r : Option (List Nat)) (res : eap_ttls_data × List ttls_event)
    (hres : eap_ttls_process_phase2_mschapv2 K A X sm data c r = some res) :
    res.1.state = .FAILURE ∨ res.1.state = .PHASE2_MSCHAPV2_RESP := by
  rcases mschapv2_cases K A X sm data c r with h | ⟨h, _⟩ | ⟨c1, r1, user, P, chal, name, hch,
    hrs, hu, hp, ha, hl1, hl2, hn, hi, hm, hid⟩
  · rw [h] at hres
    cases hres
    exact Or.inl rfl
  · rw [h] at hres
    cases hres
  · rw [hch, hrs, mschapv2_checked K A X sm data c1 r1 user P chal name hu hp ha hl1 hl2 hn
      hi hm hid] at hres
    right
    split at hres <;> cases hres <;> rfl

theorem ttls_phase2_env_mschapv2_state (K : ttls_consts) (A : allocator) (X : ext_env)
    (Me : method_env) (E : phase2_env eap_user) (sm : eap_sm eap_user)
    (data : eap_ttls_data) (c : Option (List Nat)) (r : List Nat) :
    ((ttls_phase2_env K A X Me E).eap_ttls_process_phase2_mschapv2 sm data c r).2.state =
        data.state ∨
    ((ttls_phase2_env K A X Me E).eap_ttls_process_phase2_mschapv2 sm data c r).2.state =
        .FAILURE ∨
    ((ttls_phase2_env K A X Me E).eap_ttls_process_phase2_mschapv2 sm data c r).2.state =
        .PHASE2_MSCHAPV2_RESP := by
  unfold ttls_phase2_env
  dsimp only
  cases h : eap_ttls_process_phase2_mschapv2 K A X sm data c (some r) with
  | none => exact Or.inl rfl
  | some res => exact Or.inr (mschapv2_state K A X sm data c (some r) res h)

/-! ## The inner-EAP functions -/

theorem eap_init_data (Me : method_env) (sm : eap_sm eap_user) (data : eap_ttls_data)
    (t : Nat) :
    ∃ m p, (eap_ttls_phase2_eap_init Me sm data t).1.data =
      { data with phase2_method := m, phase2_priv := p } := by
  unfold eap_ttls_phase2_eap_init
  dsimp only
  split <;> split <;> exact ⟨_, _, rfl⟩

theorem eap_init_state (Me : method_env) (sm : eap_sm eap_user) (data : eap_ttls_data)
    (t : Nat) :
    (eap_ttls_phase2_eap_init Me sm data t).1.data.state = data.state ∧
    (eap_ttls_phase2_eap_init Me sm data t).1.data.ttls_version = data.ttls_version ∧
    (eap_ttls_phase2_eap_init Me sm data t).1.data.pending_phase2_eap_resp =
      data.pending_phase2_eap_resp ∧
    (eap_ttls_phase2_eap_init Me sm data t).1.data.tnc_started = data.tnc_started := by
  obtain ⟨m, p, h⟩ := eap_init_data Me sm data t
  rw [h]
  exact ⟨rfl, rfl, rfl, rfl⟩

theorem inner_eap_step_refl (data : eap_ttls_data) : inner_eap_step data data :=
  ⟨rfl, Or.inl rfl⟩

theorem inner_eap_step_failure (data data1 : eap_ttls_data)
    (h : data1.ttls_version = data.ttls_version) :
    inner_eap_step data (eap_ttls_state data1 .FAILURE) :=
  ⟨h, Or.inr (Or.inl rfl)⟩

theorem phase2_eap_method_done_step (K : ttls_consts) (Me : method_env)
    (sm : eap_sm eap_user) (data : eap_ttls_data) (m priv : Nat) (calls : List method_call) :
    inner_eap_step data (phase2_eap_method_done K Me sm data m priv calls).data := by
  unfold phase2_eap_method_done
  split
  · dsimp only
    split
    · exact inner_eap_step_failure data data rfl
    · split
      · exact inner_eap_step_failure data _ (eap_init_state Me _ _ _).2.1
      · exact ⟨(eap_init_state Me _ _ _).2.1, Or.inr (Or.inr (Or.inl (eap_init_state Me _ _ _).1))⟩
  · rename_i hs
    split
    · rename_i hv
      split
      · exact ⟨rfl, Or.inr (Or.inr (Or.inr (Or.inr ⟨rfl, hs, hv⟩)))⟩
      · exact ⟨rfl, Or.inr (Or.inr (Or.inr (Or.inr ⟨rfl, hs, hv⟩)))⟩
    · rename_i hv
      exact ⟨rfl, Or.inr (Or.inr (Or.inr (Or.inl ⟨rfl, hs, hv⟩)))⟩
  · exact inner_eap_step_refl data
  · exact inner_eap_step_refl data

theorem phase2_eap_nak_step (K : ttls_consts) (Me : method_env) (sm : eap_sm eap_user)
    (data : eap_ttls_data) (allowed : List Nat) :
    inner_eap_step data (phase2_eap_nak K Me sm data allowed).data := by
  unfold phase2_eap_nak
  dsimp only
  split
  · split
    · split
      · exact inner_eap_step_failure data _ (eap_init_state Me _ _ _).2.1
      · exact ⟨(eap_init_state Me _ _ _).2.1, Or.inl (eap_init_state Me _ _ _).1⟩
    · exact inner_eap_step_failure data data rfl
  · exact inner_eap_step_failure data data rfl

theorem inner_eap_step_of_eq (data d1 d2 : eap_ttls_data)
    (hv : d1.ttls_version = data.ttls_version) (hs : d1.state = data.state)
    (h : inner_eap_step d1 d2) : inner_eap_step data d2 := by
  unfold inner_eap_step at h ⊢
  rw [hv, hs] at h
  exact h

theorem eap_response_step (K : ttls_consts) (A : allocator) (Me : method_env)
    (sm : eap_sm eap_user) (data : eap_ttls_data) (in_data : List Nat) (in_len : Nat) :
    inner_eap_step data
      (eap_ttls_process_phase2_eap_response K A Me sm data in_data in_len).data := by
  unfold eap_ttls_process_phase2_eap_response
  split
  · exact inner_eap_step_refl data
  · split
    · exact phase2_eap_nak_step K Me sm data _
    · split
      · exact inner_eap_step_refl data
      · dsimp only
        split
        · exact inner_eap_step_refl data
        · split
          · split <;> exact inner_eap_step_refl _
          · split
            · split <;> exact inner_eap_step_failure data _ rfl
            · refine inner_eap_step_of_eq data _ _ ?_ ?_
                (phase2_eap_method_done_step K Me _ _ _ _ _)
              · split <;> rfl
              · split <;> rfl

theorem eap_step (K : ttls_consts) (A : allocator) (Me : method_env) (sm : eap_sm eap_user)
    (data : eap_ttls_data) (eap : List Nat) :
    inner_eap_step data (eap_ttls_process_phase2_eap K A Me sm data eap).data := by
  have hinit : ∀ r : inner_result × Int,
      r = (if data.state = .PHASE2_START then
          eap_ttls_phase2_eap_init Me sm data K.EAP_TYPE_IDENTITY
        else (⟨sm, data, []⟩, 0)) →
      r.1.data.ttls_version = data.ttls_version ∧ r.1.data.state = data.state := by
    intro r hr
    subst hr
    split
    · exact ⟨(eap_init_state Me _ _ _).2.1, (eap_init_state Me _ _ _).1⟩
    · exact ⟨rfl, rfl⟩
  unfold eap_ttls_process_phase2_eap
  dsimp only
  generalize hr : (if data.state = .PHASE2_START then
      eap_ttls_phase2_eap_init Me sm data K.EAP_TYPE_IDENTITY
    else ((⟨sm, data, []⟩ : inner_result), (0 : Int))) = r
  have h := hinit r hr.symm
  have hkeep : inner_eap_step data r.1.data := ⟨h.1, Or.inl h.2⟩
  split
  · exact hkeep
  · split
    · exact hkeep
    · split
      · exact hkeep
      · split
        · exact inner_eap_step_of_eq data _ _ h.1 h.2 (eap_response_step K A Me _ _ _ _)
        · exact hkeep

/-! ## States kept by a pass of Phase 2 -/

theorem phase2_dispatch_state {U : Type} (P : ttls_state → Prop) (E : phase2_env U)
    (h1 : ∀ sm d x, P d.state → P (E.eap_ttls_process_phase2_eap sm d x).2.state)
    (h2 : ∀ sm d x, P d.state → P (E.eap_ttls_process_phase2_pap sm d x).2.state)
    (h3 : ∀ sm d c x, P d.state → P (E.eap_ttls_process_phase2_chap sm d c x).2.state)
    (h4 : ∀ sm d c x, P d.state → P (E.eap_ttls_process_phase2_mschap sm d c x).2.state)
    (h5 : ∀ sm d c x, P d.state → P (E.eap_ttls_process_phase2_mschapv2 sm d c x).2.state)
    (sm : eap_sm U) (data : eap_ttls_data) (parse : eap_ttls_avp) (hP : P data.state) :
    P (phase2_dispatch E sm data parse).data.state := by
  unfold phase2_dispatch
  split
  · exact h1 _ _ _ hP
  · split
    · exact h2 _ _ _ hP
    · split
      · exact h3 _ _ _ _ hP
      · split
        · exact h4 _ _ _ _ hP
        · split
          · exact h5 _ _ _ _ hP
          · exact hP

theorem phase2_after_parse_state {U : Type} (P : ttls_state → Prop) (K : ttls_consts)
    (A : allocator) (E : phase2_env U) (hF : P .FAILURE)
    (h1 : ∀ sm d x, P d.state → P (E.eap_ttls_process_phase2_eap sm d x).2.state)
    (h2 : ∀ sm d x, P d.state → P (E.eap_ttls_process_phase2_pap sm d x).2.state)
    (h3 : ∀ sm d c x, P d.state → P (E.eap_ttls_process_phase2_chap sm d c x).2.state)
    (h4 : ∀ sm d c x, P d.state → P (E.eap_ttls_process_phase2_mschap sm d c x).2.state)
    (h5 : ∀ sm d c x, P d.state → P (E.eap_ttls_process_phase2_mschapv2 sm d c x).2.state)
    (sm : eap_sm U) (data : eap_ttls_data) (parse : eap_ttls_avp) (hP : P data.state) :
    P (phase2_after_parse K A E sm data parse).data.state := by
  unfold phase2_after_parse
  cases parse.user_name with
  | none =>
    dsimp only
    split_ifs
    · exact hF
    · exact phase2_dispatch_state P E h1 h2 h3 h4 h5 _ _ _ hP
  | some u =>
    dsimp only
    split_ifs <;> first
      | exact hF
      | exact phase2_dispatch_state P E h1 h2 h3 h4 h5 _ _ _ hP

theorem process_phase2_state {U : Type} (P : ttls_state → Prop) (K : ttls_consts)
    (A : allocator) (E : phase2_env U) (hF : P .FAILURE) (hS : P .SUCCESS)
    (h1 : ∀ sm d x, P d.state → P (E.eap_ttls_process_phase2_eap sm d x).2.state)
    (h2 : ∀ sm d x, P d.state → P (E.eap_ttls_process_phase2_pap sm d x).2.state)
    (h3 : ∀ sm d c x, P d.state → P (E.eap_ttls_process_phase2_chap sm d c x).2.state)
    (h4 : ∀ sm d c x, P d.state → P (E.eap_ttls_process_phase2_mschap sm d c x).2.state)
    (h5 : ∀ sm d c x, P d.state → P (E.eap_ttls_process_phase2_mschapv2 sm d c x).2.state)
    (sm : eap_sm U) (data : eap_ttls_data) (in_buf : List Nat) (hP : P data.state) :
    P (eap_ttls_process_phase2 K A E sm data in_buf).data.state := by
  unfold eap_ttls_process_phase2
  split
  · exact h1 _ _ _ hP
  · dsimp only
    split
    · exact hP
    · split
      · exact hF
      · split
        · split
          · exact hS
          · exact hF
        · split
          · exact hP
          · split
            · exact hF
            · exact phase2_after_parse_state P K A E hF h1 h2 h3 h4 h5 _ _ _ hP

theorem start_tnc_state {U : Type} (K : ttls_consts) (M : msg_env U) (sm : eap_sm U)
    (data : eap_ttls_data) :
    (eap_ttls_start_tnc K M sm data).2.state = data.state ∨
    (eap_ttls_start_tnc K M sm data).2.state = .FAILURE ∨
    (eap_ttls_start_tnc K M sm data).2.state = .PHASE2_METHOD := by
  unfold eap_ttls_start_tnc
  split
  · split
    · exact Or.inl rfl
    · dsimp only
      split
      · exact Or.inr (Or.inl rfl)
      · exact Or.inr (Or.inr rfl)
  · exact Or.inl rfl

theorem process_msg_state {U : Type} (P : ttls_state → Prop) (K : ttls_consts)
    (A : allocator) (E : phase2_env U) (M : msg_env U) (hF : P .FAILURE) (hS : P .SUCCESS)
    (hM : P .PHASE2_METHOD) (hPF : P .PHASE_FINISHED)
    (h1 : ∀ sm d x, P d.state → P (E.eap_ttls_process_phase2_eap sm d x).2.state)
    (h2 : ∀ sm d x, P d.state → P (E.eap_ttls_process_phase2_pap sm d x).2.state)
    (h3 : ∀ sm d c x, P d.state → P (E.eap_ttls_process_phase2_chap sm d c x).2.state)
    (h4 : ∀ sm d c x, P d.state → P (E.eap_ttls_process_phase2_mschap sm d c x).2.state)
    (h5 : ∀ sm d c x, P d.state → P (E.eap_ttls_process_phase2_mschapv2 sm d c x).2.state)
    (sm : eap_sm U) (data : eap_ttls_data) (in_buf : List Nat) (hP : P data.state) :
    P (eap_ttls_process_msg K A E M sm data in_buf).data.state := by
  have htnc : ∀ (s : eap_sm U) (d : eap_ttls_data), P d.state →
      P (eap_ttls_start_tnc K M s d).2.state := by
    intro s d hd
    rcases start_tnc_state K M s d with h | h | h
    · rw [h]; exact hd
    · rw [h]; exact hF
    · rw [h]; exact hM
  unfold eap_ttls_process_msg
  split
  all_goals first
    | exact hP
    | exact htnc _ _ (process_phase2_state P K A E hF hS h1 h2 h3 h4 h5 _ _ _ hP)
    | (split <;> first | exact hF | exact hP)
    | (apply htnc
       dsimp only
       split_ifs <;> first | exact hPF | exact hS | exact hF)

/-! ## Requests and the entry point -/

theorem process_version_state (set_ia : Int) (data : eap_ttls_data) (v : Int) :
    (eap_ttls_process_version set_ia data v).1.state = data.state := by
  unfold eap_ttls_process_version
  dsimp only
  split_ifs <;> rfl

theorem process_msg_other {U : Type} (K : ttls_consts) (A : allocator) (E : phase2_env U)
    (M : msg_env U) (sm : eap_sm U) (data : eap_ttls_data) (in_buf : List Nat)
    (h : data.state = .START ∨ data.state = .SUCCESS ∨ data.state = .FAILURE) :
    eap_ttls_process_msg K A E M sm data in_buf = ⟨sm, data, []⟩ := by
  unfold eap_ttls_process_msg
  rcases h with h | h | h <;> rw [h]

theorem run_callbacks_failure (K : ttls_consts) (A : allocator) (E : phase2_env eap_user)
    (M : msg_env eap_user) (set_ia : Int) :
    ∀ (l : List tls_callback) (sm : eap_sm eap_user) (data : eap_ttls_data),
    data.state = .FAILURE → (run_callbacks K A E M set_ia l sm data).2.state = .FAILURE
  | [], _, _, h => h
  | .proc_version v :: rest, sm, data, h => by
    unfold run_callbacks
    exact run_callbacks_failure K A E M set_ia rest sm _
      (by rw [process_version_state]; exact h)
  | .proc_msg in_buf :: rest, sm, data, h => by
    unfold run_callbacks
    dsimp only
    rw [process_msg_other K A E M sm data in_buf (Or.inr (Or.inr h))]
    exact run_callbacks_failure K A E M set_ia rest sm data h

theorem buildReq_frag_ack (K : ttls_consts) (A : allocator) (B : build_env) (Me : method_env)
    (sm : eap_sm eap_user) (ssl : eap_ssl_data) (data : eap_ttls_data) (id : Nat)
    (h : ssl.state = .FRAG_ACK) :
    eap_ttls_buildReq K A B Me sm ssl data id =
      ⟨B.eap_server_tls_build_ack id data.ttls_version, sm, ssl, data, []⟩ := by
  unfold eap_ttls_buildReq
  rw [if_pos h]

theorem buildReq_wait_frag_ack (K : ttls_consts) (A : allocator) (B : build_env)
    (Me : method_env) (sm : eap_sm eap_user) (ssl : eap_ssl_data) (data : eap_ttls_data)
    (id : Nat) (h : ssl.state = .WAIT_FRAG_ACK) :
    eap_ttls_buildReq K A B Me sm ssl data id =
      ⟨(B.eap_server_tls_build_msg ssl data.ttls_version id).2, sm,
        (B.eap_server_tls_build_msg ssl data.ttls_version id).1, data, []⟩ := by
  unfold eap_ttls_buildReq
  rw [if_neg (by rw [h]; decide), if_pos h]

theorem buildReq_failure (K : ttls_consts) (A : allocator) (B : build_env) (Me : method_env)
    (sm : eap_sm eap_user) (ssl : eap_ssl_data) (data : eap_ttls_data) (id : Nat)
    (h : data.state = .FAILURE) :
    (eap_ttls_buildReq K A B Me sm ssl data id).data = data := by
  by_cases h1 : ssl.state = .FRAG_ACK
  · rw [buildReq_frag_ack K A B Me sm ssl data id h1]
  · by_cases h2 : ssl.state = .WAIT_FRAG_ACK
    · rw [buildReq_wait_frag_ack K A B Me sm ssl data id h2]
    · unfold eap_ttls_buildReq
      rw [if_neg h1, if_neg h2]
      dsimp only
      rw [h]

theorem buildReq_keeps_phase2 (K : ttls_consts) (A : allocator) (B : build_env)
    (Me : method_env) (sm : eap_sm eap_user) (ssl : eap_ssl_data) (data : eap_ttls_data)
    (id : Nat)
    (hinv : (data.phase2_method ≠ none ∨ data.phase2_priv ≠ none) →
      data.state ≠ .START ∧ data.state ≠ .PHASE1) :
    ((eap_ttls_buildReq K A B Me sm ssl data id).data.phase2_method ≠ none ∨
        (eap_ttls_buildReq K A B Me sm ssl data id).data.phase2_priv ≠ none) →
      (eap_ttls_buildReq K A B Me sm ssl data id).data.state ≠ .START ∧
      (eap_ttls_buildReq K A B Me sm ssl data id).data.state ≠ .PHASE1 := by
  by_cases h1 : ssl.state = .FRAG_ACK
  · rw [buildReq_frag_ack K A B Me sm ssl data id h1]
    exact hinv
  · by_cases h2 : ssl.state = .WAIT_FRAG_ACK
    · rw [buildReq_wait_frag_ack K A B Me sm ssl data id h2]
      exact hinv
    · unfold eap_ttls_buildReq
      rw [if_neg h1, if_neg h2]
      dsimp only
      cases hs : data.state with
      | START =>
        dsimp only
        unfold eap_ttls_build_start
        have hnull : ¬ (data.phase2_method ≠ none ∨ data.phase2_priv ≠ none) := by
          intro hc
          exact (hinv hc).1 hs
        split
        · intro _
          exact ⟨by simp [eap_ttls_state], by simp [eap_ttls_state]⟩
        · intro hn
          exact absurd hn hnull
      | PHASE1 =>
        dsimp only
        have hnull : ¬ (data.phase2_method ≠ none ∨ data.phase2_priv ≠ none) := by
          intro hc
          exact (hinv hc).2 hs
        split_ifs
        · intro _
          exact ⟨by simp [eap_ttls_state], by simp [eap_ttls_state]⟩
        · intro hn
          exact absurd hn hnull
      | PHASE2_METHOD =>
        dsimp only
        intro _
        have hst : (eap_ttls_build_phase2_eap_req K A B Me sm data id).2.1.state =
            .PHASE2_METHOD := by
          unfold eap_ttls_build_phase2_eap_req
          repeat' first | split | dsimp only
          all_goals exact hs
        rw [hst]
        exact ⟨by decide, by decide⟩
      | _ =>
        dsimp only
        intro _
        rw [hs]
        exact ⟨by decide, by decide⟩

/-! ## The inner-EAP response, case by case -/

theorem inner_eap_step_base (d d1 : eap_ttls_data) (h : inner_eap_step d d1)
    (hv : d.ttls_version = 0) (hs : d.state ≠ .PHASE_FINISHED) :
    d1.state ≠ .PHASE_FINISHED := by
  rcases h.2 with h | h | h | h | h
  · rw [h]; exact hs
  · rw [h]; decide
  · rw [h]; decide
  · rw [h.1]; decide
  · rw [hv] at h
    exact absurd h.2.2 (by decide)

theorem eap_response_nak_eq (K : ttls_consts) (A : allocator) (Me : method_env)
    (sm : eap_sm eap_user) (data : eap_ttls_data) (in_data : List Nat) (in_len priv : Nat)
    (hp : data.phase2_priv = some priv)
    (hnak : in_len > sizeof_eap_hdr ∧ in_data.getD sizeof_eap_hdr 0 = K.EAP_TYPE_NAK) :
    eap_ttls_process_phase2_eap_response K A Me sm data in_data in_len =
      phase2_eap_nak K Me sm data
        ((in_data.drop (sizeof_eap_hdr + 1)).take (in_len - sizeof_eap_hdr - 1)) := by
  unfold eap_ttls_process_phase2_eap_response
  rw [hp]
  dsimp only
  rw [if_pos hnak]

theorem eap_response_process_eq (K : ttls_consts) (A : allocator) (Me : method_env)
    (sm : eap_sm eap_user) (data : eap_ttls_data) (in_data : List Nat) (in_len m priv : Nat)
    (hp : data.phase2_priv = some priv) (hm : data.phase2_method = some m)
    (hnak : ¬ (in_len > sizeof_eap_hdr ∧ in_data.getD sizeof_eap_hdr 0 = K.EAP_TYPE_NAK))
    (hc : Me.check m sm priv (in_data.take in_len) = false) :
    eap_ttls_process_phase2_eap_response K A Me sm data in_data in_len =
      if Me.isDone m (Me.process m sm priv (in_data.take in_len)).1
          (Me.process m sm priv (in_data.take in_len)).2 = false then
        ⟨(Me.process m sm priv (in_data.take in_len)).1,
          if (Me.process m sm priv (in_data.take in_len)).1.method_pending =
              K.METHOD_PENDING_WAIT then
            { data with
              phase2_priv := some (Me.process m sm priv (in_data.take in_len)).2
              pending_phase2_eap_resp :=
                if A.wpabuf_alloc (in_data.take in_len).length then some (in_data.take in_len)
                else none }
          else
            { data with phase2_priv := some (Me.process m sm priv (in_data.take in_len)).2 },
          [.check m (in_data.take in_len), .process m (in_data.take in_len)]⟩
      else if Me.isSuccess m (Me.process m sm priv (in_data.take in_len)).1
          (Me.process m sm priv (in_data.take in_len)).2 = false then
        ⟨(Me.process m sm priv (in_data.take in_len)).1,
          eap_ttls_state
            (if (Me.process m sm priv (in_data.take in_len)).1.method_pending =
                K.METHOD_PENDING_WAIT then
              { data with
                phase2_priv := some (Me.process m sm priv (in_data.take in_len)).2
                pending_phase2_eap_resp :=
                  if A.wpabuf_alloc (in_data.take in_len).length then
                    some (in_data.take in_len)
                  else none }
            else
              { data with phase2_priv := some (Me.process m sm priv (in_data.take in_len)).2 })
            .FAILURE,
          [.check m (in_data.take in_len), .process m (in_data.take in_len)]⟩
      else
        phase2_eap_method_done K Me (Me.process m sm priv (in_data.take in_len)).1
          (if (Me.process m sm priv (in_data.take in_len)).1.method_pending =
              K.METHOD_PENDING_WAIT then
            { data with
              phase2_priv := some (Me.process m sm priv (in_data.take in_len)).2
              pending_phase2_eap_resp :=
                if A.wpabuf_alloc (in_data.take in_len).length then some (in_data.take in_len)
                else none }
          else
            { data with phase2_priv := some (Me.process m sm priv (in_data.take in_len)).2 })
          m (Me.process m sm priv (in_data.take in_len)).2
          [.check m (in_data.take in_len), .process m (in_data.take in_len)] := by
  unfold eap_ttls_process_phase2_eap_response
  rw [hp]
  dsimp only
  rw [if_neg hnak, hm]
  dsimp only
  rw [hc]
  simp only [Bool.false_eq_true, if_false]

theorem method_done_success (K : ttls_consts) (Me : method_env) (sm : eap_sm eap_user)
    (data : eap_ttls_data) (m priv : Nat) (calls : List method_call)
    (hs : data.state = .PHASE2_METHOD) (hv : ¬ data.ttls_version > 0) :
    (phase2_eap_method_done K Me sm data m priv calls).data.state = .SUCCESS := by
  unfold phase2_eap_method_done
  split
  · rename_i h
    rw [hs] at h
    cases h
  · rw [if_neg hv]
    rfl
  · rename_i h
    rw [hs] at h
    cases h
  · rename_i h1 h2 h3
    exact absurd hs h2

theorem method_done_pending (K : ttls_consts) (Me : method_env) (sm : eap_sm eap_user)
    (data : eap_ttls_data) (m priv : Nat) (calls : List method_call) :
    (phase2_eap_method_done K Me sm data m priv calls).data.pending_phase2_eap_resp =
      data.pending_phase2_eap_resp ∧
    ∀ c ∈ calls, c ∈ (phase2_eap_method_done K Me sm data m priv calls).calls := by
  unfold phase2_eap_method_done
  split
  · dsimp only
    split
    · exact ⟨rfl, fun c hc => hc⟩
    · split
      · exact ⟨(eap_init_state Me _ _ _).2.2.1, fun c hc => List.mem_append_left _ hc⟩
      · exact ⟨(eap_init_state Me _ _ _).2.2.1, fun c hc => List.mem_append_left _ hc⟩
  · split
    · split
      · exact ⟨rfl, fun c hc => List.mem_append_left _ hc⟩
      · exact ⟨rfl, fun c hc => hc⟩
    · exact ⟨rfl, fun c hc => hc⟩
  · exact ⟨rfl, fun c hc => hc⟩
  · exact ⟨rfl, fun c hc => hc⟩

theorem eap_init_calls (Me : method_env) (sm : eap_sm eap_user) (data : eap_ttls_data)
    (t : Nat) :
    (∀ c ∈ (eap_ttls_phase2_eap_init Me sm data t).1.calls,
      (∃ m, c = .reset m) ∨ c = .init t) ∧
    (Me.eap_server_get_eap_method t = true →
      method_call.init t ∈ (eap_ttls_phase2_eap_init Me sm data t).1.calls) ∧
    ((eap_ttls_phase2_eap_init Me sm data t).2 = 0 →
      (eap_ttls_phase2_eap_init Me sm data t).1.data.phase2_method = some t ∧
      (eap_ttls_phase2_eap_init Me sm data t).1.data.phase2_priv ≠ none) := by
  unfold eap_ttls_phase2_eap_init
  dsimp only
  refine ⟨?_, ?_, ?_⟩
  · split <;> split <;> intro c hc <;> simp at hc <;> aesop
  · intro hreg
    rw [hreg]
    simp
  · split <;> split <;> intro h0
    all_goals first
      | omega
      | (dsimp only at h0 ⊢
         split_ifs at h0 with hn
         exact ⟨rfl, by
           intro hc
           rw [hc] at hn
           exact hn rfl⟩)

theorem eap_init_sm_index (Me : method_env) (sm : eap_sm eap_user) (data : eap_ttls_data)
    (t : Nat)
    (hi : ∀ t s, (Me.init t s).1.user_eap_method_index = s.user_eap_method_index)
    (hr : ∀ m s p, (Me.reset m s p).user_eap_method_index = s.user_eap_method_index) :
    (eap_ttls_phase2_eap_init Me sm data t).1.sm.user_eap_method_index =
      sm.user_eap_method_index := by
  unfold eap_ttls_phase2_eap_init
  dsimp only
  split <;> split
  · exact hr _ _ _
  · rfl
  · dsimp only
    rw [hi, hr]
  · dsimp only
    rw [hi]

theorem phase2_dispatch_eap {U : Type} (E : phase2_env U) (sm : eap_sm U)
    (data : eap_ttls_data) (parse : eap_ttls_avp) (eap : List Nat)
    (h : parse.eap = some eap) :
    phase2_dispatch E sm data parse =
      ⟨(E.eap_ttls_process_phase2_eap sm data eap).1,
        (E.eap_ttls_process_phase2_eap sm data eap).2, [.eap eap]⟩ := by
  unfold phase2_dispatch
  rw [h]

theorem phase2_eap_nak_exhausted (K : ttls_consts) (Me : method_env) (sm : eap_sm eap_user)
    (data : eap_ttls_data) (allowed : List Nat)
    (h : (Me.eap_sm_process_nak sm allowed).user = none ∨
      (Me.eap_sm_process_nak sm allowed).user_eap_method_index ≥ K.EAP_MAX_METHODS ∨
      ∃ u, (Me.eap_sm_process_nak sm allowed).user = some u ∧
        u.methods.getD (Me.eap_sm_process_nak sm allowed).user_eap_method_index
          K.EAP_TYPE_NONE = K.EAP_TYPE_NONE) :
    phase2_eap_nak K Me sm data allowed =
      ⟨Me.eap_sm_process_nak sm allowed, eap_ttls_state data .FAILURE, []⟩ := by
  unfold phase2_eap_nak
  dsimp only
  split
  · rename_i user hu
    rw [if_neg]
    rintro ⟨h1, h2⟩
    rcases h with h | h | ⟨u, hu2, h3⟩
    · rw [hu] at h
      cases h
    · omega
    · rw [hu] at hu2
      cases hu2
      exact h2 h3
  · rfl

theorem phase2_eap_nak_next (K : ttls_consts) (Me : method_env) (sm : eap_sm eap_user)
    (data : eap_ttls_data) (allowed : List Nat) (u : eap_user)
    (hu : (Me.eap_sm_process_nak sm allowed).user = some u)
    (hi : (Me.eap_sm_process_nak sm allowed).user_eap_method_index < K.EAP_MAX_METHODS)
    (hm : u.methods.getD (Me.eap_sm_process_nak sm allowed).user_eap_method_index
      K.EAP_TYPE_NONE ≠ K.EAP_TYPE_NONE) :
    phase2_eap_nak K Me sm data allowed =
      if (eap_ttls_phase2_eap_init Me
          { Me.eap_sm_process_nak sm allowed with
            user_eap_method_index :=
              (Me.eap_sm_process_nak sm allowed).user_eap_method_index + 1 }
          data
          (u.methods.getD (Me.eap_sm_process_nak sm allowed).user_eap_method_index
            K.EAP_TYPE_NONE % 256)).2 ≠ 0 then
        ⟨(eap_ttls_phase2_eap_init Me
          { Me.eap_sm_process_nak sm allowed with
            user_eap_method_index :=
              (Me.eap_sm_process_nak sm allowed).user_eap_method_index + 1 }
          data
          (u.methods.getD (Me.eap_sm_process_nak sm allowed).user_eap_method_index
            K.EAP_TYPE_NONE % 256)).1.sm,
          eap_ttls_state
            (eap_ttls_phase2_eap_init Me
          { Me.eap_sm_process_nak sm allowed with
            user_eap_method_index :=
              (Me.eap_sm_process_nak sm allowed).user_eap_method_index + 1 }
          data
          (u.methods.getD (Me.eap_sm_process_nak sm allowed).user_eap_method_index
            K.EAP_TYPE_NONE % 256)).1.data .FAILURE,
          (eap_ttls_phase2_eap_init Me
          { Me.eap_sm_process_nak sm allowed with
            user_eap_method_index :=
              (Me.eap_sm_process_nak sm allowed).user_eap_method_index + 1 }
          data
          (u.methods.getD (Me.eap_sm_process_nak sm allowed).user_eap_method_index
            K.EAP_TYPE_NONE % 256)).1.calls⟩
      else
        (eap_ttls_phase2_eap_init Me
          { Me.eap_sm_process_nak sm allowed with
            user_eap_method_index :=
              (Me.eap_sm_process_nak sm allowed).user_eap_method_index + 1 }
          data
          (u.methods.getD (Me.eap_sm_process_nak sm allowed).user_eap_method_index
            K.EAP_TYPE_NONE % 256)).1 := by
  unfold phase2_eap_nak
  dsimp only
  rw [hu]
  dsimp only
  rw [if_pos ⟨hi, hm⟩]

/-! ## The sessions reached from `eap_ttls_init` -/

theorem eap_ttls_init_fresh (K : ttls_consts) (I : init_env) (sm : eap_sm eap_user)
    (data : eap_ttls_data) (h : eap_ttls_init K I sm = some data) :
    data.state = .START ∧ data.phase2_method = none ∧ data.phase2_priv = none := by
  unfold eap_ttls_init at h
  dsimp only at h
  split_ifs at h
  all_goals
    cases h
    exact ⟨rfl, rfl, rfl⟩

theorem inner_eap_step_phase2 (d d1 : eap_ttls_data) (h : inner_eap_step d d1)
    (hP : d.state ≠ .START ∧ d.state ≠ .PHASE1) :
    d1.state ≠ .START ∧ d1.state ≠ .PHASE1 := by
  rcases h.2 with h | h | h | h | h
  · rw [h]; exact hP
  · rw [h]; exact ⟨by decide, by decide⟩
  · rw [h]; exact ⟨by decide, by decide⟩
  · rw [h.1]; exact ⟨by decide, by decide⟩
  · rw [h.1]; exact ⟨by decide, by decide⟩

theorem base_or_failure_phase2 (v : Int) (s : ttls_state)
    (h : s = .FAILURE ∨ s = (if v > 0 then .PHASE_FINISHED else .SUCCESS)) :
    s ≠ .START ∧ s ≠ .PHASE1 := by
  rcases h with h | h
  · rw [h]; exact ⟨by decide, by decide⟩
  · rw [h]
    split_ifs <;> exact ⟨by decide, by decide⟩

theorem process_msg_keeps_phase2 (K : ttls_consts) (A : allocator) (X : ext_env)
    (Me : method_env) (E : phase2_env eap_user) (phase1 : Int) (sm : eap_sm eap_user)
    (data : eap_ttls_data) (in_buf : List Nat)
    (hinv : (data.phase2_method ≠ none ∨ data.phase2_priv ≠ none) →
      data.state ≠ .START ∧ data.state ≠ .PHASE1) :
    ((eap_ttls_process_msg K A (ttls_phase2_env K A X Me E) (ttls_msg_env Me phase1) sm data
          in_buf).data.phase2_method ≠ none ∨
        (eap_ttls_process_msg K A (ttls_phase2_env K A X Me E) (ttls_msg_env Me phase1) sm data
          in_buf).data.phase2_priv ≠ none) →
      (eap_ttls_process_msg K A (ttls_phase2_env K A X Me E) (ttls_msg_env Me phase1) sm data
        in_buf).data.state ≠ .START ∧
      (eap_ttls_process_msg K A (ttls_phase2_env K A X Me E) (ttls_msg_env Me phase1) sm data
        in_buf).data.state ≠ .PHASE1 := by
  by_cases hP : data.state ≠ .START ∧ data.state ≠ .PHASE1
  · intro _
    exact process_msg_state (fun s => s ≠ .START ∧ s ≠ .PHASE1) K A
      (ttls_phase2_env K A X Me E) (ttls_msg_env Me phase1)
      ⟨by decide, by decide⟩ ⟨by decide, by decide⟩ ⟨by decide, by decide⟩
      ⟨by decide, by decide⟩
      (fun s d x h => inner_eap_step_phase2 d _ (eap_step K A Me s d x) h)
      (fun s d x _ => base_or_failure_phase2 _ _ (pap_state K s d x))
      (fun s d c x _ => base_or_failure_phase2 _ _ (chap_state K A X s d c (some x)))
      (fun s d c x _ => base_or_failure_phase2 _ _ (mschap_state K A X s d c (some x)))
      (fun s d c x hd => by
        rcases ttls_phase2_env_mschapv2_state K A X Me E s d c x with h | h | h
        · rw [h]; exact hd
        · rw [h]; exact ⟨by decide, by decide⟩
        · rw [h]; exact ⟨by decide, by decide⟩)
      sm data in_buf hP
  · have hs : data.state = .START ∨ data.state = .PHASE1 := by
      by_contra hc
      exact hP ⟨fun h => hc (Or.inl h), fun h => hc (Or.inr h)⟩
    have hnull : ¬ (data.phase2_method ≠ none ∨ data.phase2_priv ≠ none) :=
      fun hc => hP (hinv hc)
    rcases hs with hs | hs
    · rw [process_msg_other K A _ _ sm data in_buf (Or.inl hs)]
      intro hn
      exact absurd hn hnull
    · unfold eap_ttls_process_msg
      rw [hs]
      dsimp only
      split
      · intro _
        exact ⟨by simp [eap_ttls_state], by simp [eap_ttls_state]⟩
      · intro hn
        exact absurd hn hnull

theorem sample_identity_session_reached :
    ttls_reaches hostap_consts sample_identity_session := by
  have h0 : ttls_reaches hostap_consts { sample_session with state := .START } :=
    ttls_reaches.init sample_init_env sample_sm _ rfl
  have h1 := ttls_reaches.buildReq allocator.total sample_build_env sample_method_env
    sample_sm (sample_ssl .MSG) _ 1 h0
  have h2 := ttls_reaches.buildReq allocator.total sample_build_env sample_method_env
    sample_sm (sample_ssl .MSG) _ 2 h1
  have hcalls : (eap_ttls_process_msg hostap_consts allocator.total
      (ttls_phase2_env hostap_consts allocator.total sample_ext sample_method_env
        sample_short_eap_env) (ttls_msg_env sample_method_env 0) sample_sm sample_session
      []).calls = [.eap [2]] := by decide
  have h3 := ttls_reaches.process_msg allocator.total sample_ext sample_method_env
    sample_short_eap_env 0 sample_sm _ [] h2 (by
      intro c r hmem
      have hmem2 : phase2_call.mschapv2 c r ∈ [phase2_call.eap [2]] := hcalls ▸ hmem
      simp at hmem2)
  exact h3

/-! ## Padding after the last AVP -/

theorem wire_parse_singleton (K : ttls_consts) (A : allocator) (parse : eap_ttls_avp)
    (a : wire_avp) :
    wire_parse K A parse [a] =
      match (avp_parse_attr K A parse a.code a.flags a.vendor_id a.data).2 with
      | none => (-1, { parse with eap := none })
      | some q => (0, q) := by
  unfold wire_parse
  split <;> rfl

theorem avp_parse_loop_wire_cut (K : ttls_consts) (A : allocator) (buf : Nat → Nat)
    (l : List wire_avp) (a : wire_avp) (j fuel : Nat) (tail : List Nat)
    (hw : ∀ x ∈ l ++ [a], x.wf K) (hj : j ≤ a.pad.length) (ht : tail.length = j)
    (hm : mem_holds buf 0 (wire_bytes l ++ (a.body ++ tail)))
    (hf : (wire_bytes l).length + (a.body ++ tail).length ≤ fuel) :
    (avp_parse_loop K A buf fuel 0
        (((wire_bytes l).length : Int) + ((a.body ++ tail).length : Int))
        eap_ttls_avp.zero []).map avp_parse_result.outcome =
      some (wire_parse K A eap_ttls_avp.zero (l ++ [a])) := by
  have hwl : ∀ x ∈ l, x.wf K := fun x hx => hw x (List.mem_append_left _ hx)
  have hwa : a.wf K := hw a (List.mem_append_right _ (List.mem_singleton_self a))
  have hbl : (a.body ++ tail).length = a.avp_length + j := by
    rw [List.length_append, wire_avp.body_length, ht]
  have hal : a.bytes.length = a.avp_length + a.pad.length := by
    unfold wire_avp.bytes
    rw [List.length_append, wire_avp.body_length]
  rw [avp_parse_loop_wire K A buf l fuel 0 _ eap_ttls_avp.zero [] (a.body ++ tail) hwl hm rfl
    (by exact_mod_cast hf), wire_parse_append]
  by_cases h0 : (wire_parse K A eap_ttls_avp.zero l).1 = 0
  · rw [if_pos h0, if_pos h0]
    have hma : mem_holds buf (0 + (wire_bytes l).length) a.body :=
      ((mem_holds_append buf _ _ _).mp
        ((mem_holds_append buf 0 _ _).mp hm).2).1
    rw [avp_parse_loop_wire_step K A buf fuel _ _ _ [] a hwa hma
      (by rw [hbl]; push_cast; omega) (by rw [hbl]; push_cast; omega),
      wire_parse_singleton]
    cases (avp_parse_attr K A (wire_parse K A eap_ttls_avp.zero l).2 a.code a.flags
      a.vendor_id a.data).2 with
    | none => rfl
    | some q =>
      dsimp only
      rw [avp_parse_loop_done K A buf fuel _ _ q []
        (by rw [hbl, hal]; push_cast; omega)]
      rfl
  · rw [if_neg h0, if_neg h0]

/-! # The claims -/

/-- C1: for every payload `p` of at most 4096 bytes and either value of the mandatory
flag, `eap_ttls_avp_encapsulate` with the EAP-Message code produces a buffer on which
`eap_ttls_avp_parse` succeeds (returns 0) with the inner-EAP payload equal to `p` and
every other field of the parsed set absent, whatever the padding needed (0 to 3
bytes) and whatever the memory holds after the buffer. The two allocations involved
are assumed to succeed; the constants are any values such that the code fits 32 bits
and the mandatory flag byte does not contain the vendor bit. -/
theorem avp_round_trip (K : ttls_consts) (A : allocator) (p : List Nat) (m : Bool)
    (junk : Nat → Nat) (hp : p.length ≤ 4096)
    (hcode : K.RADIUS_ATTR_EAP_MESSAGE < 2 ^ 32)
    (hMV : K.AVP_FLAGS_MANDATORY % 256 &&& K.AVP_FLAGS_VENDOR = 0)
    (hw : A.wpabuf_alloc (8 + p.length + 4) = true)
    (hm : A.os_malloc p.length = true) :
    ∃ b r, eap_ttls_avp_encapsulate K A p K.RADIUS_ATTR_EAP_MESSAGE m = some b ∧
      eap_ttls_avp_parse K A (buf_mem b junk) b.length = some r ∧ r.ret = 0 ∧
      r.parse = ⟨some p, none, none, none, none, none, none, none⟩ := by
  have hlen : 8 + p.length < 2 ^ 24 := by omega
  have hwf := encapsulated_avp_wf K p K.RADIUS_ATTR_EAP_MESSAGE m hcode hlen hMV
  have hb : wire_bytes [encapsulated_avp K p K.RADIUS_ATTR_EAP_MESSAGE m] =
      (encapsulated_avp K p K.RADIUS_ATTR_EAP_MESSAGE m).bytes := by
    rw [wire_bytes_cons, wire_bytes_nil, List.append_nil]
  have hbl : (encapsulated_avp K p K.RADIUS_ATTR_EAP_MESSAGE m).bytes.length < 2 ^ 31 := by
    rw [wire_avp.bytes_length K _ hwf, encapsulated_avp_length]
    omega
  have h := eap_ttls_avp_parse_wire K A [encapsulated_avp K p K.RADIUS_ATTR_EAP_MESSAGE m]
    junk (by intro a ha; rw [List.mem_singleton] at ha; rw [ha]; exact hwf)
    (by rw [hb]; exact hbl)
  rw [hb] at h
  have hp : wire_parse K A eap_ttls_avp.zero
      [encapsulated_avp K p K.RADIUS_ATTR_EAP_MESSAGE m] =
      (0, ⟨some p, none, none, none, none, none, none, none⟩) := by
    simp [wire_parse, avp_parse_attr, encapsulated_avp, wire_avp.vendor_id,
      eap_ttls_avp.zero, hm]
  rw [hp] at h
  obtain ⟨r, h1, h2, h3⟩ := outcome_some _ _ _ h
  exact ⟨_, r, eap_ttls_avp_encapsulate_wire K A p _ m hlen hw, h1, h2, h3⟩

/-- Witness of C1 with the hostapd constants: a 3-byte payload (one padding byte),
mandatory flag set. -/
theorem avp_round_trip_witness :
    ([1, 2, 3] : List Nat).length ≤ 4096 ∧
    hostap_consts.RADIUS_ATTR_EAP_MESSAGE < 2 ^ 32 ∧
    hostap_consts.AVP_FLAGS_MANDATORY % 256 &&& hostap_consts.AVP_FLAGS_VENDOR = 0 ∧
    allocator.total.wpabuf_alloc (8 + ([1, 2, 3] : List Nat).length + 4) = true ∧
    allocator.total.os_malloc ([1, 2, 3] : List Nat).length = true ∧
    ∃ b r, eap_ttls_avp_encapsulate hostap_consts allocator.total [1, 2, 3]
        hostap_consts.RADIUS_ATTR_EAP_MESSAGE true = some b ∧
      eap_ttls_avp_parse hostap_consts allocator.total (buf_mem b (fun _ => 0)) b.length
        = some r ∧ r.ret = 0 ∧
      r.parse = ⟨some [1, 2, 3], none, none, none, none, none, none, none⟩ :=
  ⟨by decide, by decide, by decide, rfl, rfl,
    avp_round_trip hostap_consts allocator.total [1, 2, 3] true (fun _ => 0) (by decide)
      (by decide) (by decide) rfl rfl⟩

/-- C8: for every payload `p` with `8 + |p| < 2^24`, code `c` and mandatory flag `m`,
the buffer produced by `eap_ttls_avp_encapsulate` (when its allocation succeeds) is
exactly: `c` (a `u32`) as 4 big-endian bytes, one flags byte (`AVP_FLAGS_MANDATORY` if `m`,
0 otherwise, so that the vendor bit is clear), the value `8 + |p|` as 3 big-endian
bytes, then `p`, then `k` zero bytes with `k ≤ 3` and `8 + |p| + k` a multiple of 4
(the least multiple of 4 that is at least `8 + |p|`). The flag constants are any
values such that the mandatory flag is a byte that does not contain the vendor bit. -/
theorem avp_encapsulate_layout (K : ttls_consts) (A : allocator) (p : List Nat) (c : Nat)
    (m : Bool) (hlen : 8 + p.length < 2 ^ 24)
    (hM : K.AVP_FLAGS_MANDATORY < 256)
    (hMV : K.AVP_FLAGS_MANDATORY &&& K.AVP_FLAGS_VENDOR = 0)
    (hw : A.wpabuf_alloc (8 + p.length + 4) = true) :
    ∃ flags k : Nat,
      eap_ttls_avp_encapsulate K A p c m =
        some ([c / 2 ^ 24 % 256, c / 2 ^ 16 % 256, c / 2 ^ 8 % 256, c % 256] ++ [flags] ++
          [(8 + p.length) / 2 ^ 16 % 256, (8 + p.length) / 2 ^ 8 % 256, (8 + p.length) % 256]
          ++ p ++ List.replicate k 0) ∧
      flags = (if m then K.AVP_FLAGS_MANDATORY else 0) ∧
      flags &&& K.AVP_FLAGS_VENDOR = 0 ∧
      k ≤ 3 ∧ (8 + p.length + k) % 4 = 0 := by
  refine ⟨if m then K.AVP_FLAGS_MANDATORY else 0, (4 - (8 + p.length) % 4) % 4, ?_, rfl, ?_,
    by omega, by omega⟩
  · rw [eap_ttls_avp_encapsulate_wire K A p c m hlen hw]
    unfold wire_avp.bytes wire_avp.body
    rw [encapsulated_avp_length]
    have hf : encapsulate_flags K m = if m then K.AVP_FLAGS_MANDATORY else 0 := by
      unfold encapsulate_flags
      cases m
      · rfl
      · exact Nat.mod_eq_of_lt hM
    have hf2 : (if m then K.AVP_FLAGS_MANDATORY else 0) < 256 := by
      cases m
      · simp
      · simpa using hM
    simp only [encapsulated_avp, hf, host_to_be32, List.append_nil, List.cons_append,
      List.nil_append, List.append_assoc]
    generalize (if m then K.AVP_FLAGS_MANDATORY else 0) = f at hf2
    have e1 : (f * 2 ^ 24 + (8 + p.length)) / 2 ^ 24 % 256 = f := by omega
    have e2 : (f * 2 ^ 24 + (8 + p.length)) / 2 ^ 16 % 256 = (8 + p.length) / 2 ^ 16 % 256 := by
      omega
    have e3 : (f * 2 ^ 24 + (8 + p.length)) / 2 ^ 8 % 256 = (8 + p.length) / 2 ^ 8 % 256 := by
      omega
    have e4 : (f * 2 ^ 24 + (8 + p.length)) % 256 = (8 + p.length) % 256 := by omega
    rw [e1, e2, e3, e4]
  · cases m
    · simp
    · simpa using hMV

/-- Witness of C8 with the hostapd constants: a 5-byte payload, code 79, mandatory. -/
theorem avp_encapsulate_layout_witness :
    8 + ([1, 2, 3, 4, 5] : List Nat).length < 2 ^ 24 ∧
    hostap_consts.AVP_FLAGS_MANDATORY < 256 ∧
    hostap_consts.AVP_FLAGS_MANDATORY &&& hostap_consts.AVP_FLAGS_VENDOR = 0 ∧
    allocator.total.wpabuf_alloc (8 + ([1, 2, 3, 4, 5] : List Nat).length + 4) = true ∧
    ∃ flags k : Nat,
      eap_ttls_avp_encapsulate hostap_consts allocator.total [1, 2, 3, 4, 5] 79 true =
        some ([79 / 2 ^ 24 % 256, 79 / 2 ^ 16 % 256, 79 / 2 ^ 8 % 256, 79 % 256] ++ [flags] ++
          [(8 + ([1, 2, 3, 4, 5] : List Nat).length) / 2 ^ 16 % 256,
            (8 + ([1, 2, 3, 4, 5] : List Nat).length) / 2 ^ 8 % 256,
            (8 + ([1, 2, 3, 4, 5] : List Nat).length) % 256]
          ++ [1, 2, 3, 4, 5] ++ List.replicate k 0) ∧
      flags = (if true = true then hostap_consts.AVP_FLAGS_MANDATORY else 0) ∧
      flags &&& hostap_consts.AVP_FLAGS_VENDOR = 0 ∧
      k ≤ 3 ∧ (8 + ([1, 2, 3, 4, 5] : List Nat).length + k) % 4 = 0 :=
  ⟨by decide, by decide, by decide, rfl,
    avp_encapsulate_layout hostap_consts allocator.total [1, 2, 3, 4, 5] 79 true (by decide)
      (by decide) (by decide) rfl⟩

/-- C2: (1) at every state the decoder goes through with bytes left to decode, if the
declared 24-bit length of the AVP at the current position is greater than the number
of bytes remaining in the buffer (`len - pos`), `eap_ttls_avp_parse` returns -1;
(2) in particular every buffer made of well-formed AVPs followed by a well-formed AVP
cut short inside its declared length (after `k` bytes, `0 < k < avp_length`) is
rejected with -1, whatever the memory holds after the buffer. -/
theorem avp_parse_overflow_rejected (K : ttls_consts) (A : allocator) :
    (∀ (buf : Nat → Nat) (len pos : Nat) (left : Int) (parse : eap_ttls_avp),
      avp_parse_reaches K A buf len pos left parse → left > 0 →
      (declared_length buf pos : Int) > (len : Int) - (pos : Int) →
      ∃ r, eap_ttls_avp_parse K A buf len = some r ∧ r.ret = -1) ∧
    (∀ (pre : List wire_avp) (a : wire_avp) (k : Nat) (junk : Nat → Nat),
      (∀ b ∈ pre, b.wf K) → a.wf K → 0 < k → k < a.avp_length →
      (wire_bytes pre).length + k < 2 ^ 31 →
      ∃ r, eap_ttls_avp_parse K A (buf_mem (wire_bytes pre ++ a.body.take k) junk)
        ((wire_bytes pre).length + k) = some r ∧ r.ret = -1) := by
  constructor
  · intro buf len pos left parse hr hl hd
    have hle := avp_parse_reaches_left_le K A buf len pos left parse hr
    exact avp_parse_reaches_fail K A buf len pos left parse hr hl
      (avp_parse_iter_overflow K A buf pos left parse (by omega))
  · intro pre a k junk hpre ha hk0 hk hlen
    have htl : (a.body.take k).length = k := by
      rw [List.length_take, wire_avp.body_length]; omega
    have hb : mem_holds (buf_mem (wire_bytes pre ++ a.body.take k) junk) 0
        (wire_bytes pre ++ a.body.take k) := by
      have := buf_mem_holds [] (wire_bytes pre ++ a.body.take k) [] junk
      simpa using this
    have hb2 : mem_holds (buf_mem (wire_bytes pre ++ a.body.take k) junk)
        (0 + (wire_bytes pre).length) (a.body.take k) :=
      ((mem_holds_append _ _ _ _).mp hb).2
    have hl := avp_parse_loop_wire K A _ pre ((wire_bytes pre).length + k) 0
      (size_t_to_int ((wire_bytes pre).length + k)) eap_ttls_avp.zero [] (a.body.take k)
      hpre hb (by rw [size_t_to_int_of_lt _ hlen, htl]; push_cast; rfl)
      (size_t_to_int_le _)
    obtain ⟨r, hr⟩ := eap_ttls_avp_parse_total K A
      (buf_mem (wire_bytes pre ++ a.body.take k) junk) ((wire_bytes pre).length + k)
    refine ⟨r, hr, ?_⟩
    unfold eap_ttls_avp_parse at hr
    rw [hr] at hl
    by_cases h0 : (wire_parse K A eap_ttls_avp.zero pre).1 = 0
    · rw [if_pos h0, htl] at hl
      have hfail : (avp_parse_iter K A (buf_mem (wire_bytes pre ++ a.body.take k) junk)
          (0 + (wire_bytes pre).length) (k : Int) (wire_parse K A eap_ttls_avp.zero pre).2).2
          = avp_parse_fail (wire_parse K A eap_ttls_avp.zero pre).2 := by
        by_cases h8 : k < 8
        · exact avp_parse_iter_short _ _ _ _ _ _ (by omega)
        · apply avp_parse_iter_overflow
          unfold declared_length
          rw [mem_holds_cut_word _ _ k a (by omega) (by omega) hb2,
            word_length _ _ ha.2.2.1]
          exact_mod_cast hk
      obtain ⟨r2, hr2, hret⟩ := avp_parse_loop_fail_ret K A
        (buf_mem (wire_bytes pre ++ a.body.take k) junk) ((wire_bytes pre).length + k)
        (0 + (wire_bytes pre).length) (k : Int) (wire_parse K A eap_ttls_avp.zero pre).2 []
        (by exact_mod_cast hk0) (by push_cast; omega) hfail
      rw [hr2] at hl
      simp only [Option.map_some', avp_parse_result.outcome, Option.some.injEq,
        Prod.mk.injEq] at hl
      rw [hl.1, hret]
    · rw [if_neg h0] at hl
      simp only [Option.map_some', avp_parse_result.outcome, Option.some.injEq] at hl
      have := wire_parse_ret K A pre eap_ttls_avp.zero
      rw [← hl] at this h0
      simp only at this h0
      rcases this with h | h
      · exact absurd h h0
      · exact h

/-- Witness of C2: a 9-byte buffer whose only AVP declares 12 bytes, and the same AVP
(an EAP-Message with 4 data bytes) cut after 9 bytes. -/
theorem avp_parse_overflow_rejected_witness :
    (avp_parse_reaches hostap_consts allocator.total
        (buf_mem [0, 0, 0, 79, 0, 0, 0, 12, 1] (fun _ => 0)) 9 0 (size_t_to_int 9)
        eap_ttls_avp.zero ∧
      size_t_to_int 9 > 0 ∧
      (declared_length (buf_mem [0, 0, 0, 79, 0, 0, 0, 12, 1] (fun _ => 0)) 0 : Int) >
        ((9 : Nat) : Int) - ((0 : Nat) : Int) ∧
      ∃ r, eap_ttls_avp_parse hostap_consts allocator.total
        (buf_mem [0, 0, 0, 79, 0, 0, 0, 12, 1] (fun _ => 0)) 9 = some r ∧ r.ret = -1) ∧
    ((∀ b ∈ ([] : List wire_avp), b.wf hostap_consts) ∧
      (⟨79, 0, none, [1, 2, 3, 4], []⟩ : wire_avp).wf hostap_consts ∧ 0 < 9 ∧
      9 < (⟨79, 0, none, [1, 2, 3, 4], []⟩ : wire_avp).avp_length ∧
      (wire_bytes []).length + 9 < 2 ^ 31 ∧
      ∃ r, eap_ttls_avp_parse hostap_consts allocator.total
        (buf_mem (wire_bytes [] ++ (⟨79, 0, none, [1, 2, 3, 4], []⟩ : wire_avp).body.take 9)
          (fun _ => 0)) ((wire_bytes []).length + 9) = some r ∧ r.ret = -1) :=
  ⟨⟨avp_parse_reaches.start, by decide, by decide,
    (avp_parse_overflow_rejected hostap_consts allocator.total).1 _ 9 0 _ _
      avp_parse_reaches.start (by decide) (by decide)⟩,
   ⟨by decide, by decide, by decide, by decide, by decide,
    (avp_parse_overflow_rejected hostap_consts allocator.total).2 []
      ⟨79, 0, none, [1, 2, 3, 4], []⟩ 9 (fun _ => 0) (by decide) (by decide) (by decide)
      (by decide) (by decide)⟩⟩

/-- C7: at every state the decoder goes through with bytes left to decode, if the AVP
at the current position declares a length smaller than the 8-byte standard header, or
has the vendor flag set and declares a length smaller than 12 bytes (no room for the
4-byte vendor id), `eap_ttls_avp_parse` returns -1. -/
theorem avp_parse_underflow_rejected (K : ttls_consts) (A : allocator) (buf : Nat → Nat)
    (len pos : Nat) (left : Int) (parse : eap_ttls_avp)
    (hr : avp_parse_reaches K A buf len pos left parse) (hl : left > 0)
    (h : declared_length buf pos < 8 ∨
      (declared_flags buf pos &&& K.AVP_FLAGS_VENDOR ≠ 0 ∧ declared_length buf pos < 12)) :
    ∃ r, eap_ttls_avp_parse K A buf len = some r ∧ r.ret = -1 :=
  avp_parse_reaches_fail K A buf len pos left parse hr hl
    (avp_parse_iter_underflow K A buf pos left parse h)

/-- Witness of C7: a 12-byte buffer whose AVP has the vendor flag set and declares 11
bytes. -/
theorem avp_parse_underflow_rejected_witness :
    avp_parse_reaches hostap_consts allocator.total
      (buf_mem [0, 0, 0, 79, 0x80, 0, 0, 11, 0, 0, 0, 0] (fun _ => 0)) 12 0
      (size_t_to_int 12) eap_ttls_avp.zero ∧
    size_t_to_int 12 > 0 ∧
    (declared_length (buf_mem [0, 0, 0, 79, 0x80, 0, 0, 11, 0, 0, 0, 0] (fun _ => 0)) 0 < 8 ∨
      (declared_flags (buf_mem [0, 0, 0, 79, 0x80, 0, 0, 11, 0, 0, 0, 0] (fun _ => 0)) 0 &&&
          hostap_consts.AVP_FLAGS_VENDOR ≠ 0 ∧
        declared_length (buf_mem [0, 0, 0, 79, 0x80, 0, 0, 11, 0, 0, 0, 0] (fun _ => 0)) 0
          < 12)) ∧
    ∃ r, eap_ttls_avp_parse hostap_consts allocator.total
      (buf_mem [0, 0, 0, 79, 0x80, 0, 0, 11, 0, 0, 0, 0] (fun _ => 0)) 12 = some r ∧
      r.ret = -1 :=
  ⟨avp_parse_reaches.start, by decide, by decide,
    avp_parse_underflow_rejected hostap_consts allocator.total _ 12 0 _ _
      avp_parse_reaches.start (by decide) (by decide)⟩

/-- C3 (the code departs from the claim): on a 1-byte buffer, whatever the byte, the
constants, the allocator and the memory after the buffer, `eap_ttls_avp_parse` reads
the 8 header bytes at offsets 0 to 7 before it rejects the buffer: offsets 1 to 7 lie
beyond the end of the buffer. -/
theorem avp_parse_reads_past_end (K : ttls_consts) (A : allocator) (b : Nat)
    (junk : Nat → Nat) :
    ∃ r, eap_ttls_avp_parse K A (buf_mem [b] junk) 1 = some r ∧ r.ret = -1 ∧
      r.reads = [0, 1, 2, 3, 4, 5, 6, 7] ∧ ¬ (∀ o ∈ r.reads, o < 1) := by
  have h1 : size_t_to_int 1 = 1 := by decide
  have hs := avp_parse_iter_short K A (buf_mem [b] junk) 0 1 eap_ttls_avp.zero (by decide)
  have hr : (avp_parse_iter K A (buf_mem [b] junk) 0 1 eap_ttls_avp.zero).1 =
      [0, 1, 2, 3, 4, 5, 6, 7] := by
    unfold avp_parse_iter
    simp only [and_ffffff, sizeof_ttls_avp]
    split_ifs with c1 c2 <;> first | rfl | (exfalso; omega)
  refine ⟨⟨-1, { eap_ttls_avp.zero with eap := none },
    [] ++ (avp_parse_iter K A (buf_mem [b] junk) 0 1 eap_ttls_avp.zero).1⟩, ?_, rfl, ?_, ?_⟩
  · unfold eap_ttls_avp_parse
    rw [h1]
    exact avp_parse_loop_fail K A _ 0 0 1 eap_ttls_avp.zero [] (by decide) _ hs
  · simp only [List.nil_append]
    exact hr
  · simp only [List.nil_append]
    rw [hr]
    decide

/-- C5: for every buffer made of well-formed AVPs, if some AVP has a (vendor id, code)
pair that is not one of the eight recognised attributes and has the mandatory flag
set, `eap_ttls_avp_parse` returns -1, whatever the other AVPs are. -/
theorem avp_parse_unknown_mandatory_rejected (K : ttls_consts) (A : allocator)
    (l : List wire_avp) (junk : Nat → Nat) (hw : ∀ a ∈ l, a.wf K)
    (hlen : (wire_bytes l).length < 2 ^ 31)
    (h : ∃ a ∈ l, ¬ avp_recognised K a.vendor_id a.code ∧ a.mandatory K) :
    ∃ r, eap_ttls_avp_parse K A (buf_mem (wire_bytes l) junk) (wire_bytes l).length = some r
      ∧ r.ret = -1 := by
  have hp := eap_ttls_avp_parse_wire K A l junk hw hlen
  obtain ⟨r, h1, h2, _⟩ := outcome_some _ _ _ hp
  exact ⟨r, h1, by rw [h2]; exact wire_parse_unknown_mandatory K A l h _⟩

/-- Witness of C5: a User-Name AVP, then an AVP with the unknown code 99 and the
mandatory flag, then an EAP-Message AVP. -/
theorem avp_parse_unknown_mandatory_rejected_witness :
    (∀ a ∈ ([⟨1, 0x40, none, [65], [0, 0, 0]⟩, ⟨99, 0x40, none, [], []⟩,
        ⟨79, 0x40, none, [1, 2, 3, 4], []⟩] : List wire_avp), a.wf hostap_consts) ∧
    (wire_bytes [⟨1, 0x40, none, [65], [0, 0, 0]⟩, ⟨99, 0x40, none, [], []⟩,
        ⟨79, 0x40, none, [1, 2, 3, 4], []⟩]).length < 2 ^ 31 ∧
    (∃ a ∈ ([⟨1, 0x40, none, [65], [0, 0, 0]⟩, ⟨99, 0x40, none, [], []⟩,
        ⟨79, 0x40, none, [1, 2, 3, 4], []⟩] : List wire_avp),
      ¬ avp_recognised hostap_consts a.vendor_id a.code ∧ a.mandatory hostap_consts) ∧
    ∃ r, eap_ttls_avp_parse hostap_consts allocator.total
      (buf_mem (wire_bytes [⟨1, 0x40, none, [65], [0, 0, 0]⟩, ⟨99, 0x40, none, [], []⟩,
        ⟨79, 0x40, none, [1, 2, 3, 4], []⟩]) (fun _ => 0))
      (wire_bytes [⟨1, 0x40, none, [65], [0, 0, 0]⟩, ⟨99, 0x40, none, [], []⟩,
        ⟨79, 0x40, none, [1, 2, 3, 4], []⟩]).length = some r ∧ r.ret = -1 :=
  ⟨by decide, by decide, by decide,
    avp_parse_unknown_mandatory_rejected hostap_consts allocator.total _ (fun _ => 0)
      (by decide) (by decide) (by decide)⟩

/-- C6: for every well-formed padded AVP `a` whose (vendor id, code) pair is
unrecognised and whose mandatory flag is clear, every prefix `pre` made of well-formed
padded AVPs and every remainder `rest` (any bytes), `eap_ttls_avp_parse` on
`pre ++ a ++ rest` and on `pre ++ rest` both return, with the same returned value and
the same parsed set: the unknown AVP is ignored and what follows it is still parsed. -/
theorem avp_parse_unknown_optional_ignored (K : ttls_consts) (A : allocator)
    (pre : List wire_avp) (a : wire_avp) (rest : List Nat) (junk1 junk2 : Nat → Nat)
    (hpre : ∀ b ∈ pre, b.wf K) (ha : a.wf K)
    (hu : ¬ avp_recognised K a.vendor_id a.code) (hm : ¬ a.mandatory K)
    (hlen : (wire_bytes pre ++ a.bytes ++ rest).length < 2 ^ 31) :
    ∃ r1 r2,
      eap_ttls_avp_parse K A (buf_mem (wire_bytes pre ++ a.bytes ++ rest) junk1)
        (wire_bytes pre ++ a.bytes ++ rest).length = some r1 ∧
      eap_ttls_avp_parse K A (buf_mem (wire_bytes pre ++ rest) junk2)
        (wire_bytes pre ++ rest).length = some r2 ∧
      r1.ret = r2.ret ∧ r1.parse = r2.parse := by
  obtain ⟨r1, hr1⟩ := eap_ttls_avp_parse_total K A
    (buf_mem (wire_bytes pre ++ a.bytes ++ rest) junk1) (wire_bytes pre ++ a.bytes ++ rest).length
  obtain ⟨r2, hr2⟩ := eap_ttls_avp_parse_total K A
    (buf_mem (wire_bytes pre ++ rest) junk2) (wire_bytes pre ++ rest).length
  have hwb : wire_bytes (pre ++ [a]) = wire_bytes pre ++ a.bytes := by
    rw [wire_bytes_append, wire_bytes_cons, wire_bytes_nil, List.append_nil]
  have hlen1 : (wire_bytes pre ++ a.bytes ++ rest).length =
      (wire_bytes pre).length + a.bytes.length + rest.length := by
    simp only [List.length_append]
  have hlen2 : (wire_bytes pre ++ rest).length = (wire_bytes pre).length + rest.length := by
    simp only [List.length_append]
  have h1 := avp_parse_loop_wire K A (buf_mem (wire_bytes pre ++ a.bytes ++ rest) junk1)
    (pre ++ [a]) (wire_bytes pre ++ a.bytes ++ rest).length 0
    (size_t_to_int (wire_bytes pre ++ a.bytes ++ rest).length) eap_ttls_avp.zero [] rest
    (by
      intro b hb
      rcases List.mem_append.mp hb with hb | hb
      · exact hpre b hb
      · rw [List.mem_singleton] at hb; rw [hb]; exact ha)
    (by rw [hwb]; exact buf_mem_holds_all _ _)
    (by rw [size_t_to_int_of_lt _ hlen, hwb, hlen1]; push_cast; simp only [List.length_append]; push_cast; rfl)
    (size_t_to_int_le _)
  have h2 := avp_parse_loop_wire K A (buf_mem (wire_bytes pre ++ rest) junk2)
    pre (wire_bytes pre ++ rest).length 0
    (size_t_to_int (wire_bytes pre ++ rest).length) eap_ttls_avp.zero [] rest hpre
    (buf_mem_holds_all _ _)
    (by rw [size_t_to_int_of_lt _ (by rw [hlen1] at hlen; rw [hlen2]; omega), hlen2]; push_cast; rfl)
    (size_t_to_int_le _)
  rw [wire_parse_append_unknown K A pre a hu hm] at h1
  unfold eap_ttls_avp_parse at hr1 hr2
  rw [hr1] at h1
  rw [hr2] at h2
  have hc := avp_parse_loop_congr K A (buf_mem (wire_bytes pre ++ a.bytes ++ rest) junk1)
    (buf_mem (wire_bytes pre ++ rest) junk2) (wire_bytes pre ++ a.bytes ++ rest).length
    (wire_bytes pre ++ rest).length (0 + (wire_bytes (pre ++ [a])).length)
    (0 + (wire_bytes pre).length) (rest.length : Int)
    (wire_parse K A eap_ttls_avp.zero pre).2 [] []
    (by rw [hlen1]; push_cast; omega) (by rw [hlen2]; push_cast; omega)
    (by
      intro i hi
      have hi2 : i < rest.length := by exact_mod_cast hi
      have e1 := buf_mem_holds (wire_bytes pre ++ a.bytes) rest [] junk1 i hi2
      have e2 := buf_mem_holds (wire_bytes pre) rest [] junk2 i hi2
      simp only [List.append_nil] at e1 e2
      rw [hwb, Nat.zero_add, Nat.zero_add, e1, e2])
  have heq : (some r1).map avp_parse_result.outcome = (some r2).map avp_parse_result.outcome := by
    rw [h1, h2]
    split_ifs
    · exact hc
    · rfl
  simp only [Option.map_some', avp_parse_result.outcome, Option.some.injEq,
    Prod.mk.injEq] at heq
  unfold eap_ttls_avp_parse
  exact ⟨r1, r2, hr1, hr2, heq.1, heq.2⟩

/-- Witness of C6: an unknown optional AVP (code 99) between a User-Name AVP and an
EAP-Message AVP. -/
theorem avp_parse_unknown_optional_ignored_witness :
    (∀ b ∈ ([⟨1, 0x40, none, [65], [0, 0, 0]⟩] : List wire_avp), b.wf hostap_consts) ∧
    (⟨99, 0, none, [7, 7], [0, 0]⟩ : wire_avp).wf hostap_consts ∧
    ¬ avp_recognised hostap_consts (⟨99, 0, none, [7, 7], [0, 0]⟩ : wire_avp).vendor_id
      (⟨99, 0, none, [7, 7], [0, 0]⟩ : wire_avp).code ∧
    ¬ (⟨99, 0, none, [7, 7], [0, 0]⟩ : wire_avp).mandatory hostap_consts ∧
    (wire_bytes [⟨1, 0x40, none, [65], [0, 0, 0]⟩] ++
      (⟨99, 0, none, [7, 7], [0, 0]⟩ : wire_avp).bytes ++
      [0, 0, 0, 79, 0x40, 0, 0, 10, 1, 2, 0, 0]).length < 2 ^ 31 ∧
    ∃ r1 r2,
      eap_ttls_avp_parse hostap_consts allocator.total
        (buf_mem (wire_bytes [⟨1, 0x40, none, [65], [0, 0, 0]⟩] ++
          (⟨99, 0, none, [7, 7], [0, 0]⟩ : wire_avp).bytes ++
          [0, 0, 0, 79, 0x40, 0, 0, 10, 1, 2, 0, 0]) (fun _ => 0))
        (wire_bytes [⟨1, 0x40, none, [65], [0, 0, 0]⟩] ++
          (⟨99, 0, none, [7, 7], [0, 0]⟩ : wire_avp).bytes ++
          [0, 0, 0, 79, 0x40, 0, 0, 10, 1, 2, 0, 0]).length = some r1 ∧
      eap_ttls_avp_parse hostap_consts allocator.total
        (buf_mem (wire_bytes [⟨1, 0x40, none, [65], [0, 0, 0]⟩] ++
          [0, 0, 0, 79, 0x40, 0, 0, 10, 1, 2, 0, 0]) (fun _ => 1))
        (wire_bytes [⟨1, 0x40, none, [65], [0, 0, 0]⟩] ++
          [0, 0, 0, 79, 0x40, 0, 0, 10, 1, 2, 0, 0]).length = some r2 ∧
      r1.ret = r2.ret ∧ r1.parse = r2.parse :=
  ⟨by decide, by decide, by decide, by decide, by decide,
    avp_parse_unknown_optional_ignored hostap_consts allocator.total
      [⟨1, 0x40, none, [65], [0, 0, 0]⟩] ⟨99, 0, none, [7, 7], [0, 0]⟩
      [0, 0, 0, 79, 0x40, 0, 0, 10, 1, 2, 0, 0] (fun _ => 0) (fun _ => 1)
      (by decide) (by decide) (by decide) (by decide) (by decide)⟩

/-- C4: for every buffer made of well-formed AVPs of which at least one is an
EAP-Message AVP (the others being any well-formed AVPs, in any interleaving), a
successful `eap_ttls_avp_parse` yields a single inner-EAP payload equal to the
concatenation, in arrival order, of the payloads of the EAP-Message AVPs; its length
is the sum of the payload lengths (`N1 + N2` for two AVPs of `N1` and `N2` bytes). -/
theorem avp_parse_eap_concat (K : ttls_consts) (A : allocator) (l : List wire_avp)
    (junk : Nat → Nat) (r : avp_parse_result) (hw : ∀ a ∈ l, a.wf K)
    (hlen : (wire_bytes l).length < 2 ^ 31) (hex : ∃ a ∈ l, a.is_eap_message K)
    (hr : eap_ttls_avp_parse K A (buf_mem (wire_bytes l) junk) (wire_bytes l).length = some r)
    (h0 : r.ret = 0) :
    r.parse.eap = some (eap_payloads K l) ∧
    (eap_payloads K l).length =
      ((l.filter (fun a => decide (a.is_eap_message K))).map (fun a => a.data.length)).sum := by
  refine ⟨?_, eap_payloads_length K l⟩
  have hp := eap_ttls_avp_parse_wire K A l junk hw hlen
  rw [hr] at hp
  simp only [Option.map_some', avp_parse_result.outcome, Option.some.injEq] at hp
  have h1 : (wire_parse K A eap_ttls_avp.zero l).1 = 0 := by rw [← hp]; exact h0
  have h2 := wire_parse_eap K A l eap_ttls_avp.zero h1
  rw [← hp] at h2
  simp only at h2
  rw [h2]
  simp only [eap_ttls_avp.zero, if_pos hex]

/-- Witness of C4: EAP-Message AVPs of 3 and 2 bytes with a User-Name AVP in between
give the 5-byte inner-EAP payload `1 2 3 4 5`. -/
theorem avp_parse_eap_concat_witness :
    (∀ a ∈ sample_eap_avps, a.wf hostap_consts) ∧
    (wire_bytes sample_eap_avps).length < 2 ^ 31 ∧
    (∃ a ∈ sample_eap_avps, a.is_eap_message hostap_consts) ∧
    eap_ttls_avp_parse hostap_consts allocator.total
      (buf_mem (wire_bytes sample_eap_avps) (fun _ => 0))
      (wire_bytes sample_eap_avps).length = some sample_eap_result ∧
    sample_eap_result.ret = 0 ∧
    sample_eap_result.parse.eap = some (eap_payloads hostap_consts sample_eap_avps) ∧
    (eap_payloads hostap_consts sample_eap_avps).length =
      ((sample_eap_avps.filter (fun a => decide (a.is_eap_message hostap_consts))).map
        (fun a => a.data.length)).sum ∧
    eap_payloads hostap_consts sample_eap_avps = [1, 2, 3, 4, 5] :=
  ⟨by decide, by decide, by decide, by decide, by decide,
    (avp_parse_eap_concat hostap_consts allocator.total sample_eap_avps (fun _ => 0)
      sample_eap_result (by decide) (by decide) (by decide) (by decide) (by decide)).1,
    (avp_parse_eap_concat hostap_consts allocator.total sample_eap_avps (fun _ => 0)
      sample_eap_result (by decide) (by decide) (by decide) (by decide) (by decide)).2,
    by decide⟩

/-- C9: for every User-Password AVP with data `d` in a buffer of well-formed AVPs that
is decoded successfully (no later User-Password AVP replacing it), the parsed
`user_password` is present and is `d` with all trailing zero bytes removed: `d` is
the password followed by zero bytes only, and the password is empty or ends in a
non-zero byte (zero bytes in the interior are kept); an all-zero or empty `d` gives a
password that is present with length 0. The constants are any values for which the
User-Password code differs from the EAP-Message and User-Name codes. -/
theorem avp_parse_user_password (K : ttls_consts) (A : allocator) (pre post : List wire_avp)
    (a : wire_avp) (junk : Nat → Nat) (r : avp_parse_result)
    (hw : ∀ b ∈ pre ++ a :: post, b.wf K)
    (hlen : (wire_bytes (pre ++ a :: post)).length < 2 ^ 31)
    (hne1 : K.RADIUS_ATTR_USER_PASSWORD ≠ K.RADIUS_ATTR_EAP_MESSAGE)
    (hne2 : K.RADIUS_ATTR_USER_PASSWORD ≠ K.RADIUS_ATTR_USER_NAME)
    (ha : a.vendor_id = 0 ∧ a.code = K.RADIUS_ATTR_USER_PASSWORD)
    (hpost : ∀ b ∈ post, ¬ (b.vendor_id = 0 ∧ b.code = K.RADIUS_ATTR_USER_PASSWORD))
    (hr : eap_ttls_avp_parse K A (buf_mem (wire_bytes (pre ++ a :: post)) junk)
      (wire_bytes (pre ++ a :: post)).length = some r)
    (h0 : r.ret = 0) :
    ∃ pw k, r.parse.user_password = some pw ∧ a.data = pw ++ List.replicate k 0 ∧
      (∀ x, pw.getLast? = some x → x ≠ 0) ∧ ((∀ x ∈ a.data, x = 0) → pw = []) := by
  have hp := eap_ttls_avp_parse_wire K A (pre ++ a :: post) junk hw hlen
  rw [hr] at hp
  simp only [Option.map_some', avp_parse_result.outcome, Option.some.injEq] at hp
  have h1 : (wire_parse K A eap_ttls_avp.zero (pre ++ a :: post)).1 = 0 := by
    rw [← hp]; exact h0
  have h2 : r.parse = (wire_parse K A eap_ttls_avp.zero (pre ++ a :: post)).2 := by
    rw [← hp]
  rw [wire_parse_append] at h1 h2
  by_cases hpre : (wire_parse K A eap_ttls_avp.zero pre).1 = 0
  · rw [if_pos hpre, wire_parse_cons,
      avp_parse_attr_password K A _ _ _ _ _ ha hne1 hne2] at h1 h2
    simp only at h1 h2
    have h3 := wire_parse_keeps_password K A post hpost _ h1
    rw [← h2] at h3
    obtain ⟨k, hk1, hk2, hk3⟩ := password_strip_take a.data
    exact ⟨_, k, h3, hk1, hk2, hk3⟩
  · rw [if_neg hpre] at h1
    exact absurd h1 hpre

/-- Witness of C9: the data `p 0 w 0 0 0 0 0` gives the password `p 0 w`. -/
theorem avp_parse_user_password_witness :
    (∀ b ∈ [⟨1, 0x40, none, [65], [0, 0, 0]⟩] ++
      sample_password_avp :: [⟨79, 0, none, [4, 5], [0, 0]⟩], b.wf hostap_consts) ∧
    (wire_bytes ([⟨1, 0x40, none, [65], [0, 0, 0]⟩] ++
      sample_password_avp :: [⟨79, 0, none, [4, 5], [0, 0]⟩])).length < 2 ^ 31 ∧
    hostap_consts.RADIUS_ATTR_USER_PASSWORD ≠ hostap_consts.RADIUS_ATTR_EAP_MESSAGE ∧
    hostap_consts.RADIUS_ATTR_USER_PASSWORD ≠ hostap_consts.RADIUS_ATTR_USER_NAME ∧
    (sample_password_avp.vendor_id = 0 ∧
      sample_password_avp.code = hostap_consts.RADIUS_ATTR_USER_PASSWORD) ∧
    (∀ b ∈ ([⟨79, 0, none, [4, 5], [0, 0]⟩] : List wire_avp),
      ¬ (b.vendor_id = 0 ∧ b.code = hostap_consts.RADIUS_ATTR_USER_PASSWORD)) ∧
    eap_ttls_avp_parse hostap_consts allocator.total
      (buf_mem (wire_bytes ([⟨1, 0x40, none, [65], [0, 0, 0]⟩] ++
        sample_password_avp :: [⟨79, 0, none, [4, 5], [0, 0]⟩])) (fun _ => 0))
      (wire_bytes ([⟨1, 0x40, none, [65], [0, 0, 0]⟩] ++
        sample_password_avp :: [⟨79, 0, none, [4, 5], [0, 0]⟩])).length =
      some sample_password_result ∧
    sample_password_result.ret = 0 ∧
    sample_password_result.parse.user_password = some [112, 0, 119] ∧
    ∃ pw k, sample_password_result.parse.user_password = some pw ∧
      sample_password_avp.data = pw ++ List.replicate k 0 ∧
      (∀ x, pw.getLast? = some x → x ≠ 0) ∧
      ((∀ x ∈ sample_password_avp.data, x = 0) → pw = []) :=
  ⟨by decide, by decide, by decide, by decide, by decide, by decide, by decide, by decide,
    by decide,
    avp_parse_user_password hostap_consts allocator.total
      [⟨1, 0x40, none, [65], [0, 0, 0]⟩] [⟨79, 0, none, [4, 5], [0, 0]⟩]
      sample_password_avp (fun _ => 0) sample_password_result
      (by decide) (by decide) (by decide) (by decide) (by decide) (by decide)
      (by decide) (by decide)⟩

/-- C10: for every successfully parsed AVP set (no pending inner-EAP response, the
decryption buffer allocated, decryption successful, state other than
`PHASE_FINISHED`, `eap_ttls_avp_parse` returning 0 with parsed set `p.parse`),
`eap_ttls_process_phase2` calls at most one handler, and a handler that is called is
the first match in the order inner-EAP payload, User-Password (PAP), CHAP-Password
(CHAP), MS-CHAP-Response (MS-CHAP), MS-CHAP2-Response (MS-CHAPv2): its field is
present and every field earlier in that order is absent. When nothing ends the pass
before the dispatch (no User-Name AVP, no TNC failure), no handler is called only if
the five fields are all absent. -/
theorem phase2_dispatch_first_match {U : Type} (K : ttls_consts) (A : allocator)
    (E : phase2_env U) (sm : eap_sm U) (data : eap_ttls_data) (in_buf : List Nat)
    (p : avp_parse_result)
    (hpend : data.pending_phase2_eap_resp = none)
    (halloc : A.os_malloc ((in_buf.length + 500) * 3) = true)
    (hdec : 0 ≤ (E.tls_connection_decrypt in_buf ((in_buf.length + 500) * 3)).1)
    (hst : data.state ≠ .PHASE_FINISHED)
    (hp : eap_ttls_avp_parse K A
      (E.tls_connection_decrypt in_buf ((in_buf.length + 500) * 3)).2
      (E.tls_connection_decrypt in_buf ((in_buf.length + 500) * 3)).1.toNat = some p)
    (hret : p.ret = 0) :
    (eap_ttls_process_phase2 K A E sm data in_buf).calls.length ≤ 1 ∧
    (∀ c ∈ (eap_ttls_process_phase2 K A E sm data in_buf).calls, c.first_match p.parse) ∧
    (p.parse.user_name = none →
      ¬ (K.EAP_SERVER_TNC = true ∧ data.tnc_started ≠ 0 ∧ p.parse.eap = none) →
      ((eap_ttls_process_phase2 K A E sm data in_buf).calls = [] ↔
        (p.parse.eap = none ∧ p.parse.user_password = none ∧ p.parse.chap_password = none ∧
          p.parse.mschap_response = none ∧ p.parse.mschap2_response = none))) := by
  rw [eap_ttls_process_phase2_parsed K A E sm data in_buf p hpend halloc hdec hst hp hret]
  refine ⟨?_, ?_, ?_⟩
  · rcases phase2_after_parse_calls K A E sm data p.parse with h | ⟨sm1, h⟩
    · rw [h]; exact Nat.zero_le _
    · rw [h]; exact (phase2_dispatch_calls E sm1 data p.parse).1
  · rcases phase2_after_parse_calls K A E sm data p.parse with h | ⟨sm1, h⟩
    · rw [h]; intro c hc; cases hc
    · rw [h]; exact (phase2_dispatch_calls E sm1 data p.parse).2.1
  · intro hu ht
    rw [phase2_after_parse_direct K A E sm data p.parse hu ht]
    exact (phase2_dispatch_calls E sm data p.parse).2.2

/-- Witness of C10: with a User-Password and a CHAP-Password AVP in the decrypted
buffer, the only handler called is PAP, with the password `p w`. -/
theorem phase2_dispatch_first_match_witness :
    sample_session.pending_phase2_eap_resp = none ∧
    allocator.total.os_malloc ((([7] : List Nat).length + 500) * 3) = true ∧
    0 ≤ (sample_env.tls_connection_decrypt [7] ((([7] : List Nat).length + 500) * 3)).1 ∧
    sample_session.state ≠ .PHASE_FINISHED ∧
    eap_ttls_avp_parse hostap_consts allocator.total
      (sample_env.tls_connection_decrypt [7] ((([7] : List Nat).length + 500) * 3)).2
      (sample_env.tls_connection_decrypt [7] ((([7] : List Nat).length + 500) * 3)).1.toNat
      = some sample_phase2_parse ∧
    sample_phase2_parse.ret = 0 ∧
    (eap_ttls_process_phase2 hostap_consts allocator.total sample_env ⟨none, 0, none, 0, 0, 0⟩
      sample_session [7]).calls = [.pap [112, 119]] ∧
    (eap_ttls_process_phase2 hostap_consts allocator.total sample_env ⟨none, 0, none, 0, 0, 0⟩
      sample_session [7]).calls.length ≤ 1 ∧
    (∀ c ∈ (eap_ttls_process_phase2 hostap_consts allocator.total sample_env ⟨none, 0, none, 0, 0, 0⟩
      sample_session [7]).calls, c.first_match sample_phase2_parse.parse) :=
  ⟨rfl, rfl, by decide, by decide, by decide, by decide, by decide,
    (phase2_dispatch_first_match hostap_consts allocator.total sample_env ⟨none, 0, none, 0, 0, 0⟩
      sample_session [7] sample_phase2_parse rfl rfl (by decide) (by decide) (by decide)
      (by decide)).1,
    (phase2_dispatch_first_match hostap_consts allocator.total sample_env ⟨none, 0, none, 0, 0, 0⟩
      sample_session [7] sample_phase2_parse rfl rfl (by decide) (by decide) (by decide)
      (by decide)).2.1⟩

/-- C11: for every session, `eap_ttls_isDone` returns true iff the state is `SUCCESS` or
`FAILURE`, and `eap_ttls_isSuccess` returns true iff the state is `SUCCESS`; hence
`isSuccess` implies `isDone`, and neither holds in `START`, `PHASE1`, `PHASE2_START`,
`PHASE2_METHOD`, `PHASE2_MSCHAPV2_RESP` or `PHASE_FINISHED`. -/
theorem isDone_isSuccess_spec (data : eap_ttls_data) :
    (eap_ttls_isDone data = true ↔ (data.state = .SUCCESS ∨ data.state = .FAILURE)) ∧
    (eap_ttls_isSuccess data = true ↔ data.state = .SUCCESS) ∧
    (eap_ttls_isSuccess data = true → eap_ttls_isDone data = true) ∧
    ((data.state = .START ∨ data.state = .PHASE1 ∨ data.state = .PHASE2_START ∨
        data.state = .PHASE2_METHOD ∨ data.state = .PHASE2_MSCHAPV2_RESP ∨
        data.state = .PHASE_FINISHED) →
      eap_ttls_isDone data = false ∧ eap_ttls_isSuccess data = false) := by
  unfold eap_ttls_isDone eap_ttls_isSuccess
  cases data.state <;> simp

/-- Witness of C11: a session in `PHASE2_START` is neither done nor successful. -/
theorem isDone_isSuccess_spec_witness :
    (sample_session.state = .START ∨ sample_session.state = .PHASE1 ∨
      sample_session.state = .PHASE2_START ∨ sample_session.state = .PHASE2_METHOD ∨
      sample_session.state = .PHASE2_MSCHAPV2_RESP ∨
      sample_session.state = .PHASE_FINISHED) ∧
    eap_ttls_isDone sample_session = false ∧ eap_ttls_isSuccess sample_session = false ∧
    eap_ttls_isDone sample_success_v0 = true ∧ eap_ttls_isSuccess sample_success_v0 = true :=
  ⟨by decide, ((isDone_isSuccess_spec sample_session).2.2.2 (by decide)).1,
    ((isDone_isSuccess_spec sample_session).2.2.2 (by decide)).2,
    (isDone_isSuccess_spec sample_success_v0).1.mpr (by decide),
    (isDone_isSuccess_spec sample_success_v0).2.1.mpr (by decide)⟩

/-- C12: for every session whose state is not `SUCCESS`, `eap_ttls_getKey` returns NULL,
stores no length, and calls neither the base nor the extended key derivation. -/
theorem getKey_not_success (K : ttls_consts) (A : allocator) (X : ext_env)
    (data : eap_ttls_data) (h : data.state ≠ .SUCCESS) :
    (eap_ttls_getKey K A X data).eapKeyData = none ∧
    (eap_ttls_getKey K A X data).len = none ∧
    (eap_ttls_getKey K A X data).events = [] := by
  unfold eap_ttls_getKey
  rw [if_pos h]
  exact ⟨rfl, rfl, rfl⟩

/-- Witness of C12: a session in `PHASE2_START`. -/
theorem getKey_not_success_witness :
    sample_session.state ≠ .SUCCESS ∧
    (eap_ttls_getKey hostap_consts allocator.total sample_ext sample_session).eapKeyData
      = none ∧
    (eap_ttls_getKey hostap_consts allocator.total sample_ext sample_session).len = none ∧
    (eap_ttls_getKey hostap_consts allocator.total sample_ext sample_session).events = [] :=
  ⟨by decide, getKey_not_success hostap_consts allocator.total sample_ext sample_session
    (by decide)⟩

/-- C13 (the claim fails where the selected derivation fails): a session in state
`SUCCESS` under the extended protocol, with a TLS layer that has no inner secret, gets
NULL from `eap_ttls_getKey`, and no length. -/
theorem getKey_success_null :
    sample_success_v1.state = .SUCCESS ∧
    (eap_ttls_getKey hostap_consts allocator.total sample_ext_no_keys
      sample_success_v1).eapKeyData = none ∧
    (eap_ttls_getKey hostap_consts allocator.total sample_ext_no_keys
      sample_success_v1).len = none := by
  decide

/-- C13 as amended: for every session whose state is `SUCCESS`, `eap_ttls_getKey` calls
exactly one derivation, the base derivation labelled "ttls keying material" for
`EAP_TLS_KEY_LEN` bytes when the negotiated version is 0 and the extended (v1)
derivation otherwise, and returns what that derivation returns: when it is a key,
the length stored is `EAP_TLS_KEY_LEN`; when the derivation fails, NULL is returned
and no length is stored. -/
theorem getKey_success (K : ttls_consts) (A : allocator) (X : ext_env)
    (data : eap_ttls_data) (h : data.state = .SUCCESS) :
    (data.ttls_version = 0 →
      (eap_ttls_getKey K A X data).eapKeyData =
        X.eap_server_tls_derive_key label_ttls_keying_material K.EAP_TLS_KEY_LEN ∧
      (eap_ttls_getKey K A X data).events =
        [.eap_server_tls_derive_key label_ttls_keying_material K.EAP_TLS_KEY_LEN]) ∧
    (data.ttls_version ≠ 0 →
      (eap_ttls_getKey K A X data).eapKeyData = eap_ttls_v1_derive_key K A X ∧
      (eap_ttls_getKey K A X data).events = [.eap_ttls_v1_derive_key]) ∧
    (∀ key, (eap_ttls_getKey K A X data).eapKeyData = some key →
      (eap_ttls_getKey K A X data).len = some K.EAP_TLS_KEY_LEN) ∧
    ((eap_ttls_getKey K A X data).eapKeyData = none →
      (eap_ttls_getKey K A X data).len = none) ∧
    label_ttls_keying_material = "ttls keying material" := by
  unfold eap_ttls_getKey
  rw [if_neg (by rw [h]; decide)]
  refine ⟨?_, ?_, ?_, ?_, rfl⟩
  · intro hv
    simp only [hv, if_true]
    cases X.eap_server_tls_derive_key label_ttls_keying_material K.EAP_TLS_KEY_LEN <;>
      exact ⟨rfl, rfl⟩
  · intro hv
    simp only [hv, if_false]
    cases eap_ttls_v1_derive_key K A X <;> exact ⟨rfl, rfl⟩
  · intro key
    by_cases hv : data.ttls_version = 0
    · simp only [hv, if_true]
      cases X.eap_server_tls_derive_key label_ttls_keying_material K.EAP_TLS_KEY_LEN <;> simp
    · simp only [hv, if_false]
      cases eap_ttls_v1_derive_key K A X <;> simp
  · by_cases hv : data.ttls_version = 0
    · simp only [hv, if_true]
      cases X.eap_server_tls_derive_key label_ttls_keying_material K.EAP_TLS_KEY_LEN <;> simp
    · simp only [hv, if_false]
      cases eap_ttls_v1_derive_key K A X <;> simp

/-- Witness of C13 as amended: under the base protocol the sample collaborators give a
64-byte key and the length 64, through the base derivation. -/
theorem getKey_success_witness :
    sample_success_v0.state = .SUCCESS ∧ sample_success_v0.ttls_version = 0 ∧
    (eap_ttls_getKey hostap_consts allocator.total sample_ext sample_success_v0).eapKeyData =
      sample_ext.eap_server_tls_derive_key label_ttls_keying_material
        hostap_consts.EAP_TLS_KEY_LEN ∧
    (eap_ttls_getKey hostap_consts allocator.total sample_ext sample_success_v0).events =
      [.eap_server_tls_derive_key label_ttls_keying_material hostap_consts.EAP_TLS_KEY_LEN] ∧
    (eap_ttls_getKey hostap_consts allocator.total sample_ext sample_success_v0).eapKeyData =
      some (List.replicate 64 7) ∧
    (eap_ttls_getKey hostap_consts allocator.total sample_ext sample_success_v0).len =
      some hostap_consts.EAP_TLS_KEY_LEN :=
  ⟨by decide, by decide,
    ((getKey_success hostap_consts allocator.total sample_ext sample_success_v0
      (by decide)).1 (by decide)).1,
    ((getKey_success hostap_consts allocator.total sample_ext sample_success_v0
      (by decide)).1 (by decide)).2,
    by decide,
    (getKey_success hostap_consts allocator.total sample_ext sample_success_v0
      (by decide)).2.2.1 (List.replicate 64 7) (by decide)⟩

/-- C14: for every session and received password `w`, `eap_ttls_process_phase2_pap`
moves to the success state (`SUCCESS` when `ttls_version` is 0, `PHASE_FINISHED` when
it is greater than 0) if a user record exists with a stored credential that is
plaintext (not pre-hashed), PAP is permitted in the user's method bitmask and the
stored password equals `w` in length and content; in every other case the state
becomes `FAILURE` (so the success state is reached only in the first case). -/
theorem pap_accepts_iff (K : ttls_consts) (sm : eap_sm eap_user) (data : eap_ttls_data)
    (w : List Nat) :
    ((∃ user, sm.user = some user ∧ user.password = some w ∧ user.password_hash = 0 ∧
        user.ttls_auth &&& K.EAP_TTLS_AUTH_PAP ≠ 0) →
      (eap_ttls_process_phase2_pap K sm data w).state =
        (if data.ttls_version > 0 then .PHASE_FINISHED else .SUCCESS)) ∧
    (¬ (∃ user, sm.user = some user ∧ user.password = some w ∧ user.password_hash = 0 ∧
        user.ttls_auth &&& K.EAP_TTLS_AUTH_PAP ≠ 0) →
      (eap_ttls_process_phase2_pap K sm data w).state = .FAILURE) ∧
    ((eap_ttls_process_phase2_pap K sm data w).state =
        (if data.ttls_version > 0 then .PHASE_FINISHED else .SUCCESS) ↔
      (∃ user, sm.user = some user ∧ user.password = some w ∧ user.password_hash = 0 ∧
        user.ttls_auth &&& K.EAP_TTLS_AUTH_PAP ≠ 0)) := by
  have key : (∃ user, sm.user = some user ∧ user.password = some w ∧
        user.password_hash = 0 ∧ user.ttls_auth &&& K.EAP_TTLS_AUTH_PAP ≠ 0) ∧
      (eap_ttls_process_phase2_pap K sm data w).state =
        (if data.ttls_version > 0 then .PHASE_FINISHED else .SUCCESS) ∨
      ¬ (∃ user, sm.user = some user ∧ user.password = some w ∧
        user.password_hash = 0 ∧ user.ttls_auth &&& K.EAP_TTLS_AUTH_PAP ≠ 0) ∧
      (eap_ttls_process_phase2_pap K sm data w).state = .FAILURE := by
    cases hu : sm.user with
    | none =>
      right
      rw [pap_no_user K sm data w hu]
      exact ⟨(by rintro ⟨u, h, _⟩; cases h), rfl⟩
    | some user =>
      cases hp : user.password with
      | none =>
        right
        rw [pap_no_password K sm data w user hu hp]
        refine ⟨?_, rfl⟩
        rintro ⟨u, h, h2, _⟩
        simp only [Option.some.injEq] at h
        rw [← h, hp] at h2
        cases h2
      | some P =>
        rw [pap_with_password K sm data w user P hu hp]
        by_cases c1 : user.password_hash ≠ 0 ∨ user.ttls_auth &&& K.EAP_TTLS_AUTH_PAP = 0
        · rw [if_pos c1]
          right
          refine ⟨?_, rfl⟩
          rintro ⟨u, h, _, h3, h4⟩
          simp only [Option.some.injEq] at h
          rw [← h] at h3 h4
          rcases c1 with c1 | c1
          · exact c1 h3
          · exact h4 c1
        · rw [if_neg c1]
          simp only [not_or, not_not] at c1
          by_cases c2 : P.length ≠ w.length ∨ os_memcmp_eq P w w.length = false
          · rw [if_pos c2]
            right
            refine ⟨?_, rfl⟩
            rintro ⟨u, h, h2, _⟩
            simp only [Option.some.injEq] at h
            rw [← h, hp] at h2
            simp only [Option.some.injEq] at h2
            rcases c2 with c2 | c2
            · exact c2 (by rw [h2])
            · rw [os_memcmp_eq_false_iff] at c2
              exact c2 (by rw [h2])
          · rw [if_neg c2]
            simp only [not_or, not_not, Bool.not_eq_false] at c2
            left
            refine ⟨⟨user, rfl, ?_, c1.1, c1.2⟩, rfl⟩
            rw [hp, (os_memcmp_eq_same_length P w c2.1).mp c2.2]
  rcases key with ⟨h1, h2⟩ | ⟨h1, h2⟩
  · exact ⟨fun _ => h2, fun h => absurd h1 h, ⟨fun _ => h1, fun _ => h2⟩⟩
  · refine ⟨fun h => absurd h h1, fun _ => h2, ⟨fun h => ?_, fun h => absurd h h1⟩⟩
    rw [h2] at h
    exact absurd h.symm (success_state_ne_failure _)

/-- Witness of C14: the stored password `p w` is accepted, the password `p x` is not. -/
theorem pap_accepts_iff_witness :
    (∃ user, sample_sm.user = some user ∧ user.password = some [112, 119] ∧
      user.password_hash = 0 ∧
      user.ttls_auth &&& hostap_consts.EAP_TTLS_AUTH_PAP ≠ 0) ∧
    (eap_ttls_process_phase2_pap hostap_consts sample_sm sample_session [112, 119]).state =
      (if sample_session.ttls_version > 0 then .PHASE_FINISHED else .SUCCESS) ∧
    (eap_ttls_process_phase2_pap hostap_consts sample_sm sample_session [112, 119]).state =
      .SUCCESS ∧
    (eap_ttls_process_phase2_pap hostap_consts sample_sm sample_session [112, 120]).state =
      .FAILURE :=
  ⟨⟨sample_user, rfl, rfl, rfl, by decide⟩,
    (pap_accepts_iff hostap_consts sample_sm sample_session [112, 119]).1
      ⟨sample_user, rfl, rfl, rfl, by decide⟩,
    by decide,
    (pap_accepts_iff hostap_consts sample_sm sample_session [112, 120]).2.1
      (by
        rintro ⟨u, h, h2, _⟩
        have hu : u = sample_user := by
          have := h.symm
          simpa [sample_sm] using this
        rw [hu] at h2
        simp [sample_user] at h2)⟩

/-- C15: for every session in which the user has a plaintext password `P` with CHAP
permitted and the implicit-challenge derivation returns the 17 bytes `C ++ [I]` (`C`
of 16 bytes): given a CHAP-Challenge `c` and a CHAP-Password `w`,
`eap_ttls_process_phase2_chap` reaches the success state (`SUCCESS` for version 0,
`PHASE_FINISHED` for version > 0) if `|c| = 16`, `|w| = 17`, `c = C`, `w[0] = I` and
`w[1..17) = chap_md5 (I, P, C)`, and `FAILURE` otherwise. So `w = I ++ chap_md5 (I,
password, C)` is accepted exactly when the digest of the stored password is that
digest: when the stored password is that password, and not when its digest differs.
The length constants have the values 16 and `chap_md5` fills its 16-byte buffer. -/
theorem chap_accepts_iff (K : ttls_consts) (A : allocator) (X : ext_env)
    (sm : eap_sm eap_user) (data : eap_ttls_data) (c w : List Nat) (user : eap_user)
    (P C : List Nat) (I : Nat)
    (hK1 : K.EAP_TTLS_CHAP_CHALLENGE_LEN = 16) (hK2 : K.EAP_TTLS_CHAP_PASSWORD_LEN = 16)
    (hu : sm.user = some user) (hp : user.password = some P)
    (hh : user.password_hash = 0) (ha : user.ttls_auth &&& K.EAP_TTLS_AUTH_CHAP ≠ 0)
    (hC : C.length = 16)
    (hi : eap_ttls_implicit_challenge A X data 17 = some (C ++ [I]))
    (hmd5 : ∀ id secret challenge, (X.chap_md5 id secret challenge).length = 16) :
    ((c.length = 16 ∧ w.length = 17 ∧ c = C ∧ w.getD 0 0 = I ∧
        w.drop 1 = X.chap_md5 I P C) →
      (eap_ttls_process_phase2_chap K A X sm data (some c) (some w)).state =
        (if data.ttls_version > 0 then .PHASE_FINISHED else .SUCCESS)) ∧
    (¬ (c.length = 16 ∧ w.length = 17 ∧ c = C ∧ w.getD 0 0 = I ∧
        w.drop 1 = X.chap_md5 I P C) →
      (eap_ttls_process_phase2_chap K A X sm data (some c) (some w)).state = .FAILURE) ∧
    (∀ password : List Nat,
      ((eap_ttls_process_phase2_chap K A X sm data (some C)
          (some (I :: X.chap_md5 I password C))).state =
        (if data.ttls_version > 0 then .PHASE_FINISHED else .SUCCESS) ↔
        X.chap_md5 I password C = X.chap_md5 I P C)) := by
  have hi2 : eap_ttls_implicit_challenge A X data (K.EAP_TTLS_CHAP_CHALLENGE_LEN + 1) =
      some (C ++ [I]) := by rw [hK1]; exact hi
  have hget : (C ++ [I]).getD 16 0 = I := by
    rw [List.getD_append_right _ _ _ _ (by omega), hC]; rfl
  have htake : (C ++ [I]).take 16 = C := by
    rw [List.take_append_of_le_length (by omega), ← hC, List.take_length]
  have main : ∀ c w : List Nat,
      (c.length = 16 ∧ w.length = 17 ∧ c = C ∧ w.getD 0 0 = I ∧
          w.drop 1 = X.chap_md5 I P C) ∧
        (eap_ttls_process_phase2_chap K A X sm data (some c) (some w)).state =
          (if data.ttls_version > 0 then .PHASE_FINISHED else .SUCCESS) ∨
      ¬ (c.length = 16 ∧ w.length = 17 ∧ c = C ∧ w.getD 0 0 = I ∧
          w.drop 1 = X.chap_md5 I P C) ∧
        (eap_ttls_process_phase2_chap K A X sm data (some c) (some w)).state = .FAILURE := by
    intro c w
    by_cases hl : c.length = 16 ∧ w.length = 17
    · obtain ⟨hl1, hl2⟩ := hl
      rw [chap_checked K A X sm data c w user P (C ++ [I]) hu hp hh ha (by rw [hK1]; exact hl1)
        (by rw [hK2]; omega) hi2, hK1, hK2]
      have hct : c.take 16 = c := by rw [← hl1, List.take_length]
      have hwd : (w.drop 1).take 16 = w.drop 1 := by
        rw [List.take_of_length_le (by rw [List.length_drop]; omega)]
      by_cases c1 : os_memcmp_eq c (C ++ [I]) 16 = false ∨ w.getD 0 0 ≠ (C ++ [I]).getD 16 0
      · rw [if_pos c1]
        right
        refine ⟨?_, rfl⟩
        rintro ⟨_, _, h3, h4, _⟩
        rcases c1 with c1 | c1
        · rw [os_memcmp_eq_false_iff, hct, htake] at c1
          exact c1 h3
        · rw [hget] at c1
          exact c1 h4
      · rw [if_neg c1]
        simp only [not_or, not_not, Bool.not_eq_false] at c1
        obtain ⟨c1a, c1b⟩ := c1
        rw [os_memcmp_eq_iff, hct, htake] at c1a
        rw [hget] at c1b
        rw [c1a, c1b]
        by_cases c2 : os_memcmp_eq (X.chap_md5 I P C) (w.drop 1) 16 = true
        · rw [if_pos c2]
          left
          rw [os_memcmp_eq_iff, hwd, List.take_of_length_le (by rw [hmd5])] at c2
          exact ⟨⟨hC, hl2, rfl, rfl, c2.symm⟩, rfl⟩
        · rw [if_neg c2]
          right
          refine ⟨?_, rfl⟩
          rintro ⟨_, _, _, _, h5⟩
          apply c2
          rw [os_memcmp_eq_iff, h5]
    · right
      refine ⟨fun h => hl ⟨h.1, h.2.1⟩, ?_⟩
      rw [chap_bad_length K A X sm data c w (by rw [hK1, hK2]; omega)]
      rfl
  refine ⟨?_, ?_, ?_⟩
  · intro h
    rcases main c w with ⟨_, h2⟩ | ⟨h1, _⟩
    · exact h2
    · exact absurd h h1
  · intro h
    rcases main c w with ⟨h1, _⟩ | ⟨_, h2⟩
    · exact absurd h1 h
    · exact h2
  · intro password
    rcases main C (I :: X.chap_md5 I password C) with ⟨h1, h2⟩ | ⟨h1, h2⟩
    · refine ⟨fun _ => ?_, fun _ => h2⟩
      have := h1.2.2.2.2
      simpa using this
    · refine ⟨fun h => ?_, fun h => ?_⟩
      · rw [h2] at h
        exact absurd h.symm (success_state_ne_failure _)
      · exfalso
        apply h1
        refine ⟨hC, ?_, rfl, rfl, ?_⟩
        · simp [hmd5]
        · simpa using h

/-- Witness of C15: with the sample collaborators the implicit challenge is seventeen
bytes 7; the password field `7 ++ chap_md5 (7, p w, C)` is accepted. -/
theorem chap_accepts_iff_witness :
    hostap_consts.EAP_TTLS_CHAP_CHALLENGE_LEN = 16 ∧
    hostap_consts.EAP_TTLS_CHAP_PASSWORD_LEN = 16 ∧
    sample_sm.user = some sample_user ∧ sample_user.password = some [112, 119] ∧
    sample_user.password_hash = 0 ∧
    sample_user.ttls_auth &&& hostap_consts.EAP_TTLS_AUTH_CHAP ≠ 0 ∧
    (List.replicate 16 7).length = 16 ∧
    eap_ttls_implicit_challenge allocator.total sample_ext sample_session 17 =
      some (List.replicate 16 7 ++ [7]) ∧
    (∀ id secret challenge, (sample_ext.chap_md5 id secret challenge).length = 16) ∧
    ((List.replicate 16 7).length = 16 ∧
      (7 :: sample_ext.chap_md5 7 [112, 119] (List.replicate 16 7)).length = 17 ∧
      List.replicate 16 7 = List.replicate 16 7 ∧
      (7 :: sample_ext.chap_md5 7 [112, 119] (List.replicate 16 7)).getD 0 0 = 7 ∧
      (7 :: sample_ext.chap_md5 7 [112, 119] (List.replicate 16 7)).drop 1 =
        sample_ext.chap_md5 7 [112, 119] (List.replicate 16 7)) ∧
    (eap_ttls_process_phase2_chap hostap_consts allocator.total sample_ext sample_sm
      sample_session (some (List.replicate 16 7))
      (some (7 :: sample_ext.chap_md5 7 [112, 119] (List.replicate 16 7)))).state =
      (if sample_session.ttls_version > 0 then .PHASE_FINISHED else .SUCCESS) :=
  ⟨rfl, rfl, rfl, rfl, rfl, by decide, by decide, by decide,
    fun _ _ _ => List.length_replicate _ _, by decide,
    (chap_accepts_iff hostap_consts allocator.total sample_ext sample_sm sample_session
      (List.replicate 16 7) (7 :: sample_ext.chap_md5 7 [112, 119] (List.replicate 16 7))
      sample_user [112, 119] (List.replicate 16 7) 7 rfl rfl rfl rfl rfl (by decide)
      (by decide) (by decide) (fun _ _ _ => List.length_replicate _ _)).1 (by decide)⟩

/-- C16: for every session and every two MS-CHAP responses of the accepted length that
agree on byte 0 (identifier) and on the 24-byte NT sub-field at offsets 26..49, and
differ arbitrarily in the flags byte and the LM sub-field (offsets 1..25),
`eap_ttls_process_phase2_mschap` leaves the same session (in particular the same
state); when the attempt passes the attribute, credential and implicit-challenge
checks, the response is accepted (success state) iff the NT sub-field equals the NT
challenge-response computed from the stored (plaintext or pre-hashed) credential,
and the state is `FAILURE` otherwise: the LM sub-field never causes rejection. -/
theorem mschap_lm_ignored (K : ttls_consts) (A : allocator) (X : ext_env)
    (sm : eap_sm eap_user) (data : eap_ttls_data) (ch : Option (List Nat)) (r1 r2 : List Nat)
    (hlen1 : r1.length = K.EAP_TTLS_MSCHAP_RESPONSE_LEN)
    (hlen2 : r2.length = K.EAP_TTLS_MSCHAP_RESPONSE_LEN)
    (h0 : r1.getD 0 0 = r2.getD 0 0)
    (hnt : (r1.drop 26).take 24 = (r2.drop 26).take 24) :
    eap_ttls_process_phase2_mschap K A X sm data ch (some r1) =
      eap_ttls_process_phase2_mschap K A X sm data ch (some r2) ∧
    (∀ (c : List Nat) (user : eap_user) (P chal : List Nat),
      ch = some c → c.length = K.EAP_TTLS_MSCHAP_CHALLENGE_LEN →
      sm.user = some user → user.password = some P →
      user.ttls_auth &&& K.EAP_TTLS_AUTH_MSCHAP ≠ 0 →
      eap_ttls_implicit_challenge A X data (K.EAP_TTLS_MSCHAP_CHALLENGE_LEN + 1) =
        some chal →
      c.take K.EAP_TTLS_MSCHAP_CHALLENGE_LEN = chal.take K.EAP_TTLS_MSCHAP_CHALLENGE_LEN →
      r1.getD 0 0 = chal.getD K.EAP_TTLS_MSCHAP_CHALLENGE_LEN 0 →
      ((eap_ttls_process_phase2_mschap K A X sm data ch (some r1)).state =
          (if data.ttls_version > 0 then .PHASE_FINISHED else .SUCCESS) ↔
        (if user.password_hash ≠ 0 then X.challenge_response c P
          else X.nt_challenge_response c P).take 24 = (r1.drop 26).take 24) ∧
      ((if user.password_hash ≠ 0 then X.challenge_response c P
          else X.nt_challenge_response c P).take 24 ≠ (r1.drop 26).take 24 →
        (eap_ttls_process_phase2_mschap K A X sm data ch (some r1)).state = .FAILURE)) := by
  refine ⟨mschap_response_congr K A X sm data ch r1 r2 (by rw [hlen1, hlen2]) h0 hnt, ?_⟩
  intro c user P chal hch hl hu hp ha hi hm hid
  rw [hch, mschap_checked K A X sm data c r1 user P chal hu hp ha hl hlen1 hi
    ((os_memcmp_eq_iff _ _ _).mpr hm) hid]
  by_cases hc : os_memcmp_eq
      (if user.password_hash ≠ 0 then X.challenge_response c P
        else X.nt_challenge_response c P) (r1.drop 26) 24 = true
  · rw [if_pos hc]
    rw [os_memcmp_eq_iff] at hc
    exact ⟨⟨fun _ => hc, fun _ => rfl⟩, fun h => absurd hc h⟩
  · rw [if_neg hc]
    rw [os_memcmp_eq_iff] at hc
    refine ⟨⟨fun h => ?_, fun h => absurd h hc⟩, fun _ => rfl⟩
    exact absurd h.symm (success_state_ne_failure _)

/-- Witness of C16: two 50-byte responses with identifier 7 and the NT response of the
stored password, one with flags and LM bytes 0, the other with bytes 5: both are
accepted. -/
theorem mschap_lm_ignored_witness :
    (sample_response 0 231).length = hostap_consts.EAP_TTLS_MSCHAP_RESPONSE_LEN ∧
    (sample_response 5 231).length = hostap_consts.EAP_TTLS_MSCHAP_RESPONSE_LEN ∧
    (sample_response 0 231).getD 0 0 = (sample_response 5 231).getD 0 0 ∧
    ((sample_response 0 231).drop 26).take 24 = ((sample_response 5 231).drop 26).take 24 ∧
    sample_response 0 231 ≠ sample_response 5 231 ∧
    eap_ttls_process_phase2_mschap hostap_consts allocator.total sample_ext sample_sm
        sample_session (some (List.replicate 8 7)) (some (sample_response 0 231)) =
      eap_ttls_process_phase2_mschap hostap_consts allocator.total sample_ext sample_sm
        sample_session (some (List.replicate 8 7)) (some (sample_response 5 231)) ∧
    (eap_ttls_process_phase2_mschap hostap_consts allocator.total sample_ext sample_sm
        sample_session (some (List.replicate 8 7)) (some (sample_response 5 231))).state =
      .SUCCESS :=
  ⟨by decide, by decide, by decide, by decide, by decide,
    (mschap_lm_ignored hostap_consts allocator.total sample_ext sample_sm sample_session
      (some (List.replicate 8 7)) (sample_response 0 231) (sample_response 5 231)
      (by decide) (by decide) (by decide) (by decide)).1,
    by decide⟩

/-- C18 (the claim fails for a challenge mismatch): an MS-CHAPv2 attempt with the
required lengths, a permitted credential and a readable identity, whose received
challenge (sixteen bytes 0) differs from the derived implicit challenge (bytes 7), is
moved to `FAILURE` by `eap_ttls_process_phase2_mschapv2` itself. -/
theorem mschapv2_challenge_mismatch_fails :
    (List.replicate 16 0).length = hostap_consts.EAP_TTLS_MSCHAPV2_CHALLENGE_LEN ∧
    (sample_response 0 231).length = hostap_consts.EAP_TTLS_MSCHAPV2_RESPONSE_LEN ∧
    sample_sm.user = some sample_user ∧
    sample_user.ttls_auth &&& hostap_consts.EAP_TTLS_AUTH_MSCHAPV2 ≠ 0 ∧
    mschapv2_username sample_sm = some [117] ∧
    eap_ttls_implicit_challenge allocator.total sample_ext sample_session 17 =
      some (List.replicate 17 7) ∧
    List.replicate 16 0 ≠ (List.replicate 17 7).take 16 ∧
    (eap_ttls_process_phase2_mschapv2 hostap_consts allocator.total sample_ext sample_sm
      sample_session (some (List.replicate 16 0))
      (some (sample_response 0 231))).map (fun res => res.1.state) = some .FAILURE ∧
    (eap_ttls_process_phase2_mschapv2 hostap_consts allocator.total sample_ext sample_sm
      sample_session (some (List.replicate 16 0))
      (some (sample_response 0 231))).map (fun res => res.1.state) ≠
      some .PHASE2_MSCHAPV2_RESP :=
  ⟨by decide, by decide, rfl, by decide, by decide, by decide, by decide, by decide,
    by decide⟩

/-- C18 as amended: for every MS-CHAPv2 attempt with an identity that can be read
(`sm->identity` non-NULL, or `sm->identity_len` 0) that passes the attribute-length,
credential and implicit-challenge checks, the handler returns, and (1) if the NT
response does not match (bad password, response mismatch),
`eap_ttls_process_phase2_mschapv2` does not move the session to `FAILURE` itself: the
state after the handler is `PHASE2_MSCHAPV2_RESP` with the success flag clear, and
`FAILURE` is reached when the peer's acknowledgment is processed by
`eap_ttls_process_msg`, whatever its payload; (2) if the received challenge or
identifier byte does not match the implicit challenge, the handler moves the session
to `FAILURE` at once. -/
theorem mschapv2_failure_deferred (K : ttls_consts) (A : allocator) (X : ext_env)
    (sm : eap_sm eap_user) (data : eap_ttls_data) (c r : List Nat) (user : eap_user)
    (P chal name : List Nat)
    (hl1 : c.length = K.EAP_TTLS_MSCHAPV2_CHALLENGE_LEN)
    (hl2 : r.length = K.EAP_TTLS_MSCHAPV2_RESPONSE_LEN)
    (hu : sm.user = some user) (hp : user.password = some P)
    (ha : user.ttls_auth &&& K.EAP_TTLS_AUTH_MSCHAPV2 ≠ 0)
    (hn : mschapv2_username sm = some name)
    (hi : eap_ttls_implicit_challenge A X data (K.EAP_TTLS_MSCHAPV2_CHALLENGE_LEN + 1) =
      some chal) :
    ∃ res, eap_ttls_process_phase2_mschapv2 K A X sm data (some c) (some r) = some res ∧
      ((c.take K.EAP_TTLS_MSCHAPV2_CHALLENGE_LEN =
            chal.take K.EAP_TTLS_MSCHAPV2_CHALLENGE_LEN ∧
          r.getD 0 0 = chal.getD K.EAP_TTLS_MSCHAPV2_CHALLENGE_LEN 0 ∧
          (mschapv2_nt_response X P user.password_hash c
            ((r.drop 2).take K.EAP_TTLS_MSCHAPV2_CHALLENGE_LEN) name).take 24
            ≠ (r.drop (2 + K.EAP_TTLS_MSCHAPV2_CHALLENGE_LEN + 8)).take 24) →
        res.1.state = .PHASE2_MSCHAPV2_RESP ∧ res.1.mschapv2_resp_ok = 0 ∧
        ∀ (E : phase2_env eap_user) (M : msg_env eap_user) (sm2 : eap_sm eap_user)
          (in_buf : List Nat),
          (eap_ttls_process_msg K A E M sm2 res.1 in_buf).data.state = .FAILURE) ∧
      ((c.take K.EAP_TTLS_MSCHAPV2_CHALLENGE_LEN ≠
            chal.take K.EAP_TTLS_MSCHAPV2_CHALLENGE_LEN ∨
          r.getD 0 0 ≠ chal.getD K.EAP_TTLS_MSCHAPV2_CHALLENGE_LEN 0) →
        res.1.state = .FAILURE) := by
  by_cases hm : os_memcmp_eq c chal K.EAP_TTLS_MSCHAPV2_CHALLENGE_LEN = false ∨
      r.getD 0 0 ≠ chal.getD K.EAP_TTLS_MSCHAPV2_CHALLENGE_LEN 0
  · refine ⟨_, mschapv2_challenge_mismatch K A X sm data c r user P chal name hu hp ha hl1 hl2
      hn hi hm, ?_, fun _ => rfl⟩
    rintro ⟨h1, h2, _⟩
    rcases hm with hm | hm
    · exact absurd h1 ((os_memcmp_eq_false_iff _ _ _).mp hm)
    · exact absurd h2 hm
  · simp only [not_or, not_not, Bool.not_eq_false] at hm
    have hck := mschapv2_checked K A X sm data c r user P chal name hu hp ha hl1 hl2 hn hi
      hm.1 hm.2
    by_cases hnt : os_memcmp_eq
        (mschapv2_nt_response X P user.password_hash c
          ((r.drop 2).take K.EAP_TTLS_MSCHAPV2_CHALLENGE_LEN) name)
        (r.drop (2 + K.EAP_TTLS_MSCHAPV2_CHALLENGE_LEN + 8)) 24 = true
    · rw [if_pos hnt] at hck
      refine ⟨_, hck, ?_, ?_⟩
      · rintro ⟨_, _, h3⟩
        exact absurd ((os_memcmp_eq_iff _ _ _).mp hnt) h3
      · intro h
        rcases h with h | h
        · exact absurd ((os_memcmp_eq_iff _ _ _).mp hm.1) h
        · exact absurd hm.2 h
    · rw [if_neg hnt] at hck
      refine ⟨_, hck, ?_, ?_⟩
      · intro _
        refine ⟨rfl, rfl, ?_⟩
        intro E M sm2 in_buf
        rw [eap_ttls_process_msg_ack_failure K A E M sm2 _ in_buf rfl
          (by intro h; exact h.1 rfl)]
        rfl
      · intro h
        rcases h with h | h
        · exact absurd ((os_memcmp_eq_iff _ _ _).mp hm.1) h
        · exact absurd hm.2 h

/-- Witness of C18 as amended: a wrong NT response leaves the session waiting for the
acknowledgment with the success flag clear, and the acknowledgment gives `FAILURE`. -/
theorem mschapv2_failure_deferred_witness :
    ∃ res, eap_ttls_process_phase2_mschapv2 hostap_consts allocator.total sample_ext
        sample_sm sample_session (some (List.replicate 16 7)) (some (sample_response 0 1)) =
          some res ∧
      (((List.replicate 16 7).take hostap_consts.EAP_TTLS_MSCHAPV2_CHALLENGE_LEN =
            (List.replicate 17 7).take hostap_consts.EAP_TTLS_MSCHAPV2_CHALLENGE_LEN ∧
          (sample_response 0 1).getD 0 0 =
            (List.replicate 17 7).getD hostap_consts.EAP_TTLS_MSCHAPV2_CHALLENGE_LEN 0 ∧
          (mschapv2_nt_response sample_ext [112, 119] sample_user.password_hash
            (List.replicate 16 7)
            (((sample_response 0 1).drop 2).take
              hostap_consts.EAP_TTLS_MSCHAPV2_CHALLENGE_LEN) [117]).take 24 ≠
            ((sample_response 0 1).drop
              (2 + hostap_consts.EAP_TTLS_MSCHAPV2_CHALLENGE_LEN + 8)).take 24) →
        res.1.state = .PHASE2_MSCHAPV2_RESP ∧ res.1.mschapv2_resp_ok = 0 ∧
        ∀ (E : phase2_env eap_user) (M : msg_env eap_user) (sm2 : eap_sm eap_user)
          (in_buf : List Nat),
          (eap_ttls_process_msg hostap_consts allocator.total E M sm2 res.1
            in_buf).data.state = .FAILURE) ∧
      (((List.replicate 16 7).take hostap_consts.EAP_TTLS_MSCHAPV2_CHALLENGE_LEN ≠
            (List.replicate 17 7).take hostap_consts.EAP_TTLS_MSCHAPV2_CHALLENGE_LEN ∨
          (sample_response 0 1).getD 0 0 ≠
            (List.replicate 17 7).getD hostap_consts.EAP_TTLS_MSCHAPV2_CHALLENGE_LEN 0) →
        res.1.state = .FAILURE) :=
  mschapv2_failure_deferred hostap_consts allocator.total sample_ext sample_sm
    sample_session (List.replicate 16 7) (sample_response 0 1) sample_user [112, 119]
    (List.replicate 17 7) [117] (by decide) (by decide) rfl rfl (by decide) (by decide)
    (by decide)

/-- C19: in `eap_ttls_process_phase2_mschapv2`, (1) whatever the arguments, if the
handler returns, the inner-secret permutation has been called only if
`ttls_version > 0` and the handler ends with the success flag 1; (2) for an attempt
with an identity that can be read (`sm->identity` non-NULL, or `sm->identity_len` 0),
giving the name `name`, that passes the attribute, credential and implicit-challenge
checks, the handler returns, and: when the NT response matches and `ttls_version > 0`,
`eap_ttls_ia_permute_inner_secret` is called with the two session-key halves derived
from the master key, and when the NT response matches but `ttls_version` is 0 it is
not called; when the NT response matches, `mschapv2_auth_response` is set to the
authenticator response, a function of the stored credential, the peer challenge, the
auth challenge, the domain-stripped identity and the NT response only; when it does
not match, nothing is called and `mschapv2_auth_response` is left unchanged; (3) when
the identity cannot be read (`sm->identity` NULL with `sm->identity_len` not 0), the
handler either fails one of the attribute, credential and permission checks, ending in
`FAILURE` with nothing called, or has no result. -/
theorem mschapv2_key_material (K : ttls_consts) (A : allocator) (X : ext_env)
    (sm : eap_sm eap_user) (data : eap_ttls_data) (ch rs : Option (List Nat)) :
    (∀ res, eap_ttls_process_phase2_mschapv2 K A X sm data ch rs = some res →
      res.2 ≠ [] → data.ttls_version > 0 ∧ res.1.mschapv2_resp_ok = 1) ∧
    (∀ (c r : List Nat) (user : eap_user) (P chal name : List Nat),
      ch = some c → rs = some r → sm.user = some user → user.password = some P →
      user.ttls_auth &&& K.EAP_TTLS_AUTH_MSCHAPV2 ≠ 0 →
      c.length = K.EAP_TTLS_MSCHAPV2_CHALLENGE_LEN →
      r.length = K.EAP_TTLS_MSCHAPV2_RESPONSE_LEN →
      mschapv2_username sm = some name →
      eap_ttls_implicit_challenge A X data (K.EAP_TTLS_MSCHAPV2_CHALLENGE_LEN + 1) =
        some chal →
      c.take K.EAP_TTLS_MSCHAPV2_CHALLENGE_LEN = chal.take K.EAP_TTLS_MSCHAPV2_CHALLENGE_LEN →
      r.getD 0 0 = chal.getD K.EAP_TTLS_MSCHAPV2_CHALLENGE_LEN 0 →
      ∃ res, eap_ttls_process_phase2_mschapv2 K A X sm data ch rs = some res ∧
        ((mschapv2_nt_response X P user.password_hash c
              ((r.drop 2).take K.EAP_TTLS_MSCHAPV2_CHALLENGE_LEN) name).take 24
            = (r.drop (2 + K.EAP_TTLS_MSCHAPV2_CHALLENGE_LEN + 8)).take 24 →
          (data.ttls_version > 0 →
            res.2 =
              .eap_ttls_ia_permute_inner_secret
                  (some (mschapv2_session_key X P user.password_hash
                    (mschapv2_nt_response X P user.password_hash c
                      ((r.drop 2).take K.EAP_TTLS_MSCHAPV2_CHALLENGE_LEN) name))) ::
                (eap_ttls_ia_permute_inner_secret A X
                  (some (mschapv2_session_key X P user.password_hash
                    (mschapv2_nt_response X P user.password_hash c
                      ((r.drop 2).take K.EAP_TTLS_MSCHAPV2_CHALLENGE_LEN) name)))).2) ∧
          (¬ data.ttls_version > 0 → res.2 = []) ∧
          res.1.mschapv2_auth_response =
            mschapv2_authenticator_response X P user.password_hash
              ((r.drop 2).take K.EAP_TTLS_MSCHAPV2_CHALLENGE_LEN) c name
              (mschapv2_nt_response X P user.password_hash c
                ((r.drop 2).take K.EAP_TTLS_MSCHAPV2_CHALLENGE_LEN) name)) ∧
        ((mschapv2_nt_response X P user.password_hash c
              ((r.drop 2).take K.EAP_TTLS_MSCHAPV2_CHALLENGE_LEN) name).take 24
            ≠ (r.drop (2 + K.EAP_TTLS_MSCHAPV2_CHALLENGE_LEN + 8)).take 24 →
          res.2 = [] ∧ res.1.mschapv2_auth_response = data.mschapv2_auth_response)) ∧
    (sm.identity = none → sm.identity_len ≠ 0 →
      eap_ttls_process_phase2_mschapv2 K A X sm data ch rs =
          some (eap_ttls_state data .FAILURE, []) ∨
        eap_ttls_process_phase2_mschapv2 K A X sm data ch rs = none) := by
  refine ⟨?_, ?_, ?_⟩
  · intro res hres hne
    rcases mschapv2_cases K A X sm data ch rs with h | ⟨h, _⟩ | ⟨c, r, user, P, chal, name,
      hch, hrs, hu, hp, ha, hl1, hl2, hn, hi, hm, hid⟩
    · rw [h] at hres
      cases hres
      exact absurd rfl hne
    · rw [h] at hres
      cases hres
    · rw [hch, hrs, mschapv2_checked K A X sm data c r user P chal name hu hp ha hl1 hl2 hn
        hi hm hid] at hres
      by_cases hnt : os_memcmp_eq
          (mschapv2_nt_response X P user.password_hash c
            ((r.drop 2).take K.EAP_TTLS_MSCHAPV2_CHALLENGE_LEN) name)
          (r.drop (2 + K.EAP_TTLS_MSCHAPV2_CHALLENGE_LEN + 8)) 24 = true
      · rw [if_pos hnt] at hres
        cases hres
        by_cases hv : data.ttls_version > 0
        · exact ⟨hv, rfl⟩
        · rw [if_neg hv] at hne
          exact absurd rfl hne
      · rw [if_neg hnt] at hres
        cases hres
        exact absurd rfl hne
  · intro c r user P chal name hch hrs hu hp ha hl1 hl2 hn hi hm hid
    have hck := mschapv2_checked K A X sm data c r user P chal name hu hp ha hl1 hl2 hn hi
      ((os_memcmp_eq_iff _ _ _).mpr hm) hid
    rw [hch, hrs]
    by_cases hnt : os_memcmp_eq
        (mschapv2_nt_response X P user.password_hash c
          ((r.drop 2).take K.EAP_TTLS_MSCHAPV2_CHALLENGE_LEN) name)
        (r.drop (2 + K.EAP_TTLS_MSCHAPV2_CHALLENGE_LEN + 8)) 24 = true
    · rw [if_pos hnt] at hck
      refine ⟨_, hck, ?_, ?_⟩
      · intro _
        refine ⟨fun hv => ?_, fun hv => ?_, rfl⟩
        · simp only [if_pos hv]
        · simp only [if_neg hv]
      · intro h
        exact absurd ((os_memcmp_eq_iff _ _ _).mp hnt) h
    · rw [if_neg hnt] at hck
      refine ⟨_, hck, ?_, ?_⟩
      · intro h
        exact absurd ((os_memcmp_eq_iff _ _ _).mpr h) hnt
      · intro _
        exact ⟨rfl, rfl⟩
  · intro h1 h2
    have hnone := (mschapv2_username_none_iff sm).mpr ⟨h1, h2⟩
    rcases mschapv2_cases K A X sm data ch rs with h | ⟨h, _⟩ | ⟨c, r, user, P, chal, name,
      hch, hrs, hu, hp, ha, hl1, hl2, hn, hi, hm, hid⟩
    · exact Or.inl h
    · exact Or.inr h
    · rw [hnone] at hn
      cases hn

/-- Witness of C19: under the extended protocol a matching NT response makes the
handler call the permutation with the 32 bytes of session key and store the
authenticator response; under the base protocol nothing is called. -/
theorem mschapv2_key_material_witness :
    (sample_ack_session 0 1).ttls_version > 0 ∧
    (eap_ttls_process_phase2_mschapv2 hostap_consts allocator.total sample_ext sample_sm
      (sample_ack_session 0 1) (some (List.replicate 16 7))
      (some (sample_response 0 231))).map (fun res => res.1.mschapv2_resp_ok) = some 1 ∧
    (eap_ttls_process_phase2_mschapv2 hostap_consts allocator.total sample_ext sample_sm
      (sample_ack_session 0 1) (some (List.replicate 16 7))
      (some (sample_response 0 231))).map (fun res => res.2) =
      some [.eap_ttls_ia_permute_inner_secret (some (List.replicate 32 32)),
        .tls_connection_ia_permute_inner_secret (some (0 :: 32 :: List.replicate 32 32))] ∧
    (eap_ttls_process_phase2_mschapv2 hostap_consts allocator.total sample_ext sample_sm
      (sample_ack_session 0 1) (some (List.replicate 16 7))
      (some (sample_response 0 231))).map (fun res => res.1.mschapv2_auth_response) =
      some (List.replicate 20 231) ∧
    (eap_ttls_process_phase2_mschapv2 hostap_consts allocator.total sample_ext sample_sm
      sample_session (some (List.replicate 16 7))
      (some (sample_response 0 231))).map (fun res => res.2) = some [] ∧
    (eap_ttls_process_phase2_mschapv2 hostap_consts allocator.total sample_ext
        { sample_sm with identity := none } sample_session (some (List.replicate 16 7))
        (some (sample_response 0 231)) =
        some (eap_ttls_state sample_session .FAILURE, []) ∨
      eap_ttls_process_phase2_mschapv2 hostap_consts allocator.total sample_ext
        { sample_sm with identity := none } sample_session (some (List.replicate 16 7))
        (some (sample_response 0 231)) = none) :=
  ⟨by decide, by decide, by decide, by decide, by decide,
    (mschapv2_key_material hostap_consts allocator.total sample_ext
      { sample_sm with identity := none } sample_session (some (List.replicate 16 7))
      (some (sample_response 0 231))).2.2 rfl (by decide)⟩

/-- C20: for every session in state `PHASE2_MSCHAPV2_RESP`, with TNC not enabled (the
build has no `EAP_SERVER_TNC` or `sm->tnc` is 0), `eap_ttls_process_msg` gives:
success flag set and empty inbound payload, `SUCCESS` when `ttls_version` is 0 and
`PHASE_FINISHED` when it is greater than 0; success flag set and non-empty payload,
`FAILURE`; success flag clear, `FAILURE` whatever the payload. No handler is called
and the state machine is left as it was. -/
theorem process_msg_mschapv2_ack {U : Type} (K : ttls_consts) (A : allocator)
    (E : phase2_env U) (M : msg_env U) (sm : eap_sm U) (data : eap_ttls_data)
    (in_buf : List Nat) (hs : data.state = .PHASE2_MSCHAPV2_RESP)
    (ht : K.EAP_SERVER_TNC = false ∨ sm.tnc = 0) :
    (data.mschapv2_resp_ok ≠ 0 → in_buf = [] →
      (eap_ttls_process_msg K A E M sm data in_buf).data.state =
        (if data.ttls_version > 0 then .PHASE_FINISHED else .SUCCESS)) ∧
    (data.mschapv2_resp_ok ≠ 0 → in_buf ≠ [] →
      (eap_ttls_process_msg K A E M sm data in_buf).data.state = .FAILURE) ∧
    (data.mschapv2_resp_ok = 0 →
      (eap_ttls_process_msg K A E M sm data in_buf).data.state = .FAILURE) ∧
    (eap_ttls_process_msg K A E M sm data in_buf).calls = [] ∧
    (eap_ttls_process_msg K A E M sm data in_buf).sm = sm := by
  have htnc : ∀ d : eap_ttls_data, eap_ttls_start_tnc K M sm d = (sm, d) := by
    intro d
    apply eap_ttls_start_tnc_off
    rcases ht with h | h
    · exact Or.inl h
    · exact Or.inr (Or.inl h)
  rw [eap_ttls_process_msg_ack K A E M sm data in_buf hs, htnc]
  refine ⟨?_, ?_, ?_, rfl, rfl⟩
  · intro hok he
    simp only [if_pos (show data.mschapv2_resp_ok ≠ 0 ∧ in_buf.length = 0 from
      ⟨hok, by rw [he]; rfl⟩)]
    rfl
  · intro _ he
    have : ¬ (data.mschapv2_resp_ok ≠ 0 ∧ in_buf.length = 0) := by
      rintro ⟨_, h⟩
      exact he (List.length_eq_zero.mp h)
    simp only [if_neg this]
    rfl
  · intro hok
    have : ¬ (data.mschapv2_resp_ok ≠ 0 ∧ in_buf.length = 0) := by
      rintro ⟨h, _⟩
      exact h hok
    simp only [if_neg this]
    rfl

/-- Witness of C20: success flag set, base protocol, empty acknowledgment: `SUCCESS`;
the same with a one-byte payload: `FAILURE`. -/
theorem process_msg_mschapv2_ack_witness :
    (sample_ack_session 1 0).state = .PHASE2_MSCHAPV2_RESP ∧
    (hostap_consts.EAP_SERVER_TNC = false ∨ (⟨none, 0, none, 0, 0, 0⟩ : eap_sm Unit).tnc = 0) ∧
    (sample_ack_session 1 0).mschapv2_resp_ok ≠ 0 ∧
    (eap_ttls_process_msg hostap_consts allocator.total sample_env sample_msg_env
      ⟨none, 0, none, 0, 0, 0⟩ (sample_ack_session 1 0) []).data.state =
      (if (sample_ack_session 1 0).ttls_version > 0 then .PHASE_FINISHED else .SUCCESS) ∧
    (eap_ttls_process_msg hostap_consts allocator.total sample_env sample_msg_env
      ⟨none, 0, none, 0, 0, 0⟩ (sample_ack_session 1 0) []).data.state = .SUCCESS ∧
    (eap_ttls_process_msg hostap_consts allocator.total sample_env sample_msg_env
      ⟨none, 0, none, 0, 0, 0⟩ (sample_ack_session 1 0) [0]).data.state = .FAILURE :=
  ⟨by decide, Or.inl rfl, by decide,
    (process_msg_mschapv2_ack hostap_consts allocator.total sample_env sample_msg_env
      ⟨none, 0, none, 0, 0, 0⟩ (sample_ack_session 1 0) [] (by decide) (Or.inl rfl)).1
      (by decide) rfl,
    by decide,
    (process_msg_mschapv2_ack hostap_consts allocator.total sample_env sample_msg_env
      ⟨none, 0, none, 0, 0, 0⟩ (sample_ack_session 1 0) [0] (by decide) (Or.inl rfl)).2.1
      (by decide) (by decide)⟩

/-- C30: `eap_ttls_avp_parse` terminates with a result on every buffer; an iteration
that does not fail takes at least 8 from the remaining budget `left` (and at most
`left + 3`); the number of iterations of the loop, the failing one included, is at
most `ceil (len / 8)` and does not depend on the bound given to the recursion once
that bound is at least `len`; the empty buffer gives the return value 0, the empty
parsed set and no read. -/
theorem avp_parse_terminates (K : ttls_consts) (A : allocator) (buf : Nat → Nat)
    (len : Nat) :
    (∃ r, eap_ttls_avp_parse K A buf len = some r) ∧
    (∀ (pos : Nat) (left : Int) (parse : eap_ttls_avp) (n : Nat) (q : eap_ttls_avp),
      (avp_parse_iter K A buf pos left parse).2 = .next n q →
        8 ≤ n ∧ left - (n : Int) ≤ left - 8 ∧ (n : Int) ≤ left + 3) ∧
    avp_parse_iterations K A buf len 0 (size_t_to_int len) eap_ttls_avp.zero ≤ (len + 7) / 8 ∧
    (∀ fuel, len ≤ fuel →
      avp_parse_iterations K A buf fuel 0 (size_t_to_int len) eap_ttls_avp.zero =
        avp_parse_iterations K A buf len 0 (size_t_to_int len) eap_ttls_avp.zero) ∧
    eap_ttls_avp_parse K A buf 0 = some ⟨0, eap_ttls_avp.zero, []⟩ := by
  refine ⟨avp_parse_loop_total K A buf len 0 _ _ _ (size_t_to_int_le len), ?_, ?_, ?_, ?_⟩
  · intro pos left parse n q h
    have hb := avp_parse_iter_next K A buf pos left parse n q h
    omega
  · by_cases hl : size_t_to_int len > 0
    · have h1 := avp_parse_iterations_bound K A buf len 0 (size_t_to_int len)
        eap_ttls_avp.zero hl
      have h2 := size_t_to_int_le len
      omega
    · rw [avp_parse_iterations_done K A buf len 0 _ _ hl]
      exact Nat.zero_le _
  · intro fuel hf
    exact avp_parse_iterations_fuel K A buf fuel len 0 _ _
      (le_trans (size_t_to_int_le len) (by exact_mod_cast hf)) (size_t_to_int_le len)
  · exact avp_parse_loop_done K A buf 0 0 _ _ _ (by decide)

/-- C28: for every identity `sm->identity` of `sm->identity_len` bytes, the user name
that `eap_ttls_process_phase2_mschapv2` computes at source lines 832-840 exists and
is: when byte `i` is the first backslash, the bytes after it, `identity_len - (i + 1)`
of them (none when the backslash is the last byte); when the identity has no
backslash, the identity itself. For an attempt that passes the attribute, credential
and implicit-challenge checks, the handler returns and this name is the one given to
the NT-response computation and to the authenticator-response computation. -/
theorem mschapv2_username_strips_domain (K : ttls_consts) (A : allocator) (X : ext_env)
    (sm : eap_sm eap_user) (data : eap_ttls_data) (identity c r : List Nat) (user : eap_user)
    (P chal : List Nat) (hident : sm.identity = some identity)
    (hlen : sm.identity_len = identity.length)
    (hu : sm.user = some user) (hp : user.password = some P)
    (ha : user.ttls_auth &&& K.EAP_TTLS_AUTH_MSCHAPV2 ≠ 0)
    (hl1 : c.length = K.EAP_TTLS_MSCHAPV2_CHALLENGE_LEN)
    (hl2 : r.length = K.EAP_TTLS_MSCHAPV2_RESPONSE_LEN)
    (hi : eap_ttls_implicit_challenge A X data (K.EAP_TTLS_MSCHAPV2_CHALLENGE_LEN + 1) =
      some chal)
    (hm : os_memcmp_eq c chal K.EAP_TTLS_MSCHAPV2_CHALLENGE_LEN = true)
    (hid : r.getD 0 0 = chal.getD K.EAP_TTLS_MSCHAPV2_CHALLENGE_LEN 0) :
    (∀ i, i < identity.length → identity.getD i 0 = 92 →
      (∀ j, j < i → identity.getD j 0 ≠ 92) →
      mschapv2_username sm = some (identity.drop (i + 1)) ∧
      (identity.drop (i + 1)).length = sm.identity_len - (i + 1) ∧
      (i + 1 = identity.length → mschapv2_username sm = some [])) ∧
    ((∀ i, i < identity.length → identity.getD i 0 ≠ 92) →
      mschapv2_username sm = some identity) ∧
    (∃ name, mschapv2_username sm = some name) ∧
    (∀ name, mschapv2_username sm = some name →
      ∃ res, eap_ttls_process_phase2_mschapv2 K A X sm data (some c) (some r) = some res ∧
        (res.1.mschapv2_resp_ok = 1 ↔
          os_memcmp_eq
            (mschapv2_nt_response X P user.password_hash c
              ((r.drop 2).take K.EAP_TTLS_MSCHAPV2_CHALLENGE_LEN) name)
            (r.drop (2 + K.EAP_TTLS_MSCHAPV2_CHALLENGE_LEN + 8)) 24 = true) ∧
        (res.1.mschapv2_resp_ok = 1 →
          res.1.mschapv2_auth_response =
            mschapv2_authenticator_response X P user.password_hash
              ((r.drop 2).take K.EAP_TTLS_MSCHAPV2_CHALLENGE_LEN) c name
              (mschapv2_nt_response X P user.password_hash c
                ((r.drop 2).take K.EAP_TTLS_MSCHAPV2_CHALLENGE_LEN) name))) := by
  have hname : mschapv2_username sm =
      some ((username_after_backslash identity).getD identity) := by
    unfold mschapv2_username
    rw [hident]
    simp only [hlen, List.take_length]
  refine ⟨?_, ?_, ⟨_, hname⟩, ?_⟩
  · intro i hi1 h92 hfirst
    have h := username_after_backslash_first identity i hi1 h92 hfirst
    rw [hname, h, Option.getD_some]
    refine ⟨rfl, ?_, ?_⟩
    · rw [List.length_drop, hlen]
    · intro hlast
      rw [hlast, List.drop_length]
  · intro hno
    rw [hname, username_after_backslash_none identity hno]
    rfl
  · intro name hn
    rw [mschapv2_checked K A X sm data c r user P chal name hu hp ha hl1 hl2 hn hi hm hid]
    by_cases hnt : os_memcmp_eq
        (mschapv2_nt_response X P user.password_hash c
          ((r.drop 2).take K.EAP_TTLS_MSCHAPV2_CHALLENGE_LEN) name)
        (r.drop (2 + K.EAP_TTLS_MSCHAPV2_CHALLENGE_LEN + 8)) 24 = true
    · rw [if_pos hnt]
      exact ⟨_, rfl, ⟨fun _ => hnt, fun _ => rfl⟩, fun _ => rfl⟩
    · rw [if_neg hnt]
      refine ⟨_, rfl, ⟨fun h => ?_, fun h => absurd h hnt⟩, fun h => ?_⟩
      · simp only [eap_ttls_state] at h
        exact absurd h (by decide)
      · simp only [eap_ttls_state] at h
        exact absurd h (by decide)

/-- Witness of C28: with the identity `d \ u` the name is `u`, one byte. -/
theorem mschapv2_username_strips_domain_witness :
    mschapv2_username sample_sm = some ([100, 92, 117].drop (1 + 1)) ∧
    ([100, 92, 117].drop (1 + 1)).length = sample_sm.identity_len - (1 + 1) ∧
    (1 + 1 = [100, 92, 117].length → mschapv2_username sample_sm = some []) :=
  (mschapv2_username_strips_domain hostap_consts allocator.total sample_ext sample_sm
    sample_session [100, 92, 117] (List.replicate 16 7) (sample_response 0 231) sample_user
    [112, 119] (List.replicate 17 7) rfl rfl rfl rfl (by decide) (by decide) (by decide)
    (by decide) (by decide) (by decide)).1 1 (by decide) (by decide) (by decide)

/-- C24: the plaintext that `eap_ttls_build_phase2_mschapv2` builds (when its
allocation succeeds; the flag constants are bytes, the Microsoft vendor id is not 0)
is, when `mschapv2_resp_ok` is set: the 12-byte vendor header with code
`RADIUS_ATTR_MS_CHAP2_SUCCESS`, flags mandatory and vendor, length 12 + 43 = 55 and
the Microsoft vendor id, then the identifier byte, the characters `S=`, and the 40
characters of the uppercase hexadecimal form of the 20 bytes of
`mschapv2_auth_response`, two per byte in order, each one of `0`-`9`, `A`-`F`; when
the flag is clear: the 12-byte vendor header with code `RADIUS_ATTR_MS_CHAP_ERROR` and
length 12 + 6 = 18, then the 6 bytes `Failed`, then two zero bytes of padding. -/
theorem build_phase2_mschapv2_layout (K : ttls_consts) (A : allocator)
    (data : eap_ttls_data) (ha : A.os_malloc 100 = true)
    (hv : K.RADIUS_VENDOR_ID_MICROSOFT ≠ 0) (hM : K.AVP_FLAGS_MANDATORY < 256)
    (hV : K.AVP_FLAGS_VENDOR < 256) (hr : data.mschapv2_auth_response.length = 20) :
    (data.mschapv2_resp_ok ≠ 0 →
      eap_ttls_build_phase2_mschapv2_req K A data =
        some (vendor_avp_header K.RADIUS_ATTR_MS_CHAP2_SUCCESS
            (K.AVP_FLAGS_MANDATORY ||| K.AVP_FLAGS_VENDOR) 55 K.RADIUS_VENDOR_ID_MICROSOFT ++
          [data.mschapv2_ident % 256] ++ [83, 61] ++
          hex_uppercase data.mschapv2_auth_response)) ∧
    (vendor_avp_header K.RADIUS_ATTR_MS_CHAP2_SUCCESS
      (K.AVP_FLAGS_MANDATORY ||| K.AVP_FLAGS_VENDOR) 55 K.RADIUS_VENDOR_ID_MICROSOFT).length
        = 12 ∧
    (hex_uppercase data.mschapv2_auth_response).length = 40 ∧
    (∀ i, i < 20 →
      (hex_uppercase data.mschapv2_auth_response).getD (2 * i) 0 =
        [48, 49, 50, 51, 52, 53, 54, 55, 56, 57, 65, 66, 67, 68, 69, 70].getD
          (data.mschapv2_auth_response.getD i 0 / 16 % 16) 0 ∧
      (hex_uppercase data.mschapv2_auth_response).getD (2 * i + 1) 0 =
        [48, 49, 50, 51, 52, 53, 54, 55, 56, 57, 65, 66, 67, 68, 69, 70].getD
          (data.mschapv2_auth_response.getD i 0 % 16) 0) ∧
    (data.mschapv2_resp_ok = 0 →
      eap_ttls_build_phase2_mschapv2_req K A data =
        some (vendor_avp_header K.RADIUS_ATTR_MS_CHAP_ERROR
            (K.AVP_FLAGS_MANDATORY ||| K.AVP_FLAGS_VENDOR) 18 K.RADIUS_VENDOR_ID_MICROSOFT ++
          [70, 97, 105, 108, 101, 100] ++ [0, 0])) := by
  refine ⟨?_, rfl, ?_, ?_, ?_⟩
  · intro hok
    rw [build_phase2_mschapv2_req_success K A data ha hv hr hok,
      eap_ttls_avp_hdr_vendor_eq K _ _ 43 hv hM hV (by decide)]
  · rw [hex_uppercase_length, hr]
  · intro i hi
    exact hex_uppercase_getD data.mschapv2_auth_response i (by omega)
  · intro hok
    rw [build_phase2_mschapv2_req_failure K A data ha hv hok,
      eap_ttls_avp_hdr_vendor_eq K _ _ 6 hv hM hV (by decide)]

/-- Witness of C24: the reply for the identifier 7 and the authenticator response
`00 1F A0 FF` five times. -/
theorem build_phase2_mschapv2_layout_witness :
    eap_ttls_build_phase2_mschapv2_req hostap_consts allocator.total (sample_reply_session 1) =
      some (vendor_avp_header 26 (0x40 ||| 0x80) 55 311 ++ [7 % 256] ++ [83, 61] ++
        hex_uppercase (sample_reply_session 1).mschapv2_auth_response) ∧
    hex_uppercase (sample_reply_session 1).mschapv2_auth_response =
      [48, 48, 49, 70, 65, 48, 70, 70, 48, 48, 49, 70, 65, 48, 70, 70, 48, 48, 49, 70,
        65, 48, 70, 70, 48, 48, 49, 70, 65, 48, 70, 70, 48, 48, 49, 70, 65, 48, 70, 70] :=
  ⟨(build_phase2_mschapv2_layout hostap_consts allocator.total (sample_reply_session 1) rfl
    (by decide) (by decide) (by decide) rfl).1 (by decide), by decide⟩

/-- C27: the plaintext that `eap_ttls_build_phase2_mschapv2` builds in the success
branch is 55 bytes long, which is not a multiple of 4, and its last byte is a
hexadecimal character, not a zero: the branch has no `AVP_PAD`. In the failure branch
the plaintext is 20 bytes long and ends with two zero bytes, and the buffer built by
`eap_ttls_avp_encapsulate` is header and payload followed by at most 3 zero bytes, of
a total length that is a multiple of 4. -/
theorem build_phase2_mschapv2_success_not_padded (K : ttls_consts) (A : allocator)
    (data : eap_ttls_data) (ha : A.os_malloc 100 = true)
    (hv : K.RADIUS_VENDOR_ID_MICROSOFT ≠ 0)
    (hr : data.mschapv2_auth_response.length = 20) :
    (data.mschapv2_resp_ok ≠ 0 →
      ∃ req, eap_ttls_build_phase2_mschapv2_req K A data = some req ∧ req.length = 55 ∧
        req.length % 4 = 3 ∧ req.getD 54 0 ≠ 0) ∧
    (data.mschapv2_resp_ok = 0 →
      ∃ req, eap_ttls_build_phase2_mschapv2_req K A data = some req ∧ req.length = 20 ∧
        req.length % 4 = 0 ∧ req.drop 18 = [0, 0]) ∧
    (∀ (resp : List Nat) (avp_code : Nat) (mandatory : Bool),
      A.wpabuf_alloc (sizeof_ttls_avp + resp.length + 4) = true →
      ∃ k, eap_ttls_avp_encapsulate K A resp avp_code mandatory =
          some (eap_ttls_avp_hdr K avp_code 0 mandatory resp.length ++ resp ++
            List.replicate k 0) ∧
        k ≤ 3 ∧
        (eap_ttls_avp_hdr K avp_code 0 mandatory resp.length ++ resp ++
          List.replicate k 0).length % 4 = 0) := by
  refine ⟨?_, ?_, ?_⟩
  · intro hok
    have hl := eap_ttls_avp_hdr_vendor_length K K.RADIUS_ATTR_MS_CHAP2_SUCCESS
      K.RADIUS_VENDOR_ID_MICROSOFT 43 true hv
    have hh := hex_uppercase_length data.mschapv2_auth_response
    have hlen : (eap_ttls_avp_hdr K K.RADIUS_ATTR_MS_CHAP2_SUCCESS
        K.RADIUS_VENDOR_ID_MICROSOFT true 43 ++ [data.mschapv2_ident % 256] ++ [83, 61] ++
        hex_uppercase data.mschapv2_auth_response).length = 55 := by
      simp only [List.length_append, hl, hh, hr, List.length_cons, List.length_nil]
    refine ⟨_, build_phase2_mschapv2_req_success K A data ha hv hr hok, hlen, by rw [hlen], ?_⟩
    rw [List.getD_append_right _ _ _ _ (by
      simp only [List.length_append, hl, List.length_cons, List.length_nil]
      omega)]
    have hne : data.mschapv2_auth_response ≠ [] := by
      intro h
      rw [h] at hr
      cases hr
    have h := hex_uppercase_getD_last data.mschapv2_auth_response hne
    rw [hr] at h
    simpa only [List.length_append, hl, List.length_cons, List.length_nil] using h
  · intro hok
    have hl := eap_ttls_avp_hdr_vendor_length K K.RADIUS_ATTR_MS_CHAP_ERROR
      K.RADIUS_VENDOR_ID_MICROSOFT 6 true hv
    have hlen : (eap_ttls_avp_hdr K K.RADIUS_ATTR_MS_CHAP_ERROR
        K.RADIUS_VENDOR_ID_MICROSOFT true 6 ++ [70, 97, 105, 108, 101, 100] ++
        [0, 0]).length = 20 := by
      simp only [List.length_append, hl, List.length_cons, List.length_nil]
    refine ⟨_, build_phase2_mschapv2_req_failure K A data ha hv hok, hlen, by rw [hlen], ?_⟩
    rw [List.drop_append_of_le_length (by
      simp only [List.length_append, hl, List.length_cons, List.length_nil]
      omega)]
    rw [List.drop_of_length_le (by
      simp only [List.length_append, hl, List.length_cons, List.length_nil]
      omega)]
    rfl
  · intro resp avp_code mandatory hw
    refine ⟨(4 - (eap_ttls_avp_hdr K avp_code 0 mandatory resp.length ++ resp).length % 4) % 4,
      ?_, by omega, ?_⟩
    · unfold eap_ttls_avp_encapsulate AVP_PAD
      rw [if_pos hw]
    · rw [List.length_append, List.length_replicate]
      omega

/-- Witness of C27: the success reply of the sample session has 55 bytes and ends with
the character `F`. -/
theorem build_phase2_mschapv2_success_not_padded_witness :
    ∃ req, eap_ttls_build_phase2_mschapv2_req hostap_consts allocator.total
        (sample_reply_session 1) = some req ∧ req.length = 55 ∧
      req.length % 4 = 3 ∧ req.getD 54 0 ≠ 0 :=
  (build_phase2_mschapv2_success_not_padded hostap_consts allocator.total
    (sample_reply_session 1) rfl (by decide) rfl).1 (by decide)

/-- C23: for every session, when `data->ssl.state` is `FRAG_ACK`, `eap_ttls_buildReq`
returns the frame of `eap_server_tls_build_ack`, and when it is `WAIT_FRAG_ACK`, the
frame of `eap_server_tls_build_msg`; in both cases none of the state-specific
constructions is made, the state machine and the session (state and every other
field) are unchanged, and the transport record is unchanged (`FRAG_ACK`) or is the one
`eap_server_tls_build_msg` leaves (`WAIT_FRAG_ACK`). -/
theorem buildReq_fragments_first (K : ttls_consts) (A : allocator) (B : build_env)
    (Me : method_env) (sm : eap_sm eap_user) (ssl : eap_ssl_data) (data : eap_ttls_data)
    (id : Nat) :
    (ssl.state = .FRAG_ACK →
      (eap_ttls_buildReq K A B Me sm ssl data id).req =
        B.eap_server_tls_build_ack id data.ttls_version ∧
      (eap_ttls_buildReq K A B Me sm ssl data id).calls = [] ∧
      (eap_ttls_buildReq K A B Me sm ssl data id).data = data ∧
      (eap_ttls_buildReq K A B Me sm ssl data id).sm = sm ∧
      (eap_ttls_buildReq K A B Me sm ssl data id).ssl = ssl) ∧
    (ssl.state = .WAIT_FRAG_ACK →
      (eap_ttls_buildReq K A B Me sm ssl data id).req =
        (B.eap_server_tls_build_msg ssl data.ttls_version id).2 ∧
      (eap_ttls_buildReq K A B Me sm ssl data id).calls = [] ∧
      (eap_ttls_buildReq K A B Me sm ssl data id).data = data ∧
      (eap_ttls_buildReq K A B Me sm ssl data id).sm = sm ∧
      (eap_ttls_buildReq K A B Me sm ssl data id).ssl =
        (B.eap_server_tls_build_msg ssl data.ttls_version id).1) := by
  constructor
  · intro h
    rw [buildReq_frag_ack K A B Me sm ssl data id h]
    exact ⟨rfl, rfl, rfl, rfl, rfl⟩
  · intro h
    rw [buildReq_wait_frag_ack K A B Me sm ssl data id h]
    exact ⟨rfl, rfl, rfl, rfl, rfl⟩

/-- Witness of C23: in state `START` with an acknowledgment due, the request is the
acknowledgment frame and the state stays `START`; without it the state becomes
`PHASE1`. -/
theorem buildReq_fragments_first_witness :
    ((eap_ttls_buildReq hostap_consts allocator.total sample_build_env sample_method_env
        sample_sm (sample_ssl .FRAG_ACK) { sample_session with state := .START } 9).req =
        sample_build_env.eap_server_tls_build_ack 9 0 ∧
      (eap_ttls_buildReq hostap_consts allocator.total sample_build_env sample_method_env
        sample_sm (sample_ssl .FRAG_ACK) { sample_session with state := .START } 9).calls =
        [] ∧
      (eap_ttls_buildReq hostap_consts allocator.total sample_build_env sample_method_env
        sample_sm (sample_ssl .FRAG_ACK) { sample_session with state := .START } 9).data =
        { sample_session with state := .START } ∧
      (eap_ttls_buildReq hostap_consts allocator.total sample_build_env sample_method_env
        sample_sm (sample_ssl .FRAG_ACK) { sample_session with state := .START } 9).sm =
        sample_sm ∧
      (eap_ttls_buildReq hostap_consts allocator.total sample_build_env sample_method_env
        sample_sm (sample_ssl .FRAG_ACK) { sample_session with state := .START } 9).ssl =
        sample_ssl .FRAG_ACK) ∧
    (eap_ttls_buildReq hostap_consts allocator.total sample_build_env sample_method_env
      sample_sm (sample_ssl .MSG) { sample_session with state := .START } 9).data.state =
      .PHASE1 :=
  ⟨(buildReq_fragments_first hostap_consts allocator.total sample_build_env
    sample_method_env sample_sm (sample_ssl .FRAG_ACK) { sample_session with state := .START }
    9).1 rfl, by decide⟩

/-- C29: for every session whose state is `FAILURE`, the state is `FAILURE` after
`eap_ttls_buildReq` (whatever the transport record), after `eap_ttls_process_msg`
(whatever the inbound message) and after `eap_ttls_process` (whatever callbacks
`eap_server_tls_process` calls and whatever it returns); and in the states `START`
and `SUCCESS`, `eap_ttls_process_msg` leaves the session as it is and calls no
handler. -/
theorem failure_is_terminal (K : ttls_consts) (A : allocator) (B : build_env)
    (Me : method_env) (E : phase2_env eap_user) (M : msg_env eap_user) (T : tls_process_env)
    (sm : eap_sm eap_user) (ssl : eap_ssl_data) (data : eap_ttls_data) (id : Nat)
    (in_buf : List Nat) :
    (data.state = .FAILURE →
      (eap_ttls_buildReq K A B Me sm ssl data id).data.state = .FAILURE ∧
      (eap_ttls_process_msg K A E M sm data in_buf).data.state = .FAILURE ∧
      (eap_ttls_process K A E M T sm data).2.state = .FAILURE) ∧
    (data.state = .START ∨ data.state = .SUCCESS →
      (eap_ttls_process_msg K A E M sm data in_buf).data = data ∧
      (eap_ttls_process_msg K A E M sm data in_buf).calls = []) := by
  constructor
  · intro h
    refine ⟨?_, ?_, ?_⟩
    · rw [buildReq_failure K A B Me sm ssl data id h]
      exact h
    · rw [process_msg_other K A E M sm data in_buf (Or.inr (Or.inr h))]
      exact h
    · unfold eap_ttls_process
      dsimp only
      split
      · rfl
      · exact run_callbacks_failure K A E M _ _ sm data h
  · intro h
    have h2 : data.state = .START ∨ data.state = .SUCCESS ∨ data.state = .FAILURE := by
      rcases h with h | h
      · exact Or.inl h
      · exact Or.inr (Or.inl h)
    rw [process_msg_other K A E M sm data in_buf h2]
    exact ⟨rfl, rfl⟩

/-- Witness of C29: a failed session stays failed through a request, a message with
an inner-EAP payload and a run of the entry point that calls both callbacks. -/
theorem failure_is_terminal_witness :
    (eap_ttls_buildReq hostap_consts allocator.total sample_build_env sample_method_env
      sample_sm (sample_ssl .MSG) { sample_session with state := .FAILURE } 9).data.state =
      .FAILURE ∧
    (eap_ttls_process_msg hostap_consts allocator.total sample_short_eap_env
      (ttls_msg_env sample_method_env 0) sample_sm { sample_session with state := .FAILURE }
      [1, 2, 3]).data.state = .FAILURE ∧
    (eap_ttls_process hostap_consts allocator.total sample_short_eap_env
      (ttls_msg_env sample_method_env 0) ⟨[.proc_version 0, .proc_msg [1, 2, 3]], 0, 0⟩
      sample_sm { sample_session with state := .FAILURE }).2.state = .FAILURE :=
  (failure_is_terminal hostap_consts allocator.total sample_build_env sample_method_env
    sample_short_eap_env (ttls_msg_env sample_method_env 0)
    ⟨[.proc_version 0, .proc_msg [1, 2, 3]], 0, 0⟩ sample_sm (sample_ssl .MSG)
    { sample_session with state := .FAILURE } 9 [1, 2, 3]).1 rfl

/-- C21: for every session with `ttls_version = 0` whose state is not
`PHASE_FINISHED`, the state is not `PHASE_FINISHED` after
`eap_ttls_process_phase2_pap`, `..._chap`, `..._mschap`,
`eap_ttls_process_phase2_eap_response`, `eap_ttls_process_phase2_eap`, and after
`eap_ttls_process_msg` in state `PHASE2_MSCHAPV2_RESP` (the MS-CHAPv2 acknowledgment);
and in state `PHASE2_METHOD`, a response that is not a Nak, that the method's `check`
accepts and after which the method is done with success, leaves the state `SUCCESS`. -/
theorem base_protocol_skips_phase_finished (K : ttls_consts) (A : allocator) (X : ext_env)
    (Me : method_env) (E : phase2_env eap_user) (M : msg_env eap_user)
    (sm : eap_sm eap_user) (data : eap_ttls_data) (hv : data.ttls_version = 0)
    (hs : data.state ≠ .PHASE_FINISHED) :
    (∀ w, (eap_ttls_process_phase2_pap K sm data w).state ≠ .PHASE_FINISHED) ∧
    (∀ c w, (eap_ttls_process_phase2_chap K A X sm data c w).state ≠ .PHASE_FINISHED) ∧
    (∀ c r, (eap_ttls_process_phase2_mschap K A X sm data c r).state ≠ .PHASE_FINISHED) ∧
    (∀ in_data in_len,
      (eap_ttls_process_phase2_eap_response K A Me sm data in_data in_len).data.state ≠
        .PHASE_FINISHED) ∧
    (∀ eap, (eap_ttls_process_phase2_eap K A Me sm data eap).data.state ≠ .PHASE_FINISHED) ∧
    (∀ in_buf, data.state = .PHASE2_MSCHAPV2_RESP →
      (eap_ttls_process_msg K A E M sm data in_buf).data.state ≠ .PHASE_FINISHED) ∧
    (∀ (m priv : Nat) (in_data : List Nat) (in_len : Nat),
      data.state = .PHASE2_METHOD → data.phase2_method = some m →
      data.phase2_priv = some priv →
      ¬ (in_len > sizeof_eap_hdr ∧ in_data.getD sizeof_eap_hdr 0 = K.EAP_TYPE_NAK) →
      Me.check m sm priv (in_data.take in_len) = false →
      Me.isDone m (Me.process m sm priv (in_data.take in_len)).1
        (Me.process m sm priv (in_data.take in_len)).2 = true →
      Me.isSuccess m (Me.process m sm priv (in_data.take in_len)).1
        (Me.process m sm priv (in_data.take in_len)).2 = true →
      (eap_ttls_process_phase2_eap_response K A Me sm data in_data in_len).data.state =
        .SUCCESS) := by
  have hbase : ∀ s : ttls_state,
      (s = .FAILURE ∨ s = (if data.ttls_version > 0 then .PHASE_FINISHED else .SUCCESS)) →
      s ≠ .PHASE_FINISHED := by
    intro s h
    rw [hv] at h
    rcases h with h | h
    · rw [h]; decide
    · rw [h]; decide
  refine ⟨fun w => hbase _ (pap_state K sm data w), fun c w => hbase _ (chap_state K A X sm data c w),
    fun c r => hbase _ (mschap_state K A X sm data c r),
    fun in_data in_len => inner_eap_step_base data _ (eap_response_step K A Me sm data _ _) hv hs,
    fun eap => inner_eap_step_base data _ (eap_step K A Me sm data eap) hv hs, ?_, ?_⟩
  · intro in_buf hst
    rw [eap_ttls_process_msg_ack K A E M sm data in_buf hst]
    dsimp only
    rcases start_tnc_state K M sm
      (if data.mschapv2_resp_ok ≠ 0 ∧ in_buf.length = 0 then
        eap_ttls_state data (if data.ttls_version > 0 then .PHASE_FINISHED else .SUCCESS)
      else eap_ttls_state data .FAILURE) with h | h | h
    · rw [h, hv]
      split_ifs with h1 h2
      · exact absurd h2 (by decide)
      · simp [eap_ttls_state]
      · simp [eap_ttls_state]
    · rw [h]; decide
    · rw [h]; decide
  · intro m priv in_data in_len hst hm hp hnak hc hd hsucc
    rw [eap_response_process_eq K A Me sm data in_data in_len m priv hp hm hnak hc, hd, hsucc]
    simp only [Bool.true_eq_false, if_false]
    apply method_done_success
    · split <;> exact hst
    · have : (if (Me.process m sm priv (in_data.take in_len)).1.method_pending =
            K.METHOD_PENDING_WAIT then
          { data with
            phase2_priv := some (Me.process m sm priv (in_data.take in_len)).2
            pending_phase2_eap_resp :=
              if A.wpabuf_alloc (in_data.take in_len).length then some (in_data.take in_len)
              else none }
        else
          { data with
            phase2_priv := some (Me.process m sm priv (in_data.take in_len)).2 }).ttls_version
          = data.ttls_version := by
        split <;> rfl
      rw [this, hv]
      decide

/-- Witness of C21: under the base protocol the sample method, done with success
after one frame, takes the session from `PHASE2_METHOD` to `SUCCESS`. -/
theorem base_protocol_skips_phase_finished_witness :
    (eap_ttls_process_phase2_eap_response hostap_consts allocator.total sample_method_env
      sample_sm sample_method_session (sample_inner_response 4 0) 6).data.state = .SUCCESS :=
  (base_protocol_skips_phase_finished hostap_consts allocator.total sample_ext
    sample_method_env sample_short_eap_env (ttls_msg_env sample_method_env 0) sample_sm
    sample_method_session rfl (by decide)).2.2.2.2.2.2 4 0 (sample_inner_response 4 0) 6 rfl
    rfl rfl (by decide) rfl rfl rfl

/-- C22: for every inner EAP response of more than `sizeof (struct eap_hdr)` = 4 bytes
whose type byte is `EAP_TYPE_NAK`, given to `eap_ttls_process_phase2_eap_response`
while the inner method's private data is set, with `sm1` the state machine after
`eap_sm_process_nak`: the frame is given neither to `check` nor to `process`; if `sm1`
has no user record, or its `user_eap_method_index` is at least `EAP_MAX_METHODS`, or
the method at that index is `EAP_TYPE_NONE`, the state becomes `FAILURE` and nothing
else is called; otherwise `eap_ttls_phase2_eap_init` is called with the index
increased by one, for the type that the `u8` variable `next_type` holds, which is the
method number at that index modulo 256 (the method at that index itself when its
number is below 256); the state is unchanged when it returns 0 and `FAILURE` when it
does not, the method's `init` is called when that type is registered, and the index is
exactly one more when `init` and `reset` of the inner methods leave it alone. -/
theorem eap_response_nak_next_method (K : ttls_consts) (A : allocator) (Me : method_env)
    (sm : eap_sm eap_user) (data : eap_ttls_data) (in_data : List Nat) (in_len priv : Nat)
    (sm1 : eap_sm eap_user) (R : inner_result)
    (hp : data.phase2_priv = some priv) (hlen : in_len > sizeof_eap_hdr)
    (hnak : in_data.getD sizeof_eap_hdr 0 = K.EAP_TYPE_NAK)
    (hsm1 : sm1 = Me.eap_sm_process_nak sm
      ((in_data.drop (sizeof_eap_hdr + 1)).take (in_len - sizeof_eap_hdr - 1)))
    (hR : R = eap_ttls_process_phase2_eap_response K A Me sm data in_data in_len) :
    (∀ m buf, method_call.check m buf ∉ R.calls ∧ method_call.process m buf ∉ R.calls) ∧
    ((sm1.user = none ∨ sm1.user_eap_method_index ≥ K.EAP_MAX_METHODS ∨
        ∃ u, sm1.user = some u ∧
          u.methods.getD sm1.user_eap_method_index K.EAP_TYPE_NONE = K.EAP_TYPE_NONE) →
      R.data.state = .FAILURE ∧ R.calls = [] ∧ R.sm = sm1) ∧
    (∀ (u : eap_user) (t : Nat) (r : inner_result × Int), sm1.user = some u →
      sm1.user_eap_method_index < K.EAP_MAX_METHODS →
      t = u.methods.getD sm1.user_eap_method_index K.EAP_TYPE_NONE →
      t ≠ K.EAP_TYPE_NONE →
      r = eap_ttls_phase2_eap_init Me
        { sm1 with user_eap_method_index := sm1.user_eap_method_index + 1 } data (t % 256) →
      R.sm = r.1.sm ∧ R.calls = r.1.calls ∧
      (r.2 = 0 → R.data = r.1.data ∧ R.data.state = data.state ∧
        R.data.phase2_method = some (t % 256)) ∧
      (r.2 ≠ 0 → R.data.state = .FAILURE) ∧
      (Me.eap_server_get_eap_method (t % 256) = true →
        method_call.init (t % 256) ∈ R.calls) ∧
      (t < 256 →
        (Me.eap_server_get_eap_method t = true → method_call.init t ∈ R.calls) ∧
        (r.2 = 0 → R.data.phase2_method = some t)) ∧
      ((∀ t s, (Me.init t s).1.user_eap_method_index = s.user_eap_method_index) →
        (∀ m s p, (Me.reset m s p).user_eap_method_index = s.user_eap_method_index) →
        R.sm.user_eap_method_index = sm1.user_eap_method_index + 1)) := by
  rw [eap_response_nak_eq K A Me sm data in_data in_len priv hp ⟨hlen, hnak⟩] at hR
  have hcases : (sm1.user = none ∨ sm1.user_eap_method_index ≥ K.EAP_MAX_METHODS ∨
      ∃ u, sm1.user = some u ∧
        u.methods.getD sm1.user_eap_method_index K.EAP_TYPE_NONE = K.EAP_TYPE_NONE) ∨
      ∃ u, sm1.user = some u ∧ sm1.user_eap_method_index < K.EAP_MAX_METHODS ∧
        u.methods.getD sm1.user_eap_method_index K.EAP_TYPE_NONE ≠ K.EAP_TYPE_NONE := by
    cases hu : sm1.user with
    | none => exact Or.inl (Or.inl rfl)
    | some u =>
      by_cases hi : sm1.user_eap_method_index < K.EAP_MAX_METHODS
      · by_cases hm : u.methods.getD sm1.user_eap_method_index K.EAP_TYPE_NONE =
            K.EAP_TYPE_NONE
        · exact Or.inl (Or.inr (Or.inr ⟨u, rfl, hm⟩))
        · exact Or.inr ⟨u, rfl, hi, hm⟩
      · exact Or.inl (Or.inr (Or.inl (not_lt.mp hi)))
  have hexh : (sm1.user = none ∨ sm1.user_eap_method_index ≥ K.EAP_MAX_METHODS ∨
      ∃ u, sm1.user = some u ∧
        u.methods.getD sm1.user_eap_method_index K.EAP_TYPE_NONE = K.EAP_TYPE_NONE) →
      R = ⟨sm1, eap_ttls_state data .FAILURE, []⟩ := by
    intro h
    rw [hR, hsm1]
    rw [hsm1] at h
    exact phase2_eap_nak_exhausted K Me sm data _ h
  have hnext : ∀ u, sm1.user = some u →
      sm1.user_eap_method_index < K.EAP_MAX_METHODS →
      u.methods.getD sm1.user_eap_method_index K.EAP_TYPE_NONE ≠ K.EAP_TYPE_NONE →
      R = if (eap_ttls_phase2_eap_init Me
            { sm1 with user_eap_method_index := sm1.user_eap_method_index + 1 } data
            (u.methods.getD sm1.user_eap_method_index K.EAP_TYPE_NONE % 256)).2 ≠ 0 then
          ⟨(eap_ttls_phase2_eap_init Me
              { sm1 with user_eap_method_index := sm1.user_eap_method_index + 1 } data
              (u.methods.getD sm1.user_eap_method_index K.EAP_TYPE_NONE % 256)).1.sm,
            eap_ttls_state (eap_ttls_phase2_eap_init Me
              { sm1 with user_eap_method_index := sm1.user_eap_method_index + 1 } data
              (u.methods.getD sm1.user_eap_method_index K.EAP_TYPE_NONE % 256)).1.data .FAILURE,
            (eap_ttls_phase2_eap_init Me
              { sm1 with user_eap_method_index := sm1.user_eap_method_index + 1 } data
              (u.methods.getD sm1.user_eap_method_index K.EAP_TYPE_NONE % 256)).1.calls⟩
        else (eap_ttls_phase2_eap_init Me
            { sm1 with user_eap_method_index := sm1.user_eap_method_index + 1 } data
            (u.methods.getD sm1.user_eap_method_index K.EAP_TYPE_NONE % 256)).1 := by
    intro u hu hi hm
    rw [hR]
    subst hsm1
    exact phase2_eap_nak_next K Me sm data _ u hu hi hm
  refine ⟨?_, ?_, ?_⟩
  · intro m buf
    rcases hcases with h | ⟨u, hu, hi, hm⟩
    · rw [hexh h]
      exact ⟨List.not_mem_nil _, List.not_mem_nil _⟩
    · have hc := (eap_init_calls Me
        { sm1 with user_eap_method_index := sm1.user_eap_method_index + 1 } data
        (u.methods.getD sm1.user_eap_method_index K.EAP_TYPE_NONE % 256)).1
      have hcalls : R.calls = (eap_ttls_phase2_eap_init Me
          { sm1 with user_eap_method_index := sm1.user_eap_method_index + 1 } data
          (u.methods.getD sm1.user_eap_method_index K.EAP_TYPE_NONE % 256)).1.calls := by
        rw [hnext u hu hi hm]
        split <;> rfl
      rw [hcalls]
      constructor
      · intro hmem
        rcases hc _ hmem with ⟨m1, h1⟩ | h1 <;> cases h1
      · intro hmem
        rcases hc _ hmem with ⟨m1, h1⟩ | h1 <;> cases h1
  · intro h
    rw [hexh h]
    exact ⟨rfl, rfl, rfl⟩
  · intro u t r hu hi ht hm hr
    subst ht
    rw [hnext u hu hi hm, ← hr]
    have hst := eap_init_state Me
      { sm1 with user_eap_method_index := sm1.user_eap_method_index + 1 } data
      (u.methods.getD sm1.user_eap_method_index K.EAP_TYPE_NONE % 256)
    have hcl := eap_init_calls Me
      { sm1 with user_eap_method_index := sm1.user_eap_method_index + 1 } data
      (u.methods.getD sm1.user_eap_method_index K.EAP_TYPE_NONE % 256)
    rw [← hr] at hst hcl
    have hinit : Me.eap_server_get_eap_method (u.methods.getD sm1.user_eap_method_index K.EAP_TYPE_NONE % 256) = true →
        method_call.init (u.methods.getD sm1.user_eap_method_index K.EAP_TYPE_NONE % 256) ∈
          (if r.2 ≠ 0 then
            (⟨r.1.sm, eap_ttls_state r.1.data .FAILURE, r.1.calls⟩ : inner_result)
          else r.1).calls := by
      intro hreg
      have := hcl.2.1 hreg
      split <;> exact this
    have hmeth : r.2 = 0 →
        (if r.2 ≠ 0 then
            (⟨r.1.sm, eap_ttls_state r.1.data .FAILURE, r.1.calls⟩ : inner_result)
          else r.1).data.phase2_method = some (u.methods.getD sm1.user_eap_method_index K.EAP_TYPE_NONE % 256) := by
      intro h0
      rw [if_neg (by rw [h0]; decide)]
      exact (hcl.2.2 h0).1
    refine ⟨by split <;> rfl, by split <;> rfl, ?_, ?_, hinit, ?_, ?_⟩
    · intro h0
      rw [if_neg (by rw [h0]; decide)]
      exact ⟨rfl, hst.1, (hcl.2.2 h0).1⟩
    · intro h0
      rw [if_pos h0]
      rfl
    · intro hlt
      have e : u.methods.getD sm1.user_eap_method_index K.EAP_TYPE_NONE % 256 =
          u.methods.getD sm1.user_eap_method_index K.EAP_TYPE_NONE := Nat.mod_eq_of_lt hlt
      rw [e] at hinit hmeth
      exact ⟨hinit, hmeth⟩
    · intro hi2 hr2
      have := eap_init_sm_index Me
        { sm1 with user_eap_method_index := sm1.user_eap_method_index + 1 } data
        (u.methods.getD sm1.user_eap_method_index K.EAP_TYPE_NONE % 256) hi2 hr2
      rw [← hr] at this
      split <;> exact this

/-- Witness of C22: a Nak in state `PHASE2_METHOD` with the index at 1 and the method
26 at that index starts method 26 and leaves the index at 2; with the index at 2, where
the list ends, the state becomes `FAILURE`; with the method number 260 at the index,
the type initialised is 4. -/
theorem eap_response_nak_next_method_witness :
    ((eap_ttls_process_phase2_eap_response hostap_consts allocator.total sample_method_env
        { sample_sm with user_eap_method_index := 1 } sample_method_session
        (sample_inner_response 3 0) 6).calls = [.reset 4, .init 26] ∧
      (eap_ttls_process_phase2_eap_response hostap_consts allocator.total sample_method_env
        { sample_sm with user_eap_method_index := 1 } sample_method_session
        (sample_inner_response 3 0) 6).data.state = .PHASE2_METHOD ∧
      (eap_ttls_process_phase2_eap_response hostap_consts allocator.total sample_method_env
        { sample_sm with user_eap_method_index := 1 } sample_method_session
        (sample_inner_response 3 0) 6).sm.user_eap_method_index = 2) ∧
    ((eap_ttls_process_phase2_eap_response hostap_consts allocator.total sample_method_env
        { sample_sm with user_eap_method_index := 2 } sample_method_session
        (sample_inner_response 3 0) 6).data.state = .FAILURE ∧
      (eap_ttls_process_phase2_eap_response hostap_consts allocator.total sample_method_env
        { sample_sm with user_eap_method_index := 2 } sample_method_session
        (sample_inner_response 3 0) 6).calls = [] ∧
      (eap_ttls_process_phase2_eap_response hostap_consts allocator.total sample_method_env
        { sample_sm with user_eap_method_index := 2 } sample_method_session
        (sample_inner_response 3 0) 6).sm = { sample_sm with user_eap_method_index := 2 }) ∧
    ((eap_ttls_process_phase2_eap_response hostap_consts allocator.total sample_method_env
        { sample_sm with
          user := some { sample_user with methods := [4, 260, 0, 0, 0, 0, 0, 0] }
          user_eap_method_index := 1 } sample_method_session
        (sample_inner_response 3 0) 6).calls = [.reset 4, .init 4] ∧
      (eap_ttls_process_phase2_eap_response hostap_consts allocator.total sample_method_env
        { sample_sm with
          user := some { sample_user with methods := [4, 260, 0, 0, 0, 0, 0, 0] }
          user_eap_method_index := 1 } sample_method_session
        (sample_inner_response 3 0) 6).data.phase2_method = some 4) :=
  ⟨⟨rfl, rfl, rfl⟩,
    (eap_response_nak_next_method hostap_consts allocator.total sample_method_env
      { sample_sm with user_eap_method_index := 2 } sample_method_session
      (sample_inner_response 3 0) 6 0 { sample_sm with user_eap_method_index := 2 } _ rfl
      (by decide) rfl rfl rfl).2.1 (Or.inr (Or.inr ⟨sample_user, rfl, rfl⟩)),
    ⟨rfl, rfl⟩⟩

/-- C25: (1) when `eap_ttls_process_phase2_eap_response` hands a frame to the inner
method (private data and method table set, no Nak, `check` accepts) and the method
leaves `method_pending` at `METHOD_PENDING_WAIT`, the frame is given to `process` and,
if `wpabuf_dup` succeeds, the pending slot holds a copy of it when the function ends,
whatever it held before; (2) a pass of `eap_ttls_process_phase2` that decrypts and
decodes an inner-EAP payload ends with the session the handler leaves, so the copy is
kept; (3) a pass of `eap_ttls_process_phase2` that starts with a pending frame hands
that frame to `eap_ttls_process_phase2_eap` and ends with the pending slot NULL,
also when the method has reported `METHOD_PENDING_WAIT` again. -/
theorem pending_frame_dropped_on_redelivery (K : ttls_consts) (A : allocator) (X : ext_env)
    (Me : method_env) (E : phase2_env eap_user) (sm : eap_sm eap_user)
    (data : eap_ttls_data) :
    (∀ (in_data : List Nat) (in_len m priv : Nat),
      data.phase2_priv = some priv → data.phase2_method = some m →
      ¬ (in_len > sizeof_eap_hdr ∧ in_data.getD sizeof_eap_hdr 0 = K.EAP_TYPE_NAK) →
      Me.check m sm priv (in_data.take in_len) = false →
      (Me.process m sm priv (in_data.take in_len)).1.method_pending = K.METHOD_PENDING_WAIT →
      A.wpabuf_alloc (in_data.take in_len).length = true →
      method_call.process m (in_data.take in_len) ∈
        (eap_ttls_process_phase2_eap_response K A Me sm data in_data in_len).calls ∧
      (eap_ttls_process_phase2_eap_response K A Me sm data in_data
        in_len).data.pending_phase2_eap_resp = some (in_data.take in_len)) ∧
    (∀ (in_buf : List Nat) (p : avp_parse_result) (eap : List Nat),
      data.pending_phase2_eap_resp = none →
      A.os_malloc ((in_buf.length + 500) * 3) = true →
      0 ≤ (E.tls_connection_decrypt in_buf ((in_buf.length + 500) * 3)).1 →
      data.state ≠ .PHASE_FINISHED →
      eap_ttls_avp_parse K A (E.tls_connection_decrypt in_buf ((in_buf.length + 500) * 3)).2
        (E.tls_connection_decrypt in_buf ((in_buf.length + 500) * 3)).1.toNat = some p →
      p.ret = 0 → p.parse.user_name = none → p.parse.eap = some eap →
      (eap_ttls_process_phase2 K A (ttls_phase2_env K A X Me E) sm data in_buf).calls =
        [.eap eap] ∧
      (eap_ttls_process_phase2 K A (ttls_phase2_env K A X Me E) sm data in_buf).data =
        (eap_ttls_process_phase2_eap K A Me sm data eap).data) ∧
    (∀ (pending in_buf : List Nat), data.pending_phase2_eap_resp = some pending →
      (eap_ttls_process_phase2 K A (ttls_phase2_env K A X Me E) sm data in_buf).calls =
        [.eap pending] ∧
      (eap_ttls_process_phase2 K A (ttls_phase2_env K A X Me E) sm data in_buf).sm =
        (eap_ttls_process_phase2_eap K A Me sm data pending).sm ∧
      (eap_ttls_process_phase2 K A (ttls_phase2_env K A X Me E) sm data
        in_buf).data.pending_phase2_eap_resp = none) := by
  refine ⟨?_, ?_, ?_⟩
  · intro in_data in_len m priv hp hm hnak hc hwait ha
    rw [eap_response_process_eq K A Me sm data in_data in_len m priv hp hm hnak hc]
    simp only [hwait, if_true, ha]
    split
    · exact ⟨by simp, rfl⟩
    · split
      · exact ⟨by simp, rfl⟩
      · have h := method_done_pending K Me (Me.process m sm priv (in_data.take in_len)).1
          { data with
            phase2_priv := some (Me.process m sm priv (in_data.take in_len)).2
            pending_phase2_eap_resp := some (in_data.take in_len) }
          m (Me.process m sm priv (in_data.take in_len)).2
          [.check m (in_data.take in_len), .process m (in_data.take in_len)]
        exact ⟨h.2 _ (by simp), h.1⟩
  · intro in_buf p eap hpend halloc hdec hst hparse hret huser heap
    have hd : (ttls_phase2_env K A X Me E).tls_connection_decrypt = E.tls_connection_decrypt :=
      rfl
    rw [eap_ttls_process_phase2_parsed K A (ttls_phase2_env K A X Me E) sm data in_buf p hpend
      halloc (by rw [hd]; exact hdec) hst (by rw [hd]; exact hparse) hret,
      phase2_after_parse_direct K A (ttls_phase2_env K A X Me E) sm data p.parse huser
        (by rw [heap]; simp),
      phase2_dispatch_eap (ttls_phase2_env K A X Me E) sm data p.parse eap heap]
    exact ⟨rfl, rfl⟩
  · intro pending in_buf hpend
    unfold eap_ttls_process_phase2
    rw [hpend]
    exact ⟨rfl, rfl, rfl⟩

/-- Witness of C25: a session that holds a pending frame on which the sample method
reports `METHOD_PENDING_WAIT` again: the handler keeps a copy of the frame, and the
pass that called it ends with the pending slot NULL. -/
theorem pending_frame_dropped_on_redelivery_witness :
    (eap_ttls_process_phase2_eap hostap_consts allocator.total sample_method_env sample_sm
      { sample_method_session with
        pending_phase2_eap_resp := some (sample_inner_response 4 255) }
      (sample_inner_response 4 255)).sm.method_pending = hostap_consts.METHOD_PENDING_WAIT ∧
    (eap_ttls_process_phase2_eap hostap_consts allocator.total sample_method_env sample_sm
      { sample_method_session with
        pending_phase2_eap_resp := some (sample_inner_response 4 255) }
      (sample_inner_response 4 255)).calls =
      [.check 4 (sample_inner_response 4 255), .process 4 (sample_inner_response 4 255)] ∧
    (eap_ttls_process_phase2_eap hostap_consts allocator.total sample_method_env sample_sm
      { sample_method_session with
        pending_phase2_eap_resp := some (sample_inner_response 4 255) }
      (sample_inner_response 4 255)).data.pending_phase2_eap_resp =
      some (sample_inner_response 4 255) ∧
    (eap_ttls_process_phase2 hostap_consts allocator.total
      (ttls_phase2_env hostap_consts allocator.total sample_ext sample_method_env
        sample_short_eap_env) sample_sm
      { sample_method_session with
        pending_phase2_eap_resp := some (sample_inner_response 4 255) }
      [1, 2, 3]).data.pending_phase2_eap_resp = none :=
  ⟨rfl, rfl, rfl,
    ((pending_frame_dropped_on_redelivery hostap_consts allocator.total sample_ext
      sample_method_env sample_short_eap_env sample_sm
      { sample_method_session with
        pending_phase2_eap_resp := some (sample_inner_response 4 255) }).2.2
      (sample_inner_response 4 255) [1, 2, 3] rfl).2.2⟩

/-- Counterexample to C26: the session reached by `eap_ttls_init`, two calls of
`eap_ttls_buildReq` and one call of `eap_ttls_process_msg` on an inner EAP frame of one
byte has the method table and the private data of EAP-Identity set, while its state is
`PHASE2_START` and no TNC method has been started. -/
theorem phase2_handle_set_in_phase2_start :
    ttls_reaches hostap_consts sample_identity_session ∧
    sample_identity_session.phase2_method ≠ none ∧
    sample_identity_session.phase2_priv ≠ none ∧
    sample_identity_session.state = .PHASE2_START ∧
    sample_identity_session.state ≠ .PHASE2_METHOD ∧
    sample_identity_session.tnc_started = 0 :=
  ⟨sample_identity_session_reached, by decide, by decide, rfl, by decide, rfl⟩

/-- C26, amended: in every session reached from `eap_ttls_init` through
`eap_ttls_buildReq` and `eap_ttls_process_msg`, `phase2_method` or `phase2_priv` is
non-NULL only if the state is neither `START` nor `PHASE1`: in the states `START` and
`PHASE1` both pointers are NULL. -/
theorem phase2_handle_only_after_phase1 (K : ttls_consts) (data : eap_ttls_data)
    (h : ttls_reaches K data) :
    (data.phase2_method ≠ none ∨ data.phase2_priv ≠ none) →
      data.state ≠ .START ∧ data.state ≠ .PHASE1 := by
  induction h with
  | init I sm data hinit =>
    intro hn
    have hf := eap_ttls_init_fresh K I sm data hinit
    rcases hn with hn | hn
    · exact absurd hf.2.1 hn
    · exact absurd hf.2.2 hn
  | buildReq A B Me sm ssl data id _ ih =>
    exact buildReq_keeps_phase2 K A B Me sm ssl data id ih
  | process_msg A X Me E phase1 sm data in_buf _ _ ih =>
    exact process_msg_keeps_phase2 K A X Me E phase1 sm data in_buf ih

/-- Witness of C26, amended: the session of the counterexample is in state
`PHASE2_START`. -/
theorem phase2_handle_only_after_phase1_witness :
    sample_identity_session.state ≠ .START ∧ sample_identity_session.state ≠ .PHASE1 :=
  phase2_handle_only_after_phase1 hostap_consts sample_identity_session
    sample_identity_session_reached (Or.inl (by decide))

/-- C31: for every buffer `b` made of well-formed padded AVPs whose last AVP is `a`,
and every buffer `b1` made of the same bytes up to the declared length of `a` followed
by only the first `j` bytes of the padding of `a` (any `j`: some, all or none of the
padding removed), `eap_ttls_avp_parse (b1)` returns the same value and the same parsed
set as `eap_ttls_avp_parse (b)`, namely those of the AVP-by-AVP decoding
`wire_parse`, whatever the memory holds after either buffer. Buffers are shorter than
`2^31` bytes. -/
theorem avp_parse_last_padding_optional (K : ttls_consts) (A : allocator)
    (l : List wire_avp) (a : wire_avp) (j : Nat) (junk junk1 : Nat → Nat)
    (hw : ∀ x ∈ l ++ [a], x.wf K) (hlen : (wire_bytes (l ++ [a])).length < 2 ^ 31) :
    ∃ r r1,
      eap_ttls_avp_parse K A (buf_mem (wire_bytes (l ++ [a])) junk)
        (wire_bytes (l ++ [a])).length = some r ∧
      eap_ttls_avp_parse K A (buf_mem (wire_bytes l ++ a.body ++ a.pad.take j) junk1)
        (wire_bytes l ++ a.body ++ a.pad.take j).length = some r1 ∧
      r1.ret = r.ret ∧ r1.parse = r.parse ∧
      (r.ret, r.parse) = wire_parse K A eap_ttls_avp.zero (l ++ [a]) ∧
      (wire_bytes l ++ a.body ++ a.pad.take j).length + (a.pad.length - j) =
        (wire_bytes (l ++ [a])).length := by
  have hfull := eap_ttls_avp_parse_wire K A (l ++ [a]) junk hw hlen
  have hb : (wire_bytes (l ++ [a])).length =
      (wire_bytes l).length + (a.body.length + a.pad.length) := by
    rw [wire_bytes_append, wire_bytes_cons, wire_bytes_nil, List.append_nil,
      List.length_append]
    unfold wire_avp.bytes
    rw [List.length_append]
  have htk : (a.pad.take j).length ≤ a.pad.length := by
    rw [List.length_take]
    exact Nat.min_le_right _ _
  have hb1 : (wire_bytes l ++ a.body ++ a.pad.take j).length =
      (wire_bytes l).length + (a.body ++ a.pad.take j).length := by
    rw [List.append_assoc, List.length_append]
  have hcut : (eap_ttls_avp_parse K A
      (buf_mem (wire_bytes l ++ a.body ++ a.pad.take j) junk1)
      (wire_bytes l ++ a.body ++ a.pad.take j).length).map avp_parse_result.outcome =
      some (wire_parse K A eap_ttls_avp.zero (l ++ [a])) := by
    unfold eap_ttls_avp_parse
    rw [size_t_to_int_of_lt _ (by
      rw [hb1, List.length_append]
      omega)]
    have hm : mem_holds (buf_mem (wire_bytes l ++ a.body ++ a.pad.take j) junk1) 0
        (wire_bytes l ++ (a.body ++ a.pad.take j)) := by
      rw [← List.append_assoc]
      exact buf_mem_holds_all _ junk1
    have hc : (((wire_bytes l ++ a.body ++ a.pad.take j).length : Nat) : Int) =
        ((wire_bytes l).length : Int) + ((a.body ++ a.pad.take j).length : Int) := by
      rw [hb1]
      push_cast
      rfl
    rw [hc]
    exact avp_parse_loop_wire_cut K A _ l a (a.pad.take j).length _ (a.pad.take j) hw htk rfl
      hm (le_of_eq hb1.symm)
  obtain ⟨r, hr, hr1, hr2⟩ := outcome_some _ _ _ hfull
  obtain ⟨r1, hs, hs1, hs2⟩ := outcome_some _ _ _ hcut
  refine ⟨r, r1, hr, hs, by rw [hs1, hr1], by rw [hs2, hr2], by rw [hr1, hr2], ?_⟩
  rw [hb, hb1, List.length_append, List.length_take]
  omega

/-- Witness of C31: two EAP-Message AVPs around a User-Name AVP, the last one with two
bytes of padding; with both padding bytes removed the decoder gives the same result. -/
theorem avp_parse_last_padding_optional_witness :
    ∃ r r1,
      eap_ttls_avp_parse hostap_consts allocator.total
        (buf_mem (wire_bytes (sample_eap_avps.take 2 ++ [⟨79, 0, none, [4, 5], [0, 0]⟩]))
          (fun _ => 0))
        (wire_bytes (sample_eap_avps.take 2 ++ [⟨79, 0, none, [4, 5], [0, 0]⟩])).length =
        some r ∧
      eap_ttls_avp_parse hostap_consts allocator.total
        (buf_mem (wire_bytes (sample_eap_avps.take 2) ++
          (⟨79, 0, none, [4, 5], [0, 0]⟩ : wire_avp).body ++
          (⟨79, 0, none, [4, 5], [0, 0]⟩ : wire_avp).pad.take 0) (fun _ => 255))
        (wire_bytes (sample_eap_avps.take 2) ++
          (⟨79, 0, none, [4, 5], [0, 0]⟩ : wire_avp).body ++
          (⟨79, 0, none, [4, 5], [0, 0]⟩ : wire_avp).pad.take 0).length = some r1 ∧
      r1.ret = r.ret ∧ r1.parse = r.parse ∧
      (r.ret, r.parse) = wire_parse hostap_consts allocator.total eap_ttls_avp.zero
        (sample_eap_avps.take 2 ++ [⟨79, 0, none, [4, 5], [0, 0]⟩]) ∧
      (wire_bytes (sample_eap_avps.take 2) ++
          (⟨79, 0, none, [4, 5], [0, 0]⟩ : wire_avp).body ++
          (⟨79, 0, none, [4, 5], [0, 0]⟩ : wire_avp).pad.take 0).length +
        ((⟨79, 0, none, [4, 5], [0, 0]⟩ : wire_avp).pad.length - 0) =
        (wire_bytes (sample_eap_avps.take 2 ++ [⟨79, 0, none, [4, 5], [0, 0]⟩])).length :=
  avp_parse_last_padding_optional hostap_consts allocator.total (sample_eap_avps.take 2)
    ⟨79, 0, none, [4, 5], [0, 0]⟩ 0 (fun _ => 0) (fun _ => 255) (by decide) (by decide)

end EapTtls
